import Mathlib

/-! WattMeterJR firmware: register access layer, energy accumulator and the
buffered SD card logger.

A shallow embedding of `ATM90E32.cpp`, `RegisterAccess.cpp`,
`EnergyAccumulator.cpp` and `SDCardLogger.cpp`.

Modelling conventions.

* `uint8_t`, `uint16_t`, `uint32_t` values are natural numbers; every place
  where the C++ narrows a value reduces it modulo the width explicitly.
* `float` and `double` values are rationals: the arithmetic is exact, IEEE
  rounding and the non-finite values are not represented.  Where the source
  can divide by zero right before an integer cast, the model routes the
  result through `Platform`, which stands for whatever the target does with a
  conversion the language leaves undefined.
* Where rounding or a non-finite value decides a property, the function has a
  second embedding with the suffix `F32` or `F64` (section Floating point):
  every operation is rounded to binary32 or binary64, nearest and ties to
  even, and a value is a `FloatValue` (finite, an infinity or a NaN) or, where
  only finiteness matters, an `Option` whose `none` is a value that is not
  finite.
* The metering chip is a bank of 16-bit cells addressed by the low 15 bits of
  the address word (the top bit of the word is the bus read/write flag), plus
  the list of bus transactions performed so far.  A cell keeps the last word
  written to it.
* Shifts are shifts of natural numbers.  They agree with the C++ shifts of
  `int` operands for every count the language defines (below 32); the bit
  positions and lengths of the statements below stay within the 16-bit word.
* The descriptor table `registers[]` is a parameter of every function that
  consults it.
* `millis()` is an argument of the functions that call it; serial console
  output is not represented.
* The logger works on a `World`: its own fields, the chip, the SD card and the
  accumulator it points to.  Pins, the clock, `localtime` and the outcome of
  each allocation come from `Env`; the outcome of `SD.begin`, `mkdir` and
  `open` is part of the `SDCard`.  The buffer is slot memory indexed by every
  natural number together with the capacity, so that a store past the
  capacity is a store into the slot behind the array.
* A log file is its list of lines; a row records, per field, the value and the
  number of decimals it is printed with, not the printed text.
* A run of the accumulator is a list of calls of its public interface, each
  with its arguments and the clock values it reads, applied in order to the
  state the constructor leaves.
-/

namespace WattMeterJR

/-! ## RegisterTypes.h -/

/-- Access type of a register. -/
inductive RWType where
  | RW_READ
  | RW_WRITE
  | RW_READWRITE
  | RW_READWRITE1CLEAR
  | RW_READCLEAR
  deriving DecidableEq, Repr

/-- Data type of a register. -/
inductive RegType where
  | DT_UINT8
  | DT_INT8
  | DT_UINT16
  | DT_INT16
  | DT_UINT32
  | DT_INT32
  | DT_BIT
  | DT_BITFIELD
  deriving DecidableEq, Repr

/-- Register descriptor structure.  `address0`, `address1` are the two entries
of `address[2]`; `convertFunc` is `none` for a null function pointer. -/
structure RegisterDescriptor where
  friendlyName : String
  name : String
  address0 : Nat
  address1 : Nat
  regCount : Nat
  rwType : RWType
  regType : RegType
  bitPos : Nat
  bitLen : Nat
  scale : ℚ
  convertFunc : Option (Nat → ℚ)
  unit : String

/-! ## ATM90E32.cpp: the bus transport -/

/-- One bus transaction: the cell addressed and, for a write, the data word. -/
inductive BusOp where
  | read (cell : Nat)
  | write (cell : Nat) (value : Nat)
  deriving DecidableEq, Repr

/-- The chip as seen from the bus: cell contents and the transactions so far. -/
structure Chip where
  mem : Nat → Nat
  log : List BusOp

/-- Bitwise complement of a 32-bit `int` operand, as an unsigned bit pattern. -/
def not32 (x : Nat) : Nat := 2 ^ 32 - 1 - x % 2 ^ 32

/-- `ATM90E32::read16`: one read transaction of the cell `addr & 0x7FFF`. -/
def read16 (c : Chip) (addr : Nat) : Nat × Chip :=
  let cell := addr % 65536 &&& 0x7FFF
  (c.mem cell % 65536, { c with log := c.log ++ [BusOp.read cell] })

/-- `ATM90E32::write16`: one write transaction; `value` is a `uint16_t`. -/
def write16 (c : Chip) (addr : Nat) (value : Nat) : Chip :=
  let cell := addr % 65536 &&& 0x7FFF
  let v := value % 65536
  { mem := fun a => if a = cell then v else c.mem a,
    log := c.log ++ [BusOp.write cell v] }

/-- `ATM90E32::read32`: high word from `addrHigh`, then low word from `addrLow`. -/
def read32 (c : Chip) (addrHigh addrLow : Nat) : Nat × Chip :=
  let (highWord, c1) := read16 c addrHigh
  let (lowWord, c2) := read16 c1 addrLow
  (((highWord <<< 16) % 2 ^ 32) ||| lowWord, c2)

/-- `ATM90E32::readBit`. -/
def readBit (c : Chip) (addr pos : Nat) : Bool × Chip :=
  let (regVal, c1) := read16 c addr
  (((regVal >>> pos) &&& 0x01) != 0, c1)

/-- The `uint16_t mask = ((1 << len) - 1) << pos` of the bit-field helpers. -/
def fieldMask (pos len : Nat) : Nat := (((1 <<< len) - 1) <<< pos) % 65536

/-- `ATM90E32::readBitfield`. -/
def readBitfield (c : Chip) (addr pos len : Nat) : Nat × Chip :=
  let (regVal, c1) := read16 c addr
  let mask := fieldMask pos len
  ((regVal &&& mask) >>> pos, c1)

/-- `ATM90E32::writeBit`: read-modify-write of one bit. -/
def writeBit (c : Chip) (addr pos : Nat) (value : Bool) : Chip :=
  let (regVal, c1) := read16 c addr
  let regVal' :=
    if value then (regVal ||| (1 <<< pos)) % 65536
    else (regVal &&& not32 (1 <<< pos)) % 65536
  write16 c1 addr regVal'

/-- `ATM90E32::writeBitfield`: read-modify-write of a bit range; `value` is a
`uint16_t` parameter. -/
def writeBitfield (c : Chip) (addr pos len value : Nat) : Chip :=
  let (regVal, c1) := read16 c addr
  let mask := fieldMask pos len
  let value16 := value % 65536
  let regVal' := ((regVal &&& not32 mask) ||| ((value16 <<< pos) &&& mask)) % 65536
  write16 c1 addr regVal'

/-! ## Integer conversions -/

/-- Two's-complement value of the low `w` bits of `x`: the conversion of an
unsigned value to a signed integer type of width `w`. -/
def toSigned (w : Nat) (x : Nat) : Int :=
  if x % 2 ^ w < 2 ^ (w - 1) then ((x % 2 ^ w : Nat) : Int)
  else ((x % 2 ^ w : Nat) : Int) - (2 ^ w : Nat)

/-- Truncation toward zero, the rounding of a floating to integer conversion. -/
def truncToInt (x : ℚ) : Int := if 0 ≤ x then ⌊x⌋ else ⌈x⌉

/-- What the target produces for conversions whose result the language leaves
undefined (the truncated value does not fit the destination type, or the
operand is not finite). -/
structure Platform where
  undefU32 : ℚ → Nat
  undefI16 : ℚ → Nat

/-- The conversion `(uint32_t)x` of a finite `float`. -/
def floatToU32 (p : Platform) (x : ℚ) : Nat :=
  if 0 ≤ truncToInt x ∧ truncToInt x < 2 ^ 32 then (truncToInt x).toNat
  else p.undefU32 x % 2 ^ 32

/-- The conversion `(int16_t)x` of a finite `float`. -/
def floatToI16 (p : Platform) (x : ℚ) : Int :=
  if -32768 ≤ truncToInt x ∧ truncToInt x ≤ 32767 then truncToInt x
  else toSigned 16 (p.undefI16 x)

/-! ## RegisterAccess.cpp -/

/-- `RegisterAccess::findRegister`: first descriptor whose name compares equal. -/
def findRegister (registers : List RegisterDescriptor) (name : String) :
    Option RegisterDescriptor :=
  registers.find? (fun r => r.name == name)

/-- `RegisterAccess::getRegisterInfo`. -/
def getRegisterInfo (registers : List RegisterDescriptor) (name : String) :
    Option RegisterDescriptor :=
  findRegister registers name

/-- `RegisterAccess::convertRegisterValue`.  `raw` is a `uint32_t`; the decode
function takes a `uint16_t`. -/
def convertRegisterValue (registers : List RegisterDescriptor) (name : String)
    (raw : Nat) : ℚ :=
  let rawValue := raw % 2 ^ 32
  match findRegister registers name with
  | none => 0
  | some reg =>
    match reg.convertFunc, decide (reg.regCount = 1) with
    | some f, true => f (rawValue % 65536)
    | _, _ =>
      if reg.regType = RegType.DT_INT16 ∨ reg.regType = RegType.DT_INT32 then
        if reg.regCount = 1 then (toSigned 16 rawValue : ℚ) * reg.scale
        else (toSigned 32 rawValue : ℚ) * reg.scale
      else (rawValue : ℚ) * reg.scale

/-- `RegisterAccess::readValue`.  The `default:` arm of the source is for
values outside the enumeration. -/
def readValue (reg : RegisterDescriptor) (c : Chip) : Nat × Chip :=
  let addr := reg.address0
  match reg.regType with
  | RegType.DT_BIT =>
    let (b, c1) := readBit c addr reg.bitPos
    (if b then 1 else 0, c1)
  | RegType.DT_BITFIELD => readBitfield c addr reg.bitPos reg.bitLen
  | RegType.DT_UINT8 => readBitfield c addr reg.bitPos 8
  | RegType.DT_INT8 => readBitfield c addr reg.bitPos 8
  | RegType.DT_UINT16 => read16 c addr
  | RegType.DT_INT16 => read16 c addr
  | RegType.DT_UINT32 => read32 c reg.address0 reg.address1
  | RegType.DT_INT32 => read32 c reg.address0 reg.address1

/-- `RegisterAccess::writeValue`; `value` is a `uint32_t`. -/
def writeValue (reg : RegisterDescriptor) (value : Nat) (c : Chip) : Bool × Chip :=
  let addr := reg.address0
  match reg.regType with
  | RegType.DT_BIT => (true, writeBit c addr reg.bitPos (value != 0))
  | RegType.DT_BITFIELD => (true, writeBitfield c addr reg.bitPos reg.bitLen value)
  | RegType.DT_UINT8 => (true, writeBitfield c addr reg.bitPos 8 value)
  | RegType.DT_INT8 => (true, writeBitfield c addr reg.bitPos 8 value)
  | RegType.DT_UINT16 => (true, write16 c addr value)
  | RegType.DT_INT16 => (true, write16 c addr value)
  | RegType.DT_UINT32 =>
    (true, write16 (write16 c reg.address0 ((value >>> 16) &&& 0xFFFF)) reg.address1
      (value &&& 0xFFFF))
  | RegType.DT_INT32 =>
    (true, write16 (write16 c reg.address0 ((value >>> 16) &&& 0xFFFF)) reg.address1
      (value &&& 0xFFFF))

/-- `RegisterAccess::readRegisterRaw`: the value, the success flag and the chip
afterwards. -/
def readRegisterRaw (registers : List RegisterDescriptor) (name : String) (c : Chip) :
    Nat × Bool × Chip :=
  match findRegister registers name with
  | none => (0, false, c)
  | some reg =>
    if reg.rwType = RWType.RW_WRITE then (0, false, c)
    else
      let (v, c1) := readValue reg c
      (v, true, c1)

/-- `RegisterAccess::writeRegisterRaw`; `value` is a `uint32_t`. -/
def writeRegisterRaw (registers : List RegisterDescriptor) (name : String) (value : Nat)
    (c : Chip) : Bool × Chip :=
  match findRegister registers name with
  | none => (false, c)
  | some reg =>
    if reg.rwType = RWType.RW_READ then (false, c)
    else writeValue reg (value % 2 ^ 32) c

/-- `RegisterAccess::readRegister`: the scaled value, the success flag and the
chip afterwards. -/
def readRegister (registers : List RegisterDescriptor) (name : String) (c : Chip) :
    ℚ × Bool × Chip :=
  let (rawValue, readSuccess, c1) := readRegisterRaw registers name c
  if !readSuccess then (0, readSuccess, c1)
  else (convertRegisterValue registers name rawValue, readSuccess, c1)

/-- `RegisterAccess::writeRegister`.  A zero scale makes the quotient
non-finite, so its conversion is the platform's. -/
def writeRegister (p : Platform) (registers : List RegisterDescriptor) (name : String)
    (value : ℚ) (c : Chip) : Bool × Chip :=
  match findRegister registers name with
  | none => (false, c)
  | some reg =>
    if reg.rwType = RWType.RW_READ then (false, c)
    else
      let rawValue :=
        if reg.scale = 0 then p.undefU32 value % 2 ^ 32
        else floatToU32 p (value / reg.scale)
      writeValue reg rawValue c

/-! ## SettingsManager.h: the settings groups the accumulator touches -/

/-- Calibration Registers (raw values). -/
structure CalibrationRegisters where
  PoffsetA : Nat
  QoffsetA : Nat
  PoffsetB : Nat
  QoffsetB : Nat
  PoffsetC : Nat
  QoffsetC : Nat
  PQGainA : Nat
  PhiA : Nat
  PQGainB : Nat
  PhiB : Nat
  PQGainC : Nat
  PhiC : Nat

/-- Energy accumulation settings group. -/
structure EnergyAccumulationSettings where
  energyReadInterval : Nat
  energySaveInterval : Nat
  accumulatedEnergyA : ℚ
  accumulatedEnergyB : ℚ
  accumulatedEnergyC : ℚ
  meterConstant : Nat

/-- The settings store: the two groups above, whether the settings file can be
opened for writing, and the groups as last written to the file. -/
structure SettingsManager where
  energyAccumulation : EnergyAccumulationSettings
  calibrationRegisters : CalibrationRegisters
  sdWritable : Bool
  savedFile : Option (EnergyAccumulationSettings × CalibrationRegisters)

/-- `SettingsManager::saveSettings`: false when the file cannot be opened. -/
def saveSettings (s : SettingsManager) : Bool × SettingsManager :=
  if s.sdWritable then
    (true, { s with savedFile := some (s.energyAccumulation, s.calibrationRegisters) })
  else (false, s)

/-! ## EnergyAccumulator.cpp -/

/-- Calibration state for energy accumulation. -/
structure EnergyCalibrationState where
  calibrating : Bool
  phaseMask : Nat
  startTime : Nat

/-- The accumulator object; `settings` is the store `_settings` points to, or
`none` for a null pointer. -/
structure EnergyAccumulator where
  settings : Option SettingsManager
  accumulatedEnergy : Fin 3 → ℚ
  readInterval : Nat
  saveInterval : Nat
  lastReadTime : Nat
  lastSaveTime : Nat
  calibState : EnergyCalibrationState

/-- `EnergyAccumulator::getPhaseRegisterName`; `none` is the null pointer. -/
def getPhaseRegisterName (phase : Nat) (isPQGain : Bool) : Option String :=
  if isPQGain then
    match phase with
    | 0 => some "PQGainA"
    | 1 => some "PQGainB"
    | 2 => some "PQGainC"
    | _ => none
  else
    match phase with
    | 0 => some "APenergyA"
    | 1 => some "APenergyB"
    | 2 => some "APenergyC"
    | _ => none

/-- `EnergyAccumulator::getMeterConstant`. -/
def getMeterConstant (acc : EnergyAccumulator) : Nat :=
  match acc.settings with
  | some s => s.energyAccumulation.meterConstant % 65536
  | none => 3200

/-- `EnergyAccumulator::readEnergyRegister`: `some wattHours` when it returns
true, `none` (the out-parameter untouched) when it returns false. -/
def readEnergyRegister (registers : List RegisterDescriptor) (acc : EnergyAccumulator)
    (phase : Nat) (c : Chip) : Option ℚ × Chip :=
  match getPhaseRegisterName phase false with
  | none => (none, c)
  | some registerName =>
    let (value, success, c1) := readRegister registers registerName c
    if success then
      let cf := value
      let mc := getMeterConstant acc
      (some (cf * (1000 / (mc : ℚ))), c1)
    else (none, c1)

/-- The local `gainCalc` of `calculateAndApplyGain`:
`(-epsilon / (1 + epsilon)) * 32768` with
`epsilon = (measuredWh - expectedWh) / expectedWh`. -/
def gainCalc (expectedWh measuredWh : ℚ) : ℚ :=
  let epsilon := (measuredWh - expectedWh) / expectedWh
  (-epsilon / (1 + epsilon)) * 32768

/-- The local `newGain = (int16_t)gainCalc`.  With `expectedWh = 0` the
operand is not finite and the conversion is the platform's. -/
def newGain (p : Platform) (expectedWh measuredWh : ℚ) : Int :=
  if expectedWh = 0 then toSigned 16 (p.undefI16 (gainCalc expectedWh measuredWh))
  else floatToI16 p (gainCalc expectedWh measuredWh)

/-- The conversion `(uint16_t)g` of an `int16_t`. -/
def int16ToU16 (g : Int) : Nat := (g % 65536).toNat

/-- `EnergyAccumulator::calculateAndApplyGain`. -/
def calculateAndApplyGain (p : Platform) (registers : List RegisterDescriptor)
    (acc : EnergyAccumulator) (phase : Nat) (expectedWh measuredWh : ℚ) (c : Chip) :
    Bool × EnergyAccumulator × Chip :=
  if measuredWh < 1 / 10 then (false, acc, c)
  else
    let g := newGain p expectedWh measuredWh
    match getPhaseRegisterName phase true with
    | none => (false, acc, c)
    | some gainRegisterName =>
      let c1 := (writeRegister p registers "CfgRegAccEn" 0x55AA c).2
      let (success, c2) := writeRegisterRaw registers gainRegisterName (int16ToU16 g) c1
      let c3 := (writeRegister p registers "CfgRegAccEn" 0x0000 c2).2
      if !success then (false, acc, c3)
      else
        match acc.settings with
        | some st =>
          let calRegs := st.calibrationRegisters
          let calRegs' :=
            if phase = 0 then { calRegs with PQGainA := int16ToU16 g }
            else if phase = 1 then { calRegs with PQGainB := int16ToU16 g }
            else if phase = 2 then { calRegs with PQGainC := int16ToU16 g }
            else calRegs
          let st' := (saveSettings { st with calibrationRegisters := calRegs' }).2
          (true, { acc with settings := some st' }, c3)
        | none => (true, acc, c3)

/-- The body of the phase loop of `startCalibration`. -/
def startCalibrationPhase (registers : List RegisterDescriptor) (acc : EnergyAccumulator)
    (phaseMask : Nat) (c : Chip) (phase : Nat) : Chip :=
  if phaseMask &&& (1 <<< phase) ≠ 0 then
    let c1 :=
      match getPhaseRegisterName phase true with
      | some gainRegisterName => (writeRegisterRaw registers gainRegisterName 0 c).2
      | none => c
    (readEnergyRegister registers acc phase c1).2
  else c

/-- `EnergyAccumulator::startCalibration`; `phaseMask` is a `uint8_t`, `now` the
value `millis()` returns. -/
def startCalibration (p : Platform) (registers : List RegisterDescriptor) (now : Nat)
    (phaseMask : Nat) (acc : EnergyAccumulator) (c : Chip) :
    Bool × EnergyAccumulator × Chip :=
  if acc.calibState.calibrating then (false, acc, c)
  else if phaseMask = 0 ∨ phaseMask > 0x07 then (false, acc, c)
  else
    let c1 := (writeRegister p registers "CfgRegAccEn" 0x55AA c).2
    let c2 := [0, 1, 2].foldl (startCalibrationPhase registers acc phaseMask) c1
    let c3 := (writeRegister p registers "CfgRegAccEn" 0x0000 c2).2
    (true,
      { acc with calibState := { calibrating := true, phaseMask := phaseMask, startTime := now } },
      c3)

/-! ## EnergyAccumulator.cpp: accumulation, persistence, calibration completion -/

/-- The difference `now - last` of two `unsigned long` (32-bit) tick counts. -/
def elapsed32 (now last : Nat) : Nat := (now % 2 ^ 32 + 2 ^ 32 - last % 2 ^ 32) % 2 ^ 32

/-- `EnergyAccumulator::getAccumulatedEnergy`; `phase` is a `uint8_t`. -/
def getAccumulatedEnergy (acc : EnergyAccumulator) (phase : Nat) : ℚ :=
  if h : phase < 3 then acc.accumulatedEnergy ⟨phase, h⟩ else 0

/-- `EnergyAccumulator::saveToSettings`. -/
def saveToSettings (acc : EnergyAccumulator) : Bool × EnergyAccumulator :=
  match acc.settings with
  | none => (false, acc)
  | some st =>
    let energySettings := st.energyAccumulation
    let energySettings' :=
      { energySettings with
        accumulatedEnergyA := acc.accumulatedEnergy 0,
        accumulatedEnergyB := acc.accumulatedEnergy 1,
        accumulatedEnergyC := acc.accumulatedEnergy 2,
        energyReadInterval := acc.readInterval,
        energySaveInterval := acc.saveInterval }
    let r := saveSettings { st with energyAccumulation := energySettings' }
    (r.1, { acc with settings := some r.2 })

/-- The body of the phase loop of `update`: one energy read, accumulated as kWh
when it succeeds. -/
def updatePhase (registers : List RegisterDescriptor) (s : EnergyAccumulator × Chip)
    (phase : Fin 3) : EnergyAccumulator × Chip :=
  match readEnergyRegister registers s.1 phase.val s.2 with
  | (some wattHours, c1) =>
    let total := s.1.accumulatedEnergy phase + wattHours / 1000
    ({ s.1 with accumulatedEnergy := Function.update s.1.accumulatedEnergy phase total }, c1)
  | (none, c1) => (s.1, c1)

/-- `EnergyAccumulator::update`; `now` is the value `millis()` returns. -/
def update (registers : List RegisterDescriptor) (now : Nat) (acc : EnergyAccumulator)
    (c : Chip) : EnergyAccumulator × Chip :=
  let s1 : EnergyAccumulator × Chip :=
    if !acc.calibState.calibrating then
      if elapsed32 now acc.lastReadTime ≥ acc.readInterval then
        [0, 1, 2].foldl (updatePhase registers) ({ acc with lastReadTime := now }, c)
      else (acc, c)
    else (acc, c)
  if elapsed32 now s1.1.lastSaveTime ≥ s1.1.saveInterval then
    ((saveToSettings { s1.1 with lastSaveTime := now }).2, s1.2)
  else s1

/-- The re-zeroing loop at the end of a calibration session: one energy read
per phase, results ignored. -/
def clearEnergyRegisters (registers : List RegisterDescriptor) (acc : EnergyAccumulator)
    (c : Chip) : Chip :=
  [0, 1, 2].foldl (fun ch p => (readEnergyRegister registers acc p ch).2) c

/-- `EnergyAccumulator::completeCalibration`; `phase` is a `uint8_t`, `now` the
value `millis()` returns. -/
def completeCalibration (p : Platform) (registers : List RegisterDescriptor) (now : Nat)
    (phase : Nat) (loadWatts durationMinutes : ℚ) (acc : EnergyAccumulator) (c : Chip) :
    Bool × EnergyAccumulator × Chip :=
  if !acc.calibState.calibrating then (false, acc, c)
  else if phase ≥ 3 then (false, acc, c)
  else if acc.calibState.phaseMask &&& (1 <<< phase) = 0 then (false, acc, c)
  else
    let expectedWh := loadWatts * (durationMinutes / 60)
    match readEnergyRegister registers acc phase c with
    | (none, c1) => (false, acc, c1)
    | (some measuredWh, c1) =>
      let r := calculateAndApplyGain p registers acc phase expectedWh measuredWh c1
      if !r.1 then (false, r.2.1, r.2.2)
      else
        let mask := (r.2.1.calibState.phaseMask &&& not32 (1 <<< phase)) % 256
        let acc2 := { r.2.1 with calibState := { r.2.1.calibState with phaseMask := mask } }
        if mask = 0 then
          let acc3 := { acc2 with calibState := { acc2.calibState with calibrating := false } }
          (true, { acc3 with lastReadTime := now }, clearEnergyRegisters registers acc3 r.2.2)
        else (true, acc2, r.2.2)

/-! ## SDCardLogger.h: data and surroundings -/

/-- One captured field. -/
structure FieldValue where
  name : String
  value : ℚ
  valid : Bool

/-- Structure to hold a single measurement; `fields = none` is the null
pointer. -/
structure Measurement where
  fields : Option (List FieldValue)
  fieldCount : Nat
  timestamp : Int
  kWh : ℚ

/-- The calendar date `localtime` reports: `tm_year + 1900`, `tm_mon + 1`,
`tm_mday`. -/
structure Date where
  year : Nat
  month : Nat
  day : Nat
  deriving DecidableEq, Repr

/-- What the logger reads from its surroundings: input pins (`pinHigh pin` is
`digitalRead(pin) == HIGH`), the time manager, the C library's `localtime`,
and whether each `new (std::nothrow)` of a given element count succeeds. -/
structure Env where
  pinHigh : Int → Bool
  rtcValid : Bool
  unixTime : Int
  localtime : Int → Date
  allocBuffer : Nat → Bool
  allocFieldNames : Nat → Bool
  allocFields : Nat → Bool

/-- One value of a CSV row: a number printed with a fixed count of decimals, or
the token written for an invalid reading. -/
inductive CsvCell where
  | number (value : ℚ) (decimals : Nat)
  | invalid

/-- One line of a log file: the header text, or a data row (field cells, the
kWh value printed with 3 decimals, the timestamp). -/
inductive FileLine where
  | header (text : String)
  | row (cells : List CsvCell) (kWh : ℚ) (timestamp : Int)

/-- The SD library and the card behind it: the outcome of the three `SD.begin`
attempts of a mount, whether `SD.cardType()` reports no card, whether `mkdir`
and `open` of a path succeed, the directories and files present, whether the
library is mounted and how often `SD.end()` ran. -/
structure SDCard where
  beginOk : Nat → Bool
  cardTypeNone : Bool
  mkdirOk : String → Bool
  openOk : String → Bool
  dirs : List String
  files : List (String × List FileLine)
  mounted : Bool
  endCount : Nat

/-- The logger object.  `buffer i` is the slot `_buffer[i]`; `bufferAllocated`
says `_buffer` is not null; an empty `fieldNames` is the null `_fieldNames`. -/
structure SDCardLogger where
  cdPin : Int
  wpPin : Int
  initialized : Bool
  cardPresent : Bool
  writeProtected : Bool
  loggingEnabled : Bool
  settingsNeedReload : Bool
  bufferAllocated : Bool
  buffer : Nat → Measurement
  bufferSize : Nat
  bufferIndex : Nat
  powerLossDetectionEnabled : Bool
  powerLossThreshold : ℚ
  powerLost : Bool
  lastPowerCheck : Nat
  fieldNames : List String
  fieldCount : Nat
  loggingInterval : Nat
  lastLogTime : Nat
  logCount : Nat
  lastCardCheck : Nat

/-- Everything a logger call can touch: the logger, the metering chip, the SD
card and the accumulator `_energyAccumulator` points to (`none` when null). -/
structure World where
  logger : SDCardLogger
  chip : Chip
  sd : SDCard
  accumulator : Option EnergyAccumulator

/-! ## SD library calls -/

/-- `SD.exists(path)`. -/
def sdExists (sd : SDCard) (path : String) : Bool :=
  sd.dirs.contains path || sd.files.any (fun f => f.1 == path)

/-- `SD.mkdir(path)`. -/
def sdMkdir (sd : SDCard) (path : String) : Bool × SDCard :=
  if sd.mkdirOk path then (true, { sd with dirs := sd.dirs ++ [path] }) else (false, sd)

/-- The lines of the file at `path` (none when it does not exist). -/
def sdFileContent (sd : SDCard) (path : String) : List FileLine :=
  match sd.files.find? (fun f => f.1 == path) with
  | some f => f.2
  | none => []

/-- The card with the file at `path` holding `content`. -/
def sdSetFile (sd : SDCard) (path : String) (content : List FileLine) : SDCard :=
  { sd with files := (path, content) :: sd.files.filter (fun f => f.1 != path) }

/-- One line printed to the file opened at `path`. -/
def sdAppend (sd : SDCard) (path : String) (line : FileLine) : SDCard :=
  sdSetFile sd path (sdFileContent sd path ++ [line])

/-- `SD.end()`. -/
def sdEnd (sd : SDCard) : SDCard :=
  { sd with mounted := false, endCount := sd.endCount + 1 }

/-! ## SDCardLogger.cpp: buffer and field configuration -/

/-- A slot as `allocateBuffer` initialises it. -/
def emptyMeasurement : Measurement :=
  { fields := none, fieldCount := 0, timestamp := 0, kWh := 0 }

/-- `SDCardLogger::freeMeasurementFields`. -/
def freeMeasurementFields (m : Measurement) : Measurement :=
  { m with fields := none, fieldCount := 0 }

/-- `SDCardLogger::freeBuffer`. -/
def freeBuffer (l : SDCardLogger) : SDCardLogger :=
  let l1 :=
    if l.bufferAllocated then
      { l with
        buffer := fun i => if i < l.bufferSize then freeMeasurementFields (l.buffer i)
          else l.buffer i,
        bufferAllocated := false }
    else l
  { l1 with bufferSize := 0, bufferIndex := 0 }

/-- `SDCardLogger::allocateBuffer`; `size` is an `unsigned int`. -/
def allocateBuffer (env : Env) (size : Nat) (l : SDCardLogger) : Bool × SDCardLogger :=
  let size1 := if size < 1 then 1 else size
  let size2 := if size1 > 1000 then 1000 else size1
  let l1 := freeBuffer l
  if !env.allocBuffer size2 then
    (false, { l1 with bufferAllocated := false, bufferSize := 0, bufferIndex := 0 })
  else
    (true,
      { l1 with
        bufferAllocated := true,
        buffer := fun i => if i < size2 then emptyMeasurement else l1.buffer i,
        bufferSize := size2,
        bufferIndex := 0 })

/-- `SDCardLogger::setBufferSize`. -/
def setBufferSize (env : Env) (size : Nat) (l : SDCardLogger) : SDCardLogger :=
  if l.loggingEnabled && decide (l.bufferIndex > 0) then l
  else (allocateBuffer env size l).2

/-- The `BufferSize` lines of `SettingsManager::parseSettings`: the value
`strtoul` returned, clamped. -/
def parseBufferSize (parsed : Nat) : Nat :=
  let size := parsed
  let size1 := if size < 1 then 1 else size
  if size1 > 1000 then 1000 else size1

/-- `SDCardLogger::freeFieldNames`. -/
def freeFieldNames (l : SDCardLogger) : SDCardLogger :=
  { l with fieldNames := [], fieldCount := 0 }

/-- The characters `isspace` accepts: space and the controls 9 to 13. -/
def isSpaceChar (ch : Char) : Bool :=
  ch.toNat = 32 || (decide (9 ≤ ch.toNat) && decide (ch.toNat ≤ 13))

/-- `String::trim`: leading and trailing whitespace removed. -/
def trimChars (s : List Char) : List Char :=
  ((s.dropWhile isSpaceChar).reverse.dropWhile isSpaceChar).reverse

/-- The pieces `substring(startPos, i)` of the parse loop: the text between
consecutive commas, the start and the end of the list. -/
def splitComma : List Char → List (List Char)
  | [] => [[]]
  | ch :: rest =>
    if ch = ',' then [] :: splitComma rest
    else
      match splitComma rest with
      | [] => [[ch]]
      | piece :: pieces => (ch :: piece) :: pieces

/-- `SDCardLogger::parseFieldList`.  Names that do not resolve or are
write-only only produce a console warning. -/
def parseFieldList (env : Env) (fieldList : String) (l : SDCardLogger) :
    Bool × SDCardLogger :=
  let l1 := freeFieldNames l
  let fieldCount := 1 + (fieldList.toList.filter (fun ch => ch = ',')).length
  if !env.allocFieldNames fieldCount then
    (false, { l1 with fieldNames := [], fieldCount := 0 })
  else
    let names := (splitComma fieldList.toList).map (fun piece => String.mk (trimChars piece))
    (true, { l1 with fieldNames := names, fieldCount := fieldCount })

/-- `SDCardLogger::setLogFields`. -/
def setLogFields (env : Env) (fieldList : String) (l : SDCardLogger) : Bool × SDCardLogger :=
  if l.loggingEnabled && decide (l.bufferIndex > 0) then (false, l)
  else parseFieldList env fieldList l

/-- `SDCardLogger::getLogFields`. -/
def getLogFields (l : SDCardLogger) : String :=
  ",".intercalate (l.fieldNames.take l.fieldCount)

/-- The logger as the constructor leaves it: defaults, the default field list
parsed, the initial buffer of 60 slots allocated. -/
def constructLogger (env : Env) (cdPin wpPin : Int) : SDCardLogger :=
  let l0 : SDCardLogger :=
    { cdPin := cdPin, wpPin := wpPin, initialized := false, cardPresent := false,
      writeProtected := false, loggingEnabled := false, settingsNeedReload := false,
      bufferAllocated := false, buffer := fun _ => emptyMeasurement, bufferSize := 60,
      bufferIndex := 0, powerLossDetectionEnabled := true, powerLossThreshold := 100,
      powerLost := false, lastPowerCheck := 0, fieldNames := [], fieldCount := 0,
      loggingInterval := 1000, lastLogTime := 0, logCount := 0, lastCardCheck := 0 }
  let l1 := (setLogFields env "UrmsA,IrmsA,PmeanA,SmeanA,QmeanA,Freq" l0).2
  (allocateBuffer env l1.bufferSize l1).2

/-! ## SDCardLogger.cpp: capture -/

/-- The field loop of `takeMeasurement`: one `readRegister` per configured
name, in order. -/
def readFields (registers : List RegisterDescriptor) : List String → Chip →
    List FieldValue × Chip
  | [], c => ([], c)
  | name :: rest, c =>
    let r := readRegister registers name c
    let rs := readFields registers rest r.2.2
    ({ name := name, value := r.1, valid := r.2.1 } :: rs.1, rs.2)

/-- `SDCardLogger::takeMeasurement` on the slot `m`: the result, the slot
afterwards and the chip afterwards. -/
def takeMeasurement (env : Env) (registers : List RegisterDescriptor) (l : SDCardLogger)
    (accumulator : Option EnergyAccumulator) (m : Measurement) (c : Chip) :
    Bool × Measurement × Chip :=
  let m1 := if m.fields.isSome then freeMeasurementFields m else m
  if !env.allocFields l.fieldCount then
    (false, { m1 with fields := none, fieldCount := 0 }, c)
  else
    let rs := readFields registers (l.fieldNames.take l.fieldCount) c
    let kWh :=
      match accumulator with
      | some acc => getAccumulatedEnergy acc 0
      | none => 0
    (true,
      { fields := some rs.1, fieldCount := l.fieldCount, timestamp := env.unixTime, kWh := kWh },
      rs.2)

/-! ## SDCardLogger.cpp: dated files -/

/-- Decimal text of `n`, left-padded with zeros to `width` (`%0<width>d`). -/
def zeroPad (width n : Nat) : String :=
  String.mk (List.replicate (width - (toString n).length) '0') ++ toString n

/-- `SDCardLogger::getCurrentLogPath`. -/
def getCurrentLogPath (year month day : Nat) : String :=
  "/data/" ++ zeroPad 4 year ++ "/" ++ zeroPad 2 month ++ "/" ++ zeroPad 2 day ++ ".csv"

/-- `SDCardLogger::ensureFolderStructure`. -/
def ensureFolderStructure (sd : SDCard) (year month : Nat) : Bool × SDCard :=
  let basePath := "/data"
  let r1 := if !sdExists sd basePath then sdMkdir sd basePath else (true, sd)
  if !r1.1 then (false, r1.2)
  else
    let yearPath := basePath ++ "/" ++ toString year
    let r2 := if !sdExists r1.2 yearPath then sdMkdir r1.2 yearPath else (true, r1.2)
    if !r2.1 then (false, r2.2)
    else
      let monthPath := yearPath ++ "/" ++ zeroPad 2 month
      let r3 := if !sdExists r2.2 monthPath then sdMkdir r2.2 monthPath else (true, r2.2)
      if !r3.1 then (false, r3.2) else (true, r3.2)

/-- `SDCardLogger::generateCSVHeader`. -/
def generateCSVHeader (registers : List RegisterDescriptor) (l : SDCardLogger) : String :=
  let names := (l.fieldNames.take l.fieldCount).map (fun fieldName =>
    match getRegisterInfo registers fieldName with
    | some reg => if reg.friendlyName.length > 0 then reg.friendlyName else fieldName
    | none => fieldName)
  ",".intercalate names ++ ",kWh,UnixTime"

/-- `SDCardLogger::writeHeaderIfNeeded`. -/
def writeHeaderIfNeeded (registers : List RegisterDescriptor) (l : SDCardLogger)
    (sd : SDCard) (filepath : String) : Bool × SDCard :=
  if !sd.openOk filepath then (false, sd)
  else (true, sdSetFile sd filepath [FileLine.header (generateCSVHeader registers l)])

/-- Whether `pat` starts the list `s`. -/
def startsWithChars : List Char → List Char → Bool
  | [], _ => true
  | _ :: _, [] => false
  | a :: pat, b :: s => a == b && startsWithChars pat s

/-- `name.indexOf(pat) >= 0`. -/
def containsChars (pat : List Char) : List Char → Bool
  | [] => startsWithChars pat []
  | ch :: s => startsWithChars pat (ch :: s) || containsChars pat s

/-- The cells of one CSV row, formatted by register kind and name. -/
def csvCells (registers : List RegisterDescriptor) (m : Measurement) : List CsvCell :=
  ((m.fields.getD []).take m.fieldCount).map (fun f =>
    if f.valid then
      match getRegisterInfo registers f.name with
      | some reg =>
        if reg.regType = RegType.DT_INT16 ∨ reg.regType = RegType.DT_INT32 then
          CsvCell.number f.value 0
        else if containsChars "rms".toList f.name.toList then CsvCell.number f.value 3
        else CsvCell.number f.value 2
      | none => CsvCell.number f.value 2
    else CsvCell.invalid)

/-- The row of a measurement. -/
def csvRow (registers : List RegisterDescriptor) (m : Measurement) : FileLine :=
  FileLine.row (csvCells registers m) m.kWh m.timestamp

/-- Opening the dated file for appending: folders ensured, header written when
the file is new, file opened.  Returns the path on success. -/
def openDatedFile (registers : List RegisterDescriptor) (l : SDCardLogger) (sd : SDCard)
    (date : Date) : Option String × SDCard :=
  let r1 := ensureFolderStructure sd date.year date.month
  if !r1.1 then (none, r1.2)
  else
    let filepath := getCurrentLogPath date.year date.month date.day
    let r2 :=
      if !sdExists r1.2 filepath then writeHeaderIfNeeded registers l r1.2 filepath
      else (true, r1.2)
    if !r2.1 then (none, r2.2)
    else if !r2.2.openOk filepath then (none, r2.2)
    else (some filepath, sdSetFile r2.2 filepath (sdFileContent r2.2 filepath))

/-- The measurement loop of `writeBufferToFile`: `day` is the day of month of
the file open at `filepath`. -/
def writeRows (env : Env) (registers : List RegisterDescriptor) (l : SDCardLogger) :
    List Measurement → Nat → String → SDCard → Bool × SDCard
  | [], _, _, sd => (true, sd)
  | m :: rest, day, filepath, sd =>
    let currentTime := env.localtime m.timestamp
    if currentTime.day ≠ day then
      match openDatedFile registers l sd currentTime with
      | (none, sd1) => (false, sd1)
      | (some filepath1, sd1) =>
        writeRows env registers l rest currentTime.day filepath1
          (sdAppend sd1 filepath1 (csvRow registers m))
    else
      writeRows env registers l rest day filepath (sdAppend sd filepath (csvRow registers m))

/-- `SDCardLogger::writeBufferToFile` on the measurements `data[0..count)`. -/
def writeBufferToFile (env : Env) (registers : List RegisterDescriptor) (l : SDCardLogger)
    (data : List Measurement) (sd : SDCard) : Bool × SDCard :=
  match data with
  | [] => (true, sd)
  | first :: _ =>
    let timeinfo := env.localtime first.timestamp
    match openDatedFile registers l sd timeinfo with
    | (none, sd1) => (false, sd1)
    | (some filepath, sd1) => writeRows env registers l data timeinfo.day filepath sd1

/-- `SDCardLogger::flushBuffer`. -/
def flushBuffer (env : Env) (registers : List RegisterDescriptor) (w : World) : Bool × World :=
  let l := w.logger
  if l.bufferIndex = 0 then (true, w)
  else if !l.initialized || l.writeProtected then (false, w)
  else
    let r := writeBufferToFile env registers l ((List.range l.bufferIndex).map l.buffer) w.sd
    if r.1 then
      (true,
        { w with
          sd := r.2,
          logger :=
            { l with
              buffer := fun i => if i < l.bufferIndex then freeMeasurementFields (l.buffer i)
                else l.buffer i,
              bufferIndex := 0 } })
    else (false, { w with sd := r.2 })

/-! ## SDCardLogger.cpp: card handling -/

/-- `SDCardLogger::printCardInfo`, as far as it changes state: a card type of
none clears the initialized flag. -/
def printCardInfo (w : World) : World :=
  if w.sd.cardTypeNone then { w with logger := { w.logger with initialized := false } }
  else w

/-- `SDCardLogger::mountCard`: up to three `SD.begin` attempts. -/
def mountCard (w : World) : Bool × World :=
  if w.sd.beginOk 1 || w.sd.beginOk 2 || w.sd.beginOk 3 then
    (true,
      printCardInfo
        { w with
          sd := { w.sd with mounted := true },
          logger := { w.logger with initialized := true } })
  else
    (false,
      { w with
        sd := { w.sd with mounted := false },
        logger := { w.logger with initialized := false } })

/-- `SDCardLogger::unmountCard`. -/
def unmountCard (w : World) : World :=
  if w.logger.initialized then
    { w with
      sd := sdEnd w.sd,
      logger := { w.logger with initialized := false, loggingEnabled := false } }
  else w

/-- `SDCardLogger::checkCardStatus`. -/
def checkCardStatus (env : Env) (w : World) : World :=
  let l := w.logger
  let previousCardPresent := l.cardPresent
  let cardPresent := if l.cdPin ≥ 0 then !env.pinHigh l.cdPin else l.initialized
  let writeProtected :=
    if l.wpPin ≥ 0 ∧ cardPresent = true then env.pinHigh l.wpPin else false
  let w1 : World :=
    { w with logger := { l with cardPresent := cardPresent, writeProtected := writeProtected } }
  let w2 := if cardPresent && !previousCardPresent then (mountCard w1).2 else w1
  if !w2.logger.cardPresent && previousCardPresent then unmountCard w2 else w2

/-- `SDCardLogger::begin`. -/
def loggerBegin (env : Env) (w : World) : Bool × World :=
  let w1 := checkCardStatus env w
  if w1.logger.cardPresent then mountCard w1 else (false, w1)

/-! ## SDCardLogger.cpp: logging -/

/-- `SDCardLogger::enableLogging`. -/
def enableLogging (env : Env) (registers : List RegisterDescriptor) (enable : Bool)
    (w : World) : World :=
  let l := w.logger
  if enable && l.writeProtected then { w with logger := { l with loggingEnabled := false } }
  else if enable && !l.cardPresent then { w with logger := { l with loggingEnabled := false } }
  else if enable && (!l.bufferAllocated || decide (l.bufferSize = 0)) then
    { w with logger := { l with loggingEnabled := false } }
  else
    let w1 :=
      if !enable && l.loggingEnabled && decide (l.bufferIndex > 0) then
        (flushBuffer env registers w).2
      else w
    { w1 with logger := { w1.logger with loggingEnabled := enable } }

/-- `SDCardLogger::logMeasurement`. -/
def logMeasurement (env : Env) (registers : List RegisterDescriptor) (w : World) :
    Bool × World :=
  let l := w.logger
  if !l.initialized || l.writeProtected || !env.rtcValid then (false, w)
  else if !l.bufferAllocated || decide (l.bufferSize = 0) then (false, w)
  else
    let r := takeMeasurement env registers l w.accumulator (l.buffer l.bufferIndex) w.chip
    let w1 : World :=
      { w with
        chip := r.2.2,
        logger := { l with buffer := Function.update l.buffer l.bufferIndex r.2.1 } }
    if !r.1 then (false, w1)
    else
      let w2 : World :=
        { w1 with
          logger :=
            { w1.logger with
              bufferIndex := l.bufferIndex + 1,
              logCount := (l.logCount + 1) % 2 ^ 32 } }
      if w2.logger.bufferIndex ≥ w2.logger.bufferSize then flushBuffer env registers w2
      else (true, w2)

/-! ## SDCardLogger.cpp: power loss -/

/-- `SDCardLogger::handlePowerLoss`. -/
def handlePowerLoss (env : Env) (registers : List RegisterDescriptor) (w : World) :
    Bool × World :=
  let w1 : World :=
    match w.accumulator with
    | some acc => { w with accumulator := some (saveToSettings acc).2 }
    | none => w
  let l := w1.logger
  let w2 : World :=
    if l.bufferIndex < l.bufferSize then
      let r := takeMeasurement env registers l w1.accumulator (l.buffer l.bufferIndex) w1.chip
      { w1 with
        chip := r.2.2,
        logger :=
          { l with
            buffer := Function.update l.buffer l.bufferIndex r.2.1,
            bufferIndex := if r.1 then l.bufferIndex + 1 else l.bufferIndex } }
    else w1
  let r := flushBuffer env registers w2
  (r.1, unmountCard r.2)

/-- `SDCardLogger::handlePowerRestoration`. -/
def handlePowerRestoration (env : Env) (w : World) : Bool × World :=
  let w1 := checkCardStatus env w
  if !w1.logger.cardPresent then (false, w1)
  else
    let r := mountCard w1
    if !r.1 then (false, r.2)
    else if r.2.logger.writeProtected then (false, r.2)
    else
      (true,
        { r.2 with logger := { r.2.logger with bufferIndex := 0, settingsNeedReload := true } })

/-- `SDCardLogger::settingsNeedReload`. -/
def settingsNeedReload (l : SDCardLogger) : Bool × SDCardLogger :=
  (l.settingsNeedReload, { l with settingsNeedReload := false })

/-- `SDCardLogger::checkPowerStatus`. -/
def checkPowerStatus (env : Env) (registers : List RegisterDescriptor) (w : World) : World :=
  if !w.logger.powerLossDetectionEnabled then w
  else
    let r := readRegister registers "UrmsA" w.chip
    let voltage := r.1
    let w1 : World := { w with chip := r.2.2 }
    if !r.2.1 then w1
    else
      let w2 : World :=
        if voltage < w1.logger.powerLossThreshold ∧ w1.logger.powerLost = false then
          (handlePowerLoss env registers
            { w1 with logger := { w1.logger with powerLost := true } }).2
        else w1
      if voltage ≥ w2.logger.powerLossThreshold ∧ w2.logger.powerLost = true then
        (handlePowerRestoration env
          { w2 with logger := { w2.logger with powerLost := false } }).2
      else w2

/-- `SDCardLogger::update`; `now` is the value `millis()` returns. -/
def loggerUpdate (env : Env) (registers : List RegisterDescriptor) (now : Nat) (w : World) :
    World :=
  let w1 : World :=
    if elapsed32 now w.logger.lastCardCheck ≥ 1000 then
      let w' := checkCardStatus env w
      { w' with logger := { w'.logger with lastCardCheck := now } }
    else w
  let w2 : World :=
    if elapsed32 now w1.logger.lastPowerCheck ≥ 100 then
      let w' := checkPowerStatus env registers w1
      { w' with logger := { w'.logger with lastPowerCheck := now } }
    else w1
  let l := w2.logger
  if l.powerLost then w2
  else if !l.initialized || !l.loggingEnabled || l.writeProtected || !env.rtcValid then w2
  else if elapsed32 now l.lastLogTime ≥ l.loggingInterval then
    let r := logMeasurement env registers w2
    if r.1 then { r.2 with logger := { r.2.logger with lastLogTime := now } } else r.2
  else w2

/-! ## Vocabulary of the statements -/

/-- Between `c` and `c'` the bus saw read transactions only: same cells, and
the log of `c'` is the log of `c` followed by reads. -/
def OnlyReads (c c' : Chip) : Prop :=
  c'.mem = c.mem ∧ ∃ ops, c'.log = c.log ++ ops ∧ ∀ op ∈ ops, ∃ cell, op = BusOp.read cell

/-- The fields of the logger a card poll, a mount or an unmount never touch. -/
def sameCapture (l l' : SDCardLogger) : Prop :=
  l'.buffer = l.buffer ∧ l'.bufferIndex = l.bufferIndex ∧ l'.bufferSize = l.bufferSize ∧
  l'.logCount = l.logCount ∧ l'.powerLost = l.powerLost ∧
  l'.powerLossThreshold = l.powerLossThreshold ∧
  l'.powerLossDetectionEnabled = l.powerLossDetectionEnabled ∧
  l'.lastPowerCheck = l.lastPowerCheck

/-- A world whose capture state, chip and accumulator are those of `w`. -/
def sameSurroundings (w w' : World) : Prop :=
  sameCapture w.logger w'.logger ∧ w'.chip = w.chip ∧ w'.accumulator = w.accumulator

/-- The power poll on `w` reads a voltage below the threshold: detection is
enabled, the read of `UrmsA` succeeds and its value is below the threshold. -/
def seesPowerLow (registers : List RegisterDescriptor) (w : World) : Prop :=
  w.logger.powerLossDetectionEnabled = true ∧
  (readRegister registers "UrmsA" w.chip).2.1 = true ∧
  (readRegister registers "UrmsA" w.chip).1 < w.logger.powerLossThreshold

/-- The power poll on `w` reads a voltage at or above the threshold. -/
def seesPowerRestored (registers : List RegisterDescriptor) (w : World) : Prop :=
  w.logger.powerLossDetectionEnabled = true ∧
  (readRegister registers "UrmsA" w.chip).2.1 = true ∧
  (readRegister registers "UrmsA" w.chip).1 ≥ w.logger.powerLossThreshold

/-! ## Descriptor layout (data model invariant) -/

/-- The layout of a descriptor fits its kind: a bit or bit range lies inside
the 16-bit word, a 32-bit register occupies two distinct cells, and a signed
32-bit register has register count 2. -/
def layoutFits (reg : RegisterDescriptor) : Bool :=
  match reg.regType with
  | RegType.DT_BIT => decide (reg.bitPos < 16)
  | RegType.DT_BITFIELD => decide (reg.bitPos + reg.bitLen ≤ 16)
  | RegType.DT_UINT8 => decide (reg.bitPos + 8 ≤ 16)
  | RegType.DT_INT8 => decide (reg.bitPos + 8 ≤ 16)
  | RegType.DT_UINT16 => true
  | RegType.DT_INT16 => true
  | RegType.DT_UINT32 =>
    decide (reg.address0 % 65536 &&& 0x7FFF ≠ reg.address1 % 65536 &&& 0x7FFF)
  | RegType.DT_INT32 =>
    decide (reg.address0 % 65536 &&& 0x7FFF ≠ reg.address1 % 65536 &&& 0x7FFF)
      && decide (reg.regCount = 2)

/-- Number of non-negative raw values of a register's kind. -/
def nonnegRawCount (reg : RegisterDescriptor) : Nat :=
  match reg.regType with
  | RegType.DT_BIT => 2
  | RegType.DT_BITFIELD => 2 ^ reg.bitLen
  | RegType.DT_UINT8 => 2 ^ 8
  | RegType.DT_INT8 => 2 ^ 7
  | RegType.DT_UINT16 => 2 ^ 16
  | RegType.DT_INT16 => 2 ^ 15
  | RegType.DT_UINT32 => 2 ^ 32
  | RegType.DT_INT32 => 2 ^ 31

/-! ## Sample data for the concrete instances below -/

/-- A chip whose cells are all zero, with no transaction performed. -/
def zeroChip : Chip := { mem := fun _ => 0, log := [] }

/-- A platform whose out-of-range conversions give zero. -/
def zeroPlatform : Platform := { undefU32 := fun _ => 0, undefI16 := fun _ => 0 }

/-- A 16-bit descriptor at `addr`. -/
def reg16 (name : String) (addr : Nat) (rw : RWType) (ty : RegType) (scale : ℚ) :
    RegisterDescriptor :=
  { friendlyName := name, name := name, address0 := addr, address1 := 0, regCount := 1,
    rwType := rw, regType := ty, bitPos := 0, bitLen := 16, scale := scale,
    convertFunc := none, unit := "" }

/-- A 32-bit descriptor at `hi`, `lo`. -/
def reg32 (name : String) (hi lo : Nat) (rw : RWType) (ty : RegType) (scale : ℚ) :
    RegisterDescriptor :=
  { friendlyName := name, name := name, address0 := hi, address1 := lo, regCount := 2,
    rwType := rw, regType := ty, bitPos := 0, bitLen := 16, scale := scale,
    convertFunc := none, unit := "" }

/-- A small descriptor table in the shape of the chip's register map. -/
def sampleRegisters : List RegisterDescriptor :=
  [ reg16 "CfgRegAccEn" 0x7F RWType.RW_READWRITE RegType.DT_UINT16 1,
    reg16 "PQGainA" 0x47 RWType.RW_READWRITE RegType.DT_INT16 1,
    reg16 "PQGainB" 0x49 RWType.RW_READWRITE RegType.DT_INT16 1,
    reg16 "PQGainC" 0x4B RWType.RW_READWRITE RegType.DT_INT16 1,
    reg16 "APenergyA" 0x81 RWType.RW_READCLEAR RegType.DT_UINT16 (1 / 100),
    reg16 "APenergyB" 0x82 RWType.RW_READCLEAR RegType.DT_UINT16 (1 / 100),
    reg16 "APenergyC" 0x83 RWType.RW_READCLEAR RegType.DT_UINT16 (1 / 100),
    reg16 "UgainA" 0x61 RWType.RW_READWRITE RegType.DT_UINT16 1,
    reg32 "PmeanA" 0xB1 0xC1 RWType.RW_READ RegType.DT_INT32 (1 / 3125),
    reg32 "Scratch32" 0x01 0x8001 RWType.RW_READWRITE RegType.DT_UINT32 1,
    reg32 "Wide32" 0x10 0x11 RWType.RW_READWRITE RegType.DT_UINT32 1,
    { reg16 "Offset8" 0x20 RWType.RW_READWRITE RegType.DT_INT8 1 with bitLen := 8 } ]

/-- An accumulator as the constructor leaves it: no settings store attached. -/
def initialAccumulator : EnergyAccumulator :=
  { settings := none, accumulatedEnergy := fun _ => 0, readInterval := 20000,
    saveInterval := 600000, lastReadTime := 0, lastSaveTime := 0,
    calibState := { calibrating := false, phaseMask := 0, startTime := 0 } }

/-- An accumulator in a calibration session for phases A and B (mask `0b011`),
no settings store attached. -/
def calibratingAccumulator : EnergyAccumulator :=
  { initialAccumulator with calibState := { calibrating := true, phaseMask := 3, startTime := 0 } }

/-- A chip whose cells all hold 10000: each energy register reads 100 CF, which
is 31.25 Wh at the meter constant 3200. -/
def energyChip : Chip := { mem := fun _ => 10000, log := [] }

/-- The sample table with the phase A voltage register in front. -/
def loggerRegisters : List RegisterDescriptor :=
  reg16 "UrmsA" 0xD9 RWType.RW_READ RegType.DT_UINT16 (1 / 100) :: sampleRegisters

/-- A chip whose cells all hold 23000: the voltage register reads 230.00 V. -/
def mainsChip : Chip := { mem := fun _ => 23000, log := [] }

/-- Surroundings in which every pin reads low (card present, not write
protected), the clock is valid and every allocation succeeds. -/
def sampleEnv : Env :=
  { pinHigh := fun _ => false, rtcValid := true, unixTime := 1700000000,
    localtime := fun _ => { year := 2023, month := 11, day := 14 },
    allocBuffer := fun _ => true, allocFieldNames := fun _ => true,
    allocFields := fun _ => true }

/-- A card that mounts and accepts every `mkdir` and `open`. -/
def goodCard : SDCard :=
  { beginOk := fun _ => true, cardTypeNone := false, mkdirOk := fun _ => true,
    openOk := fun _ => true, dirs := [], files := [], mounted := false, endCount := 0 }

/-- A card that mounts but refuses every `mkdir` and `open`. -/
def failingCard : SDCard :=
  { goodCard with mkdirOk := fun _ => false, openOk := fun _ => false }

/-- The world right after construction of a logger with card-detect pin 4 and
no write-protect pin, no accumulator attached. -/
def initialWorld (sd : SDCard) : World :=
  { logger := constructLogger sampleEnv 4 (-1), chip := mainsChip, sd := sd,
    accumulator := none }

/-- The world after `begin()`, `enableLogging(true)` and one captured
measurement. -/
def loggingWorld (sd : SDCard) : World :=
  (logMeasurement sampleEnv loggerRegisters
    (enableLogging sampleEnv loggerRegisters true
      (loggerBegin sampleEnv (initialWorld sd)).2)).2

/-- The logging world at the moment the supply drops: the voltage register
reads 0 V. -/
def brownoutWorld : World := { loggingWorld goodCard with chip := zeroChip }

/-- A run from construction on a card that refuses every `mkdir` and `open`:
`update()` at 1000 ms mounts the inserted card, logging is enabled, the
buffer is resized to one slot, and `update()` runs at 2000 ms and 2001 ms. -/
def overflowRun (polls : Nat) : World :=
  let w1 := loggerUpdate sampleEnv loggerRegisters 1000 (initialWorld failingCard)
  let w2 := enableLogging sampleEnv loggerRegisters true w1
  let w3 : World := { w2 with logger := setBufferSize sampleEnv 1 w2.logger }
  (List.range polls).foldl (fun w k => loggerUpdate sampleEnv loggerRegisters (2000 + k) w) w3

/-- A settings store with a writable settings file, meter constant 3200 and
nothing saved yet. -/
def sampleSettings : SettingsManager :=
  { energyAccumulation :=
      { energyReadInterval := 5000, energySaveInterval := 60000, accumulatedEnergyA := 0,
        accumulatedEnergyB := 0, accumulatedEnergyC := 0, meterConstant := 3200 },
    calibrationRegisters :=
      { PoffsetA := 0, QoffsetA := 0, PoffsetB := 0, QoffsetB := 0, PoffsetC := 0, QoffsetC := 0,
        PQGainA := 0, PhiA := 0, PQGainB := 0, PhiB := 0, PQGainC := 0, PhiC := 0 },
    sdWritable := true,
    savedFile := none }

/-- An accumulator attached to the sample store, with totals 1.5, 2 and 0 kWh
not saved yet. -/
def meteredAccumulator : EnergyAccumulator :=
  { initialAccumulator with
    settings := some sampleSettings,
    accumulatedEnergy := fun i => if i = 0 then 3 / 2 else if i = 1 then 2 else 0 }

/-! ## Dated files: vocabulary and a run across two months -/

/-- The timestamps of the data rows of a file, in file order. -/
def rowTimestamps : List FileLine → List Int
  | [] => []
  | FileLine.header _ :: rest => rowTimestamps rest
  | FileLine.row _ _ timestamp :: rest => timestamp :: rowTimestamps rest

/-- The measurement loop as the specification words it: the file is switched
whenever the date of the measurement (year, month or day) differs from the
date `cur` of the open file. -/
def writeRowsByDate (env : Env) (registers : List RegisterDescriptor) (l : SDCardLogger) :
    List Measurement → Date → String → SDCard → Bool × SDCard
  | [], _, _, sd => (true, sd)
  | m :: rest, cur, filepath, sd =>
    let currentTime := env.localtime m.timestamp
    if currentTime ≠ cur then
      match openDatedFile registers l sd currentTime with
      | (none, sd1) => (false, sd1)
      | (some filepath1, sd1) =>
        writeRowsByDate env registers l rest currentTime filepath1
          (sdAppend sd1 filepath1 (csvRow registers m))
    else
      writeRowsByDate env registers l rest cur filepath (sdAppend sd filepath (csvRow registers m))

/-- `localtime` on the two instants used below: 1700000000 is 14 November 2023
(22:13:20 UTC) and 1702592000, thirty days later, is 14 December 2023. -/
def twoMonthCalendar (t : Int) : Date :=
  if t < 1701388800 then { year := 2023, month := 11, day := 14 }
  else { year := 2023, month := 12, day := 14 }

/-- The sample surroundings on 14 November 2023. -/
def novemberEnv : Env := { sampleEnv with localtime := twoMonthCalendar }

/-- The sample surroundings thirty days later, on 14 December 2023. -/
def decemberEnv : Env := { novemberEnv with unixTime := 1702592000 }

/-- A run through the public interface: `begin()`, `enableLogging(true)`,
`logMeasurement()` on 14 November, `logMeasurement()` on 14 December, then
`enableLogging(false)`, which flushes the two buffered measurements. -/
def monthApartRun : World :=
  let w0 := (loggerBegin novemberEnv (initialWorld goodCard)).2
  let w1 := enableLogging novemberEnv loggerRegisters true w0
  let w2 := (logMeasurement novemberEnv loggerRegisters w1).2
  let w3 := (logMeasurement decemberEnv loggerRegisters w2).2
  enableLogging decemberEnv loggerRegisters false w3

/-! ## Field lists: vocabulary -/

/-- The number of commas of a field list. -/
def commaCount (s : String) : Nat := (s.toList.filter (fun ch => ch = ',')).length

/-- The names a field list configures: its comma-separated pieces, each with
the surrounding whitespace removed. -/
def fieldNamesOf (s : String) : List String :=
  (splitComma s.toList).map (fun piece => String.mk (trimChars piece))

/-- Pieces joined by single commas. -/
def joinComma : List (List Char) → List Char
  | [] => []
  | [p] => p
  | p :: q :: rest => p ++ ',' :: joinComma (q :: rest)

/-- The logger table with a write-only register in front. -/
def writeOnlyRegisters : List RegisterDescriptor :=
  reg16 "SoftReset" 0x70 RWType.RW_WRITE RegType.DT_UINT16 1 :: loggerRegisters

/-! ## Accumulation: vocabulary -/

/-- The descriptor is a plain 16-bit word register. -/
def IsWordRegister (reg : RegisterDescriptor) : Prop :=
  reg.regType = RegType.DT_UINT16 ∨ reg.regType = RegType.DT_INT16

/-- The bus cell of a descriptor's first address. -/
def busCell (reg : RegisterDescriptor) : Nat := reg.address0 % 65536 &&& 0x7FFF

/-- The bus transactions of one phase at the start of a session: the write of
0 to the gain register, then the read of the energy register, when the phase
is selected; none when it is not. -/
def phaseStartOps (phaseMask : Nat) (gain energy : Nat → RegisterDescriptor) (phase : Nat) :
    List BusOp :=
  if phaseMask.testBit phase then
    [BusOp.write (busCell (gain phase)) 0, BusOp.read (busCell (energy phase))]
  else []

/-- The gain registers of the sample table, by phase. -/
def sampleGain (phase : Nat) : RegisterDescriptor :=
  match phase with
  | 0 => reg16 "PQGainA" 0x47 RWType.RW_READWRITE RegType.DT_INT16 1
  | 1 => reg16 "PQGainB" 0x49 RWType.RW_READWRITE RegType.DT_INT16 1
  | _ => reg16 "PQGainC" 0x4B RWType.RW_READWRITE RegType.DT_INT16 1

/-- The energy registers of the sample table, by phase. -/
def sampleEnergy (phase : Nat) : RegisterDescriptor :=
  match phase with
  | 0 => reg16 "APenergyA" 0x81 RWType.RW_READCLEAR RegType.DT_UINT16 (1 / 100)
  | 1 => reg16 "APenergyB" 0x82 RWType.RW_READCLEAR RegType.DT_UINT16 (1 / 100)
  | _ => reg16 "APenergyC" 0x83 RWType.RW_READCLEAR RegType.DT_UINT16 (1 / 100)

/-! ## Power restoration: a run without a card-detect pin -/

/-- The world right after construction of a logger with neither a card-detect
nor a write-protect pin, on a card that mounts. -/
def noPinWorld : World :=
  { logger := constructLogger sampleEnv (-1) (-1), chip := mainsChip, sd := goodCard,
    accumulator := none }

/-- The logger without pins in normal operation: `mountCard()` is called,
`update()` at 1000 ms polls the card, logging is enabled and `update()` at
2000 ms captures one measurement. -/
def noPinLogging : World :=
  let w1 := (mountCard noPinWorld).2
  let w2 := loggerUpdate sampleEnv loggerRegisters 1000 w1
  let w3 := enableLogging sampleEnv loggerRegisters true w2
  loggerUpdate sampleEnv loggerRegisters 2000 w3

/-- The supply drops: `update()` at 2100 ms reads 0 V. -/
def noPinBrownout : World :=
  loggerUpdate sampleEnv loggerRegisters 2100 { noPinLogging with chip := zeroChip }

/-- The supply is back: `update()` at 2200 ms reads 230 V. -/
def noPinRecovered : World :=
  loggerUpdate sampleEnv loggerRegisters 2200 { noPinBrownout with chip := mainsChip }

/-- The logger with card-detect pin after the emergency sequence, at the moment
the supply is back: the voltage register reads 230 V again. -/
def recoveringWorld : World :=
  { checkPowerStatus sampleEnv loggerRegisters brownoutWorld with chip := mainsChip }

/-- The world `checkPowerStatus` hands to `handlePowerRestoration` on
`recoveringWorld`: voltage read, power-lost flag cleared. -/
def restorationEntry : World :=
  { recoveringWorld with
    chip := (readRegister loggerRegisters "UrmsA" recoveringWorld.chip).2.2,
    logger := { recoveringWorld.logger with powerLost := false } }

/-- The same for the logger without pins, from `noPinBrownout` with the supply
back. -/
def noPinRestorationEntry : World :=
  { noPinBrownout with
    chip := (readRegister loggerRegisters "UrmsA" mainsChip).2.2,
    logger := { noPinBrownout.logger with powerLost := false } }

/-! ## EnergyAccumulator.cpp: the remaining public calls, and runs of calls -/

/-- `EnergyAccumulator::begin`; `now1` and `now2` are the values the two calls
of `millis()` return. -/
def accumulatorBegin (registers : List RegisterDescriptor) (settings : Option SettingsManager)
    (now1 now2 : Nat) (acc : EnergyAccumulator) (c : Chip) : EnergyAccumulator × Chip :=
  let acc1 : EnergyAccumulator := { acc with settings := settings }
  let acc2 : EnergyAccumulator :=
    match settings with
    | some st =>
      { acc1 with
        readInterval := st.energyAccumulation.energyReadInterval,
        saveInterval := st.energyAccumulation.energySaveInterval,
        accumulatedEnergy := fun i =>
          if i = 0 then st.energyAccumulation.accumulatedEnergyA
          else if i = 1 then st.energyAccumulation.accumulatedEnergyB
          else st.energyAccumulation.accumulatedEnergyC }
    | none => acc1
  let acc3 : EnergyAccumulator := { acc2 with lastReadTime := now1, lastSaveTime := now2 }
  (acc3, clearEnergyRegisters registers acc3 c)

/-- `EnergyAccumulator::setReadInterval`. -/
def setReadInterval (intervalMs : Nat) (acc : EnergyAccumulator) : EnergyAccumulator :=
  { acc with readInterval := intervalMs }

/-- `EnergyAccumulator::setSaveInterval`. -/
def setSaveInterval (intervalMs : Nat) (acc : EnergyAccumulator) : EnergyAccumulator :=
  { acc with saveInterval := intervalMs }

/-- `EnergyAccumulator::resetAccumulatedEnergy`; `phase` is a `uint8_t`. -/
def resetAccumulatedEnergy (phase : Nat) (acc : EnergyAccumulator) : EnergyAccumulator :=
  if h : phase < 3 then
    (saveToSettings
      { acc with accumulatedEnergy := Function.update acc.accumulatedEnergy ⟨phase, h⟩ 0 }).2
  else acc

/-- `EnergyAccumulator::setAccumulatedEnergy`; `phase` is a `uint8_t`. -/
def setAccumulatedEnergy (phase : Nat) (kWh : ℚ) (acc : EnergyAccumulator) : EnergyAccumulator :=
  if h : phase < 3 then
    { acc with accumulatedEnergy := Function.update acc.accumulatedEnergy ⟨phase, h⟩ kWh }
  else acc

/-- One call of the accumulator's public interface, with its arguments and the
values `millis()` returns during the call. -/
inductive AccumulatorCall where
  | begin (settings : Option SettingsManager) (now1 now2 : Nat)
  | setReadInterval (intervalMs : Nat)
  | setSaveInterval (intervalMs : Nat)
  | resetAccumulatedEnergy (phase : Nat)
  | setAccumulatedEnergy (phase : Nat) (kWh : ℚ)
  | update (now : Nat)
  | startCalibration (now phaseMask : Nat)
  | completeCalibration (now phase : Nat) (loadWatts durationMinutes : ℚ)
  | saveToSettings

/-- The accumulator and the chip after one call. -/
def runCall (p : Platform) (registers : List RegisterDescriptor) (s : EnergyAccumulator × Chip) :
    AccumulatorCall → EnergyAccumulator × Chip
  | AccumulatorCall.begin settings now1 now2 =>
    accumulatorBegin registers settings now1 now2 s.1 s.2
  | AccumulatorCall.setReadInterval intervalMs => (setReadInterval intervalMs s.1, s.2)
  | AccumulatorCall.setSaveInterval intervalMs => (setSaveInterval intervalMs s.1, s.2)
  | AccumulatorCall.resetAccumulatedEnergy phase => (resetAccumulatedEnergy phase s.1, s.2)
  | AccumulatorCall.setAccumulatedEnergy phase kWh => (setAccumulatedEnergy phase kWh s.1, s.2)
  | AccumulatorCall.update now => update registers now s.1 s.2
  | AccumulatorCall.startCalibration now phaseMask =>
    (startCalibration p registers now phaseMask s.1 s.2).2
  | AccumulatorCall.completeCalibration now phase loadWatts durationMinutes =>
    (completeCalibration p registers now phase loadWatts durationMinutes s.1 s.2).2
  | AccumulatorCall.saveToSettings => ((saveToSettings s.1).2, s.2)

/-- The accumulator and the chip after construction and the calls of `calls`,
in order, starting on the chip `c`. -/
def runCalls (p : Platform) (registers : List RegisterDescriptor) (calls : List AccumulatorCall)
    (c : Chip) : EnergyAccumulator × Chip :=
  calls.foldl (runCall p registers) (initialAccumulator, c)

/-- The calibrating flag is set exactly when the phase mask is non-zero, and
the mask is at most 7. -/
def CalibrationConsistent (acc : EnergyAccumulator) : Prop :=
  (acc.calibState.calibrating = true ↔ acc.calibState.phaseMask ≠ 0) ∧
  acc.calibState.phaseMask ≤ 7

/-! ## Timers: vocabulary -/

/-- The poll timers, the capture timer and the logging interval of the logger
are those of `l`. -/
def sameTimers (l l' : SDCardLogger) : Prop :=
  l'.lastCardCheck = l.lastCardCheck ∧ l'.lastPowerCheck = l.lastPowerCheck ∧
  l'.lastLogTime = l.lastLogTime ∧ l'.loggingInterval = l.loggingInterval

/-! ## Floating point

The functions below evaluate the `float` and `double` expressions of the source
as the target does: every operation is rounded to the nearest value of the
format, ties to even.  A finite value is its rational value; the sign of a zero
is not recorded, which no expression below can observe.  The functions of the
same name without the suffix evaluate the same expressions without rounding. -/

/-- `⌊log₂ n⌋` for `n ≥ 1`, by halving at most `fuel` times. -/
def log2Fuel : Nat → Nat → Nat
  | 0, _ => 0
  | fuel + 1, n => if n < 2 then 0 else log2Fuel fuel (n / 2) + 1

/-- The power `2 ^ e` for an integer exponent. -/
def pow2 (e : Int) : ℚ := if 0 ≤ e then (2 : ℚ) ^ e.toNat else 1 / (2 : ℚ) ^ (-e).toNat

/-- `⌊log₂ |x|⌋` for `x ≠ 0`: the difference of the bit lengths of numerator
and denominator, or one less. -/
def floorLog2 (x : ℚ) : Int :=
  let e : Int := (log2Fuel x.num.natAbs x.num.natAbs : Int) - (log2Fuel x.den x.den : Int)
  if pow2 e ≤ |x| then e else e - 1

/-- The nearest integer, the even one of two equally near. -/
def roundHalfEven (x : ℚ) : Int :=
  if x - ⌊x⌋ < 1 / 2 then ⌊x⌋
  else if x - ⌊x⌋ > 1 / 2 then ⌊x⌋ + 1
  else if ⌊x⌋ % 2 = 0 then ⌊x⌋ else ⌊x⌋ + 1

/-- The value of a binary format a real result is rounded to: `mant + 1`
significant bits, least exponent `emin` (below it the spacing stays
`2 ^ (emin - mant)`), `none` (overflow, an infinity of the sign of `x`) when the
rounded magnitude reaches `2 ^ emax`. -/
def roundBinary (mant : Nat) (emin emax : Int) (x : ℚ) : Option ℚ :=
  if x = 0 then some 0
  else
    let e := max (floorLog2 x) emin
    let r := (roundHalfEven (x / pow2 (e - mant)) : ℚ) * pow2 (e - mant)
    if |r| ≥ pow2 emax then none else some r

/-- Rounding to `float` (binary32): 24 significant bits, least exponent -126,
overflow at `2 ^ 128`. -/
def roundF32 (x : ℚ) : Option ℚ := roundBinary 23 (-126) 128 x

/-- Rounding to `double` (binary64): 53 significant bits, least exponent -1022,
overflow at `2 ^ 1024`. -/
def roundF64 (x : ℚ) : Option ℚ := roundBinary 52 (-1022) 1024 x

/-- A `float` or `double` value: finite, an infinity, or a NaN. -/
inductive FloatValue where
  | finite (q : ℚ)
  | infinity (negative : Bool)
  | nan
  deriving DecidableEq

/-- The value of the format (given by its rounding) for a real result. -/
def roundValue (rnd : ℚ → Option ℚ) (x : ℚ) : FloatValue :=
  match rnd x with
  | some r => FloatValue.finite r
  | none => FloatValue.infinity (decide (x < 0))

/-- The product `a * b`. -/
def mulValue (rnd : ℚ → Option ℚ) : FloatValue → FloatValue → FloatValue
  | FloatValue.nan, _ => FloatValue.nan
  | _, FloatValue.nan => FloatValue.nan
  | FloatValue.finite a, FloatValue.finite b => roundValue rnd (a * b)
  | FloatValue.finite a, FloatValue.infinity t =>
    if a = 0 then FloatValue.nan else FloatValue.infinity (xor (decide (a < 0)) t)
  | FloatValue.infinity s, FloatValue.finite b =>
    if b = 0 then FloatValue.nan else FloatValue.infinity (xor s (decide (b < 0)))
  | FloatValue.infinity s, FloatValue.infinity t => FloatValue.infinity (xor s t)

/-- The sum `a + b`. -/
def addValue (rnd : ℚ → Option ℚ) : FloatValue → FloatValue → FloatValue
  | FloatValue.nan, _ => FloatValue.nan
  | _, FloatValue.nan => FloatValue.nan
  | FloatValue.finite a, FloatValue.finite b => roundValue rnd (a + b)
  | FloatValue.finite _, FloatValue.infinity t => FloatValue.infinity t
  | FloatValue.infinity s, FloatValue.finite _ => FloatValue.infinity s
  | FloatValue.infinity s, FloatValue.infinity t =>
    if s = t then FloatValue.infinity s else FloatValue.nan

/-- The quotient `a / d` by a finite constant `d ≠ 0`. -/
def divValue (rnd : ℚ → Option ℚ) (a : FloatValue) (d : ℚ) : FloatValue :=
  match a with
  | FloatValue.nan => FloatValue.nan
  | FloatValue.infinity s => FloatValue.infinity (xor s (decide (d < 0)))
  | FloatValue.finite q => roundValue rnd (q / d)

/-- The comparison `a <= b`: false when either side is a NaN. -/
def leValue : FloatValue → FloatValue → Bool
  | FloatValue.nan, _ => false
  | _, FloatValue.nan => false
  | FloatValue.finite a, FloatValue.finite b => decide (a ≤ b)
  | FloatValue.finite _, FloatValue.infinity t => !t
  | FloatValue.infinity s, FloatValue.finite _ => s
  | FloatValue.infinity s, FloatValue.infinity t => s || !t

/-- The `float` quotient `a / b` of two finite values, `none` when it is not
finite (`b` is zero, or the quotient overflows). -/
def divF32 (a b : ℚ) : Option ℚ := if b = 0 then none else roundF32 (a / b)

/-- The `float` made from a 32-bit integer, which is always finite. -/
def intToF32 (n : Int) : ℚ := (roundF32 (n : ℚ)).getD 0

/-- `RegisterAccess::convertRegisterValue` in single precision: the raw count is
converted to `float` and multiplied by the scale. -/
def convertRegisterValueF32 (registers : List RegisterDescriptor) (name : String)
    (raw : Nat) : FloatValue :=
  let rawValue := raw % 2 ^ 32
  match findRegister registers name with
  | none => FloatValue.finite 0
  | some reg =>
    match reg.convertFunc, decide (reg.regCount = 1) with
    | some f, true => FloatValue.finite (f (rawValue % 65536))
    | _, _ =>
      if reg.regType = RegType.DT_INT16 ∨ reg.regType = RegType.DT_INT32 then
        if reg.regCount = 1 then roundValue roundF32 (intToF32 (toSigned 16 rawValue) * reg.scale)
        else roundValue roundF32 (intToF32 (toSigned 32 rawValue) * reg.scale)
      else roundValue roundF32 (intToF32 (rawValue : Int) * reg.scale)

/-- `RegisterAccess::readRegister` in single precision. -/
def readRegisterF32 (registers : List RegisterDescriptor) (name : String) (c : Chip) :
    FloatValue × Bool × Chip :=
  let (rawValue, readSuccess, c1) := readRegisterRaw registers name c
  if !readSuccess then (FloatValue.finite 0, readSuccess, c1)
  else (convertRegisterValueF32 registers name rawValue, readSuccess, c1)

/-- `RegisterAccess::writeRegister` in single precision, for a finite `value`:
the quotient is rounded before the cast; the cast of a quotient that is not
finite is the platform's. -/
def writeRegisterF32 (p : Platform) (registers : List RegisterDescriptor) (name : String)
    (value : ℚ) (c : Chip) : Bool × Chip :=
  match findRegister registers name with
  | none => (false, c)
  | some reg =>
    if reg.rwType = RWType.RW_READ then (false, c)
    else
      let rawValue :=
        match divF32 value reg.scale with
        | some q => floatToU32 p q
        | none => p.undefU32 value % 2 ^ 32
      writeValue reg rawValue c

/-- The quotient `1000.0f / mc` of `readEnergyRegister`: `mc` is converted to
`float`, and a zero divisor gives the positive infinity. -/
def wattHoursPerCountF32 (mc : Nat) : FloatValue :=
  if mc = 0 then FloatValue.infinity false
  else roundValue roundF32 (1000 / intToF32 (mc : Int))

/-- `EnergyAccumulator::readEnergyRegister` in single precision. -/
def readEnergyRegisterF32 (registers : List RegisterDescriptor) (acc : EnergyAccumulator)
    (phase : Nat) (c : Chip) : Option FloatValue × Chip :=
  match getPhaseRegisterName phase false with
  | none => (none, c)
  | some registerName =>
    let (value, success, c1) := readRegisterF32 registers registerName c
    if success then
      let cf := value
      let mc := getMeterConstant acc
      (some (mulValue roundF32 cf (wattHoursPerCountF32 mc)), c1)
    else (none, c1)

/-- The statement `_accumulatedEnergy[phase] += (wattHours / 1000.0)` of
`update`, in double precision: the new total. -/
def accumulateF64 (total wattHours : FloatValue) : FloatValue :=
  addValue roundF64 total (divValue roundF64 wattHours 1000)

/-- The body of the phase loop of `update` on the three `double` totals: one
energy read, accumulated as kWh when it succeeds. -/
def updatePhaseF64 (registers : List RegisterDescriptor) (acc : EnergyAccumulator)
    (s : (Fin 3 → FloatValue) × Chip) (phase : Fin 3) : (Fin 3 → FloatValue) × Chip :=
  match readEnergyRegisterF32 registers acc phase.val s.2 with
  | (some wattHours, c1) =>
    (Function.update s.1 phase (accumulateF64 (s.1 phase) wattHours), c1)
  | (none, c1) => (s.1, c1)

/-- `EnergyAccumulator::update` on the three `double` totals and the chip; the
periodic save that follows the reads touches neither. -/
def updateTotalsF64 (registers : List RegisterDescriptor) (now : Nat) (acc : EnergyAccumulator)
    (totals : Fin 3 → FloatValue) (c : Chip) : (Fin 3 → FloatValue) × Chip :=
  if !acc.calibState.calibrating then
    if elapsed32 now acc.lastReadTime ≥ acc.readInterval then
      [0, 1, 2].foldl (updatePhaseF64 registers acc) (totals, c)
    else (totals, c)
  else (totals, c)

/-- The totals of an accumulator as `double` values. -/
def totalsF64 (acc : EnergyAccumulator) : Fin 3 → FloatValue :=
  fun i => FloatValue.finite (acc.accumulatedEnergy i)

/-- The `double` nearest to 0.1, the constant of the guard `measuredWh < 0.1`. -/
def doubleTenth : ℚ := 3602879701896397 / 36028797018963968

/-- The local `gainCalc` of `calculateAndApplyGain` in single precision, `none`
when it is not finite. -/
def gainCalcF32 (expectedWh measuredWh : ℚ) : Option ℚ :=
  (roundF32 (measuredWh - expectedWh)).bind (fun diff =>
    (divF32 diff expectedWh).bind (fun epsilon =>
      (roundF32 (1 + epsilon)).bind (fun denom =>
        (divF32 (-epsilon) denom).bind (fun quotient => roundF32 (quotient * 32768)))))

/-- The local `newGain = (int16_t)gainCalc` in single precision; the cast of a
value that is not finite is the platform's. -/
def newGainF32 (p : Platform) (expectedWh measuredWh : ℚ) : Int :=
  match gainCalcF32 expectedWh measuredWh with
  | some g => floatToI16 p g
  | none => toSigned 16 (p.undefI16 (gainCalc expectedWh measuredWh))

/-- `EnergyAccumulator::calculateAndApplyGain` in single precision, for finite
arguments. -/
def calculateAndApplyGainF32 (p : Platform) (registers : List RegisterDescriptor)
    (acc : EnergyAccumulator) (phase : Nat) (expectedWh measuredWh : ℚ) (c : Chip) :
    Bool × EnergyAccumulator × Chip :=
  if measuredWh < doubleTenth then (false, acc, c)
  else
    let g := newGainF32 p expectedWh measuredWh
    match getPhaseRegisterName phase true with
    | none => (false, acc, c)
    | some gainRegisterName =>
      let c1 := (writeRegisterF32 p registers "CfgRegAccEn" 0x55AA c).2
      let (success, c2) := writeRegisterRaw registers gainRegisterName (int16ToU16 g) c1
      let c3 := (writeRegisterF32 p registers "CfgRegAccEn" 0x0000 c2).2
      if !success then (false, acc, c3)
      else
        match acc.settings with
        | some st =>
          let calRegs := st.calibrationRegisters
          let calRegs' :=
            if phase = 0 then { calRegs with PQGainA := int16ToU16 g }
            else if phase = 1 then { calRegs with PQGainB := int16ToU16 g }
            else if phase = 2 then { calRegs with PQGainC := int16ToU16 g }
            else calRegs
          let st' := (saveSettings { st with calibrationRegisters := calRegs' }).2
          (true, { acc with settings := some st' }, c3)
        | none => (true, acc, c3)

/-- The value 0.01 as a `float`: `0x3C23D70A`. -/
def floatHundredth : ℚ := 5368709 / 536870912

/-- The largest finite `float`, `(2 ^ 24 - 1) * 2 ^ 104`. -/
def floatMax : ℚ := 340282346638528859811704183484516925440

/-- A `float` a little above `floatMax / 40000`: `0x77D1B717`. -/
def floatWideStep : ℚ := 8507058958117070766642349463306240

/-- A table for floating point: the lock register, the gain register of phase
A, the three energy registers (scale 0.01 as a `float`), and writable 16-bit
registers with scale 1, with scale 0.01 and with a scale near the top of the
`float` range. -/
def floatRegisters : List RegisterDescriptor :=
  [ reg16 "CfgRegAccEn" 0x7F RWType.RW_READWRITE RegType.DT_UINT16 1,
    reg16 "PQGainA" 0x47 RWType.RW_READWRITE RegType.DT_INT16 1,
    reg16 "APenergyA" 0x81 RWType.RW_READCLEAR RegType.DT_UINT16 floatHundredth,
    reg16 "APenergyB" 0x82 RWType.RW_READCLEAR RegType.DT_UINT16 floatHundredth,
    reg16 "APenergyC" 0x83 RWType.RW_READCLEAR RegType.DT_UINT16 floatHundredth,
    reg16 "UgainA" 0x61 RWType.RW_READWRITE RegType.DT_UINT16 1,
    reg16 "SagTh" 0x08 RWType.RW_READWRITE RegType.DT_UINT16 floatHundredth,
    reg16 "WideStep" 0x09 RWType.RW_READWRITE RegType.DT_UINT16 floatWideStep ]

/-- A table whose phase A energy register is a signed 16-bit register. -/
def signedEnergyRegisters : List RegisterDescriptor :=
  [ reg16 "APenergyA" 0x81 RWType.RW_READCLEAR RegType.DT_INT16 floatHundredth,
    reg16 "APenergyB" 0x82 RWType.RW_READCLEAR RegType.DT_UINT16 floatHundredth,
    reg16 "APenergyC" 0x83 RWType.RW_READCLEAR RegType.DT_UINT16 floatHundredth ]

/-- A chip whose cells all hold `0xFFFF`, which a signed 16-bit register reads
as -1. -/
def onesChip : Chip := { mem := fun _ => 0xFFFF, log := [] }

/-- An accumulator attached to a store whose meter constant is 0, with a total
of 1.5 kWh on phase A. -/
def zeroConstantAccumulator : EnergyAccumulator :=
  { initialAccumulator with
    settings := some { sampleSettings with
      energyAccumulation := { sampleSettings.energyAccumulation with meterConstant := 0 } },
    accumulatedEnergy := fun i => if i = 0 then 3 / 2 else 0 }

theorem testBit_fieldMask (pos len i : Nat) (h : pos + len ≤ 16) :
    (fieldMask pos len).testBit i = decide (pos ≤ i ∧ i < pos + len) := by
  unfold fieldMask
  have e : (65536 : Nat) = 2 ^ 16 := by norm_num
  rw [e, Nat.testBit_mod_two_pow, Nat.testBit_shiftLeft, Nat.one_shiftLeft,
    Nat.testBit_two_pow_sub_one]
  by_cases h1 : pos ≤ i <;> by_cases h2 : i < pos + len <;> simp [h1, h2] <;> omega

theorem fieldMask_lt (pos len : Nat) : fieldMask pos len < 2 ^ 32 := by
  unfold fieldMask
  have := Nat.mod_lt (((1 <<< len) - 1) <<< pos) (by norm_num : 65536 > 0)
  omega

theorem testBit_not32 (x i : Nat) (hx : x < 2 ^ 32) :
    (not32 x).testBit i = (decide (i < 32) && !x.testBit i) := by
  unfold not32
  rw [Nat.mod_eq_of_lt hx]
  have : 2 ^ 32 - 1 - x = 2 ^ 32 - (x + 1) := by omega
  rw [this]
  exact Nat.testBit_two_pow_sub_succ hx i

theorem testBit_of_lt_65536 (w i : Nat) (hw : w < 65536) (hi : 16 ≤ i) :
    w.testBit i = false := by
  apply Nat.testBit_lt_two_pow
  calc w < 2 ^ 16 := by omega
    _ ≤ 2 ^ i := Nat.pow_le_pow_right (by norm_num) hi

/-- The word `writeBitfield` computes from the word `w` it read. -/
theorem writeBitfield_word (w pos len value i : Nat) (hw : w < 65536) (h : pos + len ≤ 16) :
    (((w &&& not32 (fieldMask pos len)) |||
        (((value % 65536) <<< pos) &&& fieldMask pos len)) % 65536).testBit i
      = if pos ≤ i ∧ i < pos + len then (value % 2 ^ len).testBit (i - pos) else w.testBit i := by
  have e : (65536 : Nat) = 2 ^ 16 := by norm_num
  rw [e, Nat.testBit_mod_two_pow, Nat.testBit_or, Nat.testBit_and, Nat.testBit_and,
    testBit_not32 _ _ (fieldMask_lt pos len), testBit_fieldMask _ _ _ h,
    Nat.testBit_shiftLeft, Nat.testBit_mod_two_pow, Nat.testBit_mod_two_pow]
  by_cases h1 : pos ≤ i ∧ i < pos + len
  · have h16 : i < 16 := by omega
    have h32 : i < 32 := by omega
    have h3 : i - pos < 16 := by omega
    have h4 : i - pos < len := by omega
    have h5 : i ≥ pos := h1.1
    simp [h1, h16, h32, h3, h4, h5]
  · by_cases h16 : i < 16
    · have h32 : i < 32 := by omega
      simp [h1, h16, h32]
    · have := testBit_of_lt_65536 w i hw (by omega)
      simp [h1, h16, this]

/-- The word `writeBit` computes from the word `w` it read. -/
theorem writeBit_word (w pos i : Nat) (b : Bool) (hw : w < 65536) (hp : pos < 16) :
    (if b then (w ||| (1 <<< pos)) % 65536
      else (w &&& not32 (1 <<< pos)) % 65536).testBit i
      = if i = pos then b else w.testBit i := by
  have e : (65536 : Nat) = 2 ^ 16 := by norm_num
  have hlt : 2 ^ pos < 2 ^ 32 := Nat.pow_lt_pow_right (by norm_num) (by omega)
  cases b
  · simp only [Bool.false_eq_true, if_false]
    rw [e, Nat.testBit_mod_two_pow, Nat.testBit_and, Nat.one_shiftLeft,
      testBit_not32 _ _ hlt, Nat.testBit_two_pow]
    by_cases h1 : i = pos
    · subst h1; simp
    · have h2 : ¬ pos = i := fun h => h1 h.symm
      by_cases h16 : i < 16
      · have h32 : i < 32 := by omega
        simp [h1, h2, h16, h32]
      · have := testBit_of_lt_65536 w i hw (by omega)
        simp [h1, h16, this]
  · simp only [if_true]
    rw [e, Nat.testBit_mod_two_pow, Nat.testBit_or, Nat.one_shiftLeft, Nat.testBit_two_pow]
    by_cases h1 : i = pos
    · subst h1; simp [hp]
    · have h2 : ¬ pos = i := fun h => h1 h.symm
      by_cases h16 : i < 16
      · simp [h1, h2, h16]
      · have := testBit_of_lt_65536 w i hw (by omega)
        simp [h1, h16, this]

/-! ## C2 -/

/-- C2: with `w` the 16-bit word held by the addressed cell, `writeBitfield`
with `pos + len ≤ 16` stores the word whose bits `[pos, pos + len)` are those of
`value mod 2^len` and whose other bits are those of `w`; `writeBit` with
`bpos < 16` stores the word whose bit `bpos` is `b` and whose other bits are
those of `w`.  Both perform exactly one read and one write of that cell and
leave every other cell alone. -/
theorem writeBitfield_writeBit_frame (c : Chip) (addr pos len value bpos w : Nat) (b : Bool)
    (hw : c.mem (addr % 65536 &&& 0x7FFF) = w) (hw16 : w < 65536)
    (hlen : pos + len ≤ 16) (hbpos : bpos < 16) :
    (∀ i, ((writeBitfield c addr pos len value).mem (addr % 65536 &&& 0x7FFF)).testBit i
        = if pos ≤ i ∧ i < pos + len then (value % 2 ^ len).testBit (i - pos)
          else w.testBit i) ∧
    (∀ a, a ≠ (addr % 65536 &&& 0x7FFF) → (writeBitfield c addr pos len value).mem a = c.mem a) ∧
    (writeBitfield c addr pos len value).log
      = c.log ++ [BusOp.read (addr % 65536 &&& 0x7FFF),
          BusOp.write (addr % 65536 &&& 0x7FFF)
            ((writeBitfield c addr pos len value).mem (addr % 65536 &&& 0x7FFF))] ∧
    (∀ i, ((writeBit c addr bpos b).mem (addr % 65536 &&& 0x7FFF)).testBit i
        = if i = bpos then b else w.testBit i) ∧
    (∀ a, a ≠ (addr % 65536 &&& 0x7FFF) → (writeBit c addr bpos b).mem a = c.mem a) ∧
    (writeBit c addr bpos b).log
      = c.log ++ [BusOp.read (addr % 65536 &&& 0x7FFF),
          BusOp.write (addr % 65536 &&& 0x7FFF)
            ((writeBit c addr bpos b).mem (addr % 65536 &&& 0x7FFF))] := by
  have hm : c.mem (addr % 65536 &&& 0x7FFF) % 65536 = w := by
    rw [hw]; exact Nat.mod_eq_of_lt hw16
  refine ⟨?_, ?_, ?_, ?_, ?_, ?_⟩
  · intro i
    simp only [writeBitfield, read16, write16, if_true, hm]
    rw [Nat.mod_mod]
    exact writeBitfield_word w pos len value i hw16 hlen
  · intro a ha
    simp [writeBitfield, read16, write16, ha]
  · simp [writeBitfield, read16, write16]
  · intro i
    simp only [writeBit, read16, write16, if_true, hm]
    rw [Nat.mod_eq_of_lt]
    · exact writeBit_word w bpos i b hw16 hbpos
    · cases b <;> simp <;> exact Nat.mod_lt _ (by norm_num)
  · intro a ha
    simp [writeBit, read16, write16, ha]
  · simp [writeBit, read16, write16]

/-- C2 at a concrete word: field `[4, 8)` of `0xABCD` replaced by `0x5`, and
bit 1 of `0xABCD` set. -/
theorem writeBitfield_writeBit_frame_witness :
    (∀ i, ((writeBitfield { mem := fun _ => 0xABCD, log := [] } 0x33 4 4 0x35).mem
          (0x33 % 65536 &&& 0x7FFF)).testBit i
        = if 4 ≤ i ∧ i < 4 + 4 then (0x35 % 2 ^ 4).testBit (i - 4)
          else (0xABCD : Nat).testBit i) ∧
    (∀ i, ((writeBit { mem := fun _ => 0xABCD, log := [] } 0x33 1 true).mem
          (0x33 % 65536 &&& 0x7FFF)).testBit i
        = if i = 1 then true else (0xABCD : Nat).testBit i) :=
  have h := writeBitfield_writeBit_frame { mem := fun _ => 0xABCD, log := [] }
    0x33 4 4 0x35 1 0xABCD true rfl (by decide) (by decide) (by decide)
  ⟨h.1, h.2.2.2.1⟩

/-! ## Transactions only append to the log; reads leave the cells alone -/

theorem readValue_chip (reg : RegisterDescriptor) (c : Chip) :
    (readValue reg c).2.mem = c.mem ∧ c.log.length < (readValue reg c).2.log.length := by
  cases hty : reg.regType <;>
    simp [readValue, hty, readBit, readBitfield, read16, read32]

theorem writeValue_ok (reg : RegisterDescriptor) (v : Nat) (c : Chip) :
    (writeValue reg v c).1 = true ∧ c.log.length < (writeValue reg v c).2.log.length := by
  cases hty : reg.regType <;>
    simp [writeValue, hty, writeBit, writeBitfield, read16, write16]

/-! ## C4 -/

/-- C4: `readRegisterRaw` and `readRegister` clear the success flag exactly when
the name does not resolve or the descriptor is write-only; in that case the
value is 0 and the chip (cells and transaction log) is untouched, and in
every other case the flag is set and at least one bus transaction is logged. -/
theorem read_fails_iff_unknown_or_writeOnly (registers : List RegisterDescriptor)
    (name : String) (c : Chip) :
    ((readRegisterRaw registers name c).2.1 = false ↔
      (findRegister registers name = none ∨
        ∃ reg, findRegister registers name = some reg ∧ reg.rwType = RWType.RW_WRITE)) ∧
    ((readRegisterRaw registers name c).2.1 = false →
      (readRegisterRaw registers name c).1 = 0 ∧ (readRegisterRaw registers name c).2.2 = c) ∧
    ((readRegisterRaw registers name c).2.1 = true →
      c.log.length < (readRegisterRaw registers name c).2.2.log.length) ∧
    ((readRegister registers name c).2.1 = false ↔
      (findRegister registers name = none ∨
        ∃ reg, findRegister registers name = some reg ∧ reg.rwType = RWType.RW_WRITE)) ∧
    ((readRegister registers name c).2.1 = false →
      (readRegister registers name c).1 = 0 ∧ (readRegister registers name c).2.2 = c) ∧
    ((readRegister registers name c).2.1 = true →
      c.log.length < (readRegister registers name c).2.2.log.length) := by
  cases hf : findRegister registers name with
  | none => simp [readRegister, readRegisterRaw, hf]
  | some reg =>
    by_cases hrw : reg.rwType = RWType.RW_WRITE
    · simp [readRegister, readRegisterRaw, hf, hrw]
    · have hlog := (readValue_chip reg c).2
      simp [readRegister, readRegisterRaw, hf, hrw, hlog]

/-! ## C5 -/

/-- C5, the claim fails: `APenergyA` of the sample table is read-and-clear, yet
both write entry points accept it, return true and put a write on the bus. -/
theorem write_readClear_not_refused :
    (∃ reg, findRegister sampleRegisters "APenergyA" = some reg ∧
      reg.rwType = RWType.RW_READCLEAR) ∧
    (writeRegisterRaw sampleRegisters "APenergyA" 5 zeroChip).1 = true ∧
    (writeRegisterRaw sampleRegisters "APenergyA" 5 zeroChip).2.log = [BusOp.write 0x81 5] ∧
    (writeRegister zeroPlatform sampleRegisters "APenergyA" (5 / 100) zeroChip).1 = true ∧
    (writeRegister zeroPlatform sampleRegisters "APenergyA" (5 / 100) zeroChip).2.log
      = [BusOp.write 0x81 5] := by
  have hf : findRegister sampleRegisters "APenergyA"
      = some (reg16 "APenergyA" 0x81 RWType.RW_READCLEAR RegType.DT_UINT16 (1 / 100)) := by
    simp [findRegister, sampleRegisters, reg16, reg32, List.find?]
  have hraw : floatToU32 zeroPlatform ((5 / 100 : ℚ) / (1 / 100)) = 5 := by
    norm_num [floatToU32, truncToInt]
    rfl
  refine ⟨⟨_, hf, rfl⟩, by decide, by decide, ?_, ?_⟩
  · simp [writeRegister, hf, reg16, writeValue]
  · have hs : (reg16 "APenergyA" 0x81 RWType.RW_READCLEAR RegType.DT_UINT16 (1 / 100)).scale
        ≠ 0 := by norm_num [reg16]
    simp only [writeRegister, hf]
    rw [if_neg (by simp [reg16]), if_neg hs]
    simp only [reg16] at hraw ⊢
    rw [hraw]
    rfl

/-- C5 as amended: `writeRegister` and `writeRegisterRaw` return false and leave
the chip untouched exactly when the name does not resolve or the descriptor is
read-only; every other access kind, read-and-clear included, is written:
the result is true and a bus transaction is logged. -/
theorem write_refused_iff_unknown_or_readOnly (p : Platform)
    (registers : List RegisterDescriptor) (name : String) (value : ℚ) (raw : Nat) (c : Chip) :
    ((writeRegister p registers name value c).1 = false ↔
      (findRegister registers name = none ∨
        ∃ reg, findRegister registers name = some reg ∧ reg.rwType = RWType.RW_READ)) ∧
    ((writeRegisterRaw registers name raw c).1 = false ↔
      (findRegister registers name = none ∨
        ∃ reg, findRegister registers name = some reg ∧ reg.rwType = RWType.RW_READ)) ∧
    ((writeRegister p registers name value c).1 = false →
      (writeRegister p registers name value c).2 = c) ∧
    ((writeRegisterRaw registers name raw c).1 = false →
      (writeRegisterRaw registers name raw c).2 = c) ∧
    ((writeRegister p registers name value c).1 = true →
      c.log.length < (writeRegister p registers name value c).2.log.length) ∧
    ((writeRegisterRaw registers name raw c).1 = true →
      c.log.length < (writeRegisterRaw registers name raw c).2.log.length) := by
  cases hf : findRegister registers name with
  | none => simp [writeRegister, writeRegisterRaw, hf]
  | some reg =>
    by_cases hrw : reg.rwType = RWType.RW_READ
    · simp [writeRegister, writeRegisterRaw, hf, hrw]
    · have h1 := fun v => writeValue_ok reg v c
      simp [writeRegister, writeRegisterRaw, hf, hrw, h1]

/-! ## C3 -/

theorem and_0xFFFF (v : Nat) : v &&& 0xFFFF = v % 65536 := by
  have h := Nat.and_pow_two_sub_one_eq_mod v 16
  norm_num at h
  exact h

theorem compose32 (h l : Nat) (hh : h < 65536) (hl : l < 65536) :
    ((h <<< 16) % 2 ^ 32) ||| l = h * 65536 + l := by
  rw [Nat.shiftLeft_eq, Nat.mod_eq_of_lt (by omega), Nat.mul_comm h (2 ^ 16),
    ← Nat.mul_add_lt_is_or (by omega) h]

/-- Raw 32-bit read: high word from the first cell, low word from the second. -/
theorem readValue_32 (reg : RegisterDescriptor) (c : Chip)
    (hty : reg.regType = RegType.DT_UINT32 ∨ reg.regType = RegType.DT_INT32) :
    readValue reg c =
      ((c.mem (reg.address0 % 65536 &&& 0x7FFF) % 65536) * 65536
          + c.mem (reg.address1 % 65536 &&& 0x7FFF) % 65536,
        { c with log := c.log ++ [BusOp.read (reg.address0 % 65536 &&& 0x7FFF),
            BusOp.read (reg.address1 % 65536 &&& 0x7FFF)] }) := by
  have hc := compose32 (c.mem (reg.address0 % 65536 &&& 0x7FFF) % 65536)
    (c.mem (reg.address1 % 65536 &&& 0x7FFF) % 65536)
    (Nat.mod_lt _ (by norm_num)) (Nat.mod_lt _ (by norm_num))
  norm_num at hc
  rcases hty with hty | hty <;>
    simp [readValue, hty, read32, read16, hc]

/-- Raw 32-bit write: high word to the first cell, then low word to the second. -/
theorem writeValue_32 (reg : RegisterDescriptor) (v : Nat) (c : Chip)
    (hty : reg.regType = RegType.DT_UINT32 ∨ reg.regType = RegType.DT_INT32) :
    writeValue reg v c =
      (true, write16 (write16 c reg.address0 (v / 65536 % 65536)) reg.address1 (v % 65536)) := by
  have h1 : (v >>> 16) &&& 0xFFFF = v / 65536 % 65536 := by
    rw [and_0xFFFF, Nat.shiftRight_eq_div_pow]
  have h2 := and_0xFFFF v
  rcases hty with hty | hty <;> simp [writeValue, hty, h1, h2]

/-- C3, the claim fails: `PmeanA` is a 32-bit descriptor with two distinct
addresses but read-only, so the raw write is refused and the read returns the
old content; `Scratch32` has the distinct addresses `0x0001` and `0x8001`,
which name the same cell, so the low word overwrites the high word. -/
theorem raw32_roundtrip_fails :
    (readRegisterRaw sampleRegisters "PmeanA"
        (writeRegisterRaw sampleRegisters "PmeanA" 5 zeroChip).2).1 = 0 ∧
    (readRegisterRaw sampleRegisters "Scratch32"
        (writeRegisterRaw sampleRegisters "Scratch32" 0x12345678 zeroChip).2).1
      = 0x56785678 := by
  constructor <;> decide

/-- C3 as amended: for a descriptor of a 32-bit kind, the raw read returns
(word in the cell of `address[0]`) * 65536 + (word in the cell of
`address[1]`), reading the first cell first; the raw write of `v` writes
`v`'s high 16 bits to the first cell and then its low 16 bits to the second;
and when the two addresses name distinct cells and the access kind is neither
read-only nor write-only, `writeRegisterRaw` succeeds and `readRegisterRaw`
afterwards succeeds and returns `v`. -/
theorem raw32_read_write_roundtrip (registers : List RegisterDescriptor) (name : String)
    (reg : RegisterDescriptor) (v : Nat) (c : Chip)
    (hf : findRegister registers name = some reg)
    (hty : reg.regType = RegType.DT_UINT32 ∨ reg.regType = RegType.DT_INT32)
    (hv : v < 2 ^ 32)
    (hcell : reg.address0 % 65536 &&& 0x7FFF ≠ reg.address1 % 65536 &&& 0x7FFF)
    (hr : reg.rwType ≠ RWType.RW_READ) (hw : reg.rwType ≠ RWType.RW_WRITE) :
    (readValue reg c).1 = (c.mem (reg.address0 % 65536 &&& 0x7FFF) % 65536) * 65536
        + c.mem (reg.address1 % 65536 &&& 0x7FFF) % 65536 ∧
    (readValue reg c).2.log = c.log ++ [BusOp.read (reg.address0 % 65536 &&& 0x7FFF),
        BusOp.read (reg.address1 % 65536 &&& 0x7FFF)] ∧
    (writeValue reg v c).2.log = c.log ++
        [BusOp.write (reg.address0 % 65536 &&& 0x7FFF) (v / 65536),
         BusOp.write (reg.address1 % 65536 &&& 0x7FFF) (v % 65536)] ∧
    (writeRegisterRaw registers name v c).1 = true ∧
    (readRegisterRaw registers name (writeRegisterRaw registers name v c).2).2.1 = true ∧
    (readRegisterRaw registers name (writeRegisterRaw registers name v c).2).1 = v := by
  have hhi : v / 65536 % 65536 = v / 65536 := Nat.mod_eq_of_lt (by omega)
  have hmm : v % 65536 % 65536 = v % 65536 := Nat.mod_mod _ _
  have hv' : v % 2 ^ 32 = v := Nat.mod_eq_of_lt hv
  refine ⟨?_, ?_, ?_, ?_, ?_, ?_⟩
  · rw [readValue_32 reg c hty]
  · rw [readValue_32 reg c hty]
  · rw [writeValue_32 reg v c hty]
    simp [write16, hhi]
  · simp [writeRegisterRaw, hf, hr, (writeValue_ok reg _ c).1]
  · simp [writeRegisterRaw, readRegisterRaw, hf, hr, hw]
  · simp only [writeRegisterRaw, readRegisterRaw, hf, if_neg hr, if_neg hw, hv']
    rw [writeValue_32 reg v c hty, readValue_32 reg _ hty]
    simp only [write16, hhi, hmm, if_true, if_neg hcell]
    omega

/-- C3 as amended, at `Wide32` (cells `0x10`, `0x11`) of the sample table. -/
theorem raw32_read_write_roundtrip_witness :
    (readRegisterRaw sampleRegisters "Wide32"
        (writeRegisterRaw sampleRegisters "Wide32" 0x12345678 zeroChip).2).1 = 0x12345678 :=
  (raw32_read_write_roundtrip sampleRegisters "Wide32"
    (reg32 "Wide32" 0x10 0x11 RWType.RW_READWRITE RegType.DT_UINT32 1) 0x12345678 zeroChip
    (by simp [findRegister, sampleRegisters, reg16, reg32, List.find?]) (Or.inl rfl)
    (by decide) (by decide) (by decide) (by decide)).2.2.2.2.2

/-! ## Raw write followed by raw read -/

theorem read16_write16 (c : Chip) (addr n : Nat) :
    (read16 (write16 c addr n) addr).1 = n % 65536 := by
  simp [read16, write16]

theorem shiftRight_and_one_ne_zero (m n : Nat) :
    (((m >>> n) &&& 0x01) != 0) = m.testBit n := by
  simp [Nat.testBit, Nat.and_comm]

theorem readBit_writeBit (c : Chip) (addr pos : Nat) (b : Bool) (hp : pos < 16) :
    (readBit (writeBit c addr pos b) addr pos).1 = b := by
  have hw := writeBit_word (c.mem (addr % 65536 &&& 0x7FFF) % 65536) pos pos b
    (Nat.mod_lt _ (by norm_num)) hp
  simp only [if_true] at hw
  have hlt : (if b = true then (c.mem (addr % 65536 &&& 0x7FFF) % 65536 ||| 1 <<< pos) % 65536
      else (c.mem (addr % 65536 &&& 0x7FFF) % 65536 &&& not32 (1 <<< pos)) % 65536) % 65536
      = (if b = true then (c.mem (addr % 65536 &&& 0x7FFF) % 65536 ||| 1 <<< pos) % 65536
      else (c.mem (addr % 65536 &&& 0x7FFF) % 65536 &&& not32 (1 <<< pos)) % 65536) := by
    cases b <;> simp
  simp only [readBit, writeBit, read16, write16, if_true]
  rw [shiftRight_and_one_ne_zero, hlt, hlt]
  exact hw

theorem read32_write32 (c : Chip) (a0 a1 hi lo : Nat)
    (hcell : a0 % 65536 &&& 0x7FFF ≠ a1 % 65536 &&& 0x7FFF) :
    (read32 (write16 (write16 c a0 hi) a1 lo) a0 a1).1 = (hi % 65536) * 65536 + lo % 65536 := by
  have hc := compose32 (hi % 65536) (lo % 65536)
    (Nat.mod_lt _ (by norm_num)) (Nat.mod_lt _ (by norm_num))
  norm_num at hc
  simp [read32, read16, write16, hcell, hc]

theorem readBitfield_writeBitfield (c : Chip) (addr pos len value : Nat)
    (h : pos + len ≤ 16) :
    (readBitfield (writeBitfield c addr pos len value) addr pos len).1 = value % 2 ^ len := by
  simp only [readBitfield, writeBitfield, read16, write16, if_true]
  rw [Nat.mod_mod, Nat.mod_mod]
  apply Nat.eq_of_testBit_eq
  intro j
  rw [Nat.testBit_shiftRight, Nat.testBit_and,
    writeBitfield_word _ pos len value (pos + j) (Nat.mod_lt _ (by norm_num)) h,
    testBit_fieldMask _ _ _ h, Nat.testBit_mod_two_pow]
  by_cases hj : j < len
  · have h1 : pos ≤ pos + j ∧ pos + j < pos + len := ⟨by omega, by omega⟩
    have h2 : pos + j - pos = j := by omega
    simp [h1, h2, hj, Nat.testBit_mod_two_pow]
  · have h1 : ¬ (pos ≤ pos + j ∧ pos + j < pos + len) := by omega
    simp [h1, hj]

/-- A raw value that fits the kind reads back unchanged. -/
theorem readValue_writeValue (reg : RegisterDescriptor) (n : Nat) (c : Chip)
    (hfit : layoutFits reg = true) (hn : n < nonnegRawCount reg) :
    (readValue reg (writeValue reg n c).2).1 = n := by
  cases hty : reg.regType <;>
    simp only [layoutFits, nonnegRawCount, hty, decide_eq_true_eq, Bool.and_eq_true] at hfit hn <;>
    simp only [readValue, writeValue, hty]
  · rw [readBitfield_writeBitfield _ _ _ _ _ hfit]; exact Nat.mod_eq_of_lt (by omega)
  · rw [readBitfield_writeBitfield _ _ _ _ _ hfit]; exact Nat.mod_eq_of_lt (by omega)
  · rw [read16_write16]; exact Nat.mod_eq_of_lt (by omega)
  · rw [read16_write16]; exact Nat.mod_eq_of_lt (by omega)
  · rw [read32_write32 _ _ _ _ _ hfit, and_0xFFFF, and_0xFFFF, Nat.shiftRight_eq_div_pow]
    omega
  · rw [read32_write32 _ _ _ _ _ hfit.1, and_0xFFFF, and_0xFFFF, Nat.shiftRight_eq_div_pow]
    omega
  · rw [readBit_writeBit _ _ _ _ hfit]
    have : n = 0 ∨ n = 1 := by omega
    rcases this with rfl | rfl <;> simp
  · rw [readBitfield_writeBitfield _ _ _ _ _ hfit]; exact Nat.mod_eq_of_lt hn

/-! ## C6 -/

theorem toSigned_of_lt (w n : Nat) (hw : 0 < w) (hn : n < 2 ^ (w - 1)) :
    toSigned w n = (n : Int) := by
  have h2 : 2 ^ (w - 1) ≤ 2 ^ w := Nat.pow_le_pow_right (by norm_num) (by omega)
  have hmod : n % 2 ^ w = n := Nat.mod_eq_of_lt (by omega)
  simp [toSigned, hmod, hn]

/-- What `convertRegisterValue` computes without a decode function: the raw
value times the scale for every kind but `DT_INT16` and `DT_INT32`, whose raw
value is first read as a signed 16-bit value when the register count is 1 and
as a signed 32-bit value otherwise. -/
theorem convertRegisterValue_scaled (registers : List RegisterDescriptor) (name : String)
    (reg : RegisterDescriptor) (raw : Nat)
    (hf : findRegister registers name = some reg) (hconv : reg.convertFunc = none)
    (hraw : raw < 2 ^ 32) :
    convertRegisterValue registers name raw =
      if reg.regType = RegType.DT_INT16 ∨ reg.regType = RegType.DT_INT32 then
        if reg.regCount = 1 then (toSigned 16 raw : ℚ) * reg.scale
        else (toSigned 32 raw : ℚ) * reg.scale
      else (raw : ℚ) * reg.scale := by
  simp only [convertRegisterValue, hf, hconv, Nat.mod_eq_of_lt hraw]

/-- C6, the code at the failing input: `Offset8` of the sample table is a
`DT_INT8` register with scale 1 and no decode function; the raw byte `0xFF`,
whose two's-complement value at 8 bits is -1, is converted to 255. -/
theorem convertRegisterValue_int8_not_signed :
    (∃ reg, findRegister sampleRegisters "Offset8" = some reg ∧
      reg.regType = RegType.DT_INT8 ∧ reg.scale = 1 ∧ reg.convertFunc = none) ∧
    convertRegisterValue sampleRegisters "Offset8" 0xFF = 255 ∧
    (toSigned 8 0xFF : ℚ) * 1 = -1 := by
  have hf : findRegister sampleRegisters "Offset8"
      = some { reg16 "Offset8" 0x20 RWType.RW_READWRITE RegType.DT_INT8 1 with bitLen := 8 } := by
    simp [findRegister, sampleRegisters, reg16, reg32, List.find?]
  refine ⟨⟨_, hf, rfl, rfl, rfl⟩, ?_, ?_⟩
  · rw [convertRegisterValue_scaled _ _ _ _ hf rfl (by norm_num)]
    rw [if_neg (by simp [reg16])]
    norm_num [reg16]
  · norm_num [toSigned]

/-! ## C1 -/

theorem nonnegRawCount_le (reg : RegisterDescriptor) (hfit : layoutFits reg = true) :
    nonnegRawCount reg ≤ 2 ^ 32 := by
  cases hty : reg.regType <;>
    simp only [layoutFits, nonnegRawCount, hty, decide_eq_true_eq] at hfit ⊢ <;>
    try norm_num
  calc 2 ^ reg.bitLen ≤ 2 ^ 16 := Nat.pow_le_pow_right (by norm_num) (by omega)
    _ ≤ 2 ^ 32 := by norm_num

theorem convertRegisterValue_nonneg (registers : List RegisterDescriptor) (name : String)
    (reg : RegisterDescriptor) (n : Nat)
    (hf : findRegister registers name = some reg) (hconv : reg.convertFunc = none)
    (hfit : layoutFits reg = true) (hn : n < nonnegRawCount reg) :
    convertRegisterValue registers name n = (n : ℚ) * reg.scale := by
  have hle := nonnegRawCount_le reg hfit
  rw [convertRegisterValue_scaled registers name reg n hf hconv (by omega)]
  cases hty : reg.regType <;>
    simp only [layoutFits, nonnegRawCount, hty, decide_eq_true_eq, Bool.and_eq_true] at hfit hn <;>
    simp
  · have h16 := toSigned_of_lt 16 n (by norm_num) (by norm_num; omega)
    have h32 := toSigned_of_lt 32 n (by norm_num) (by norm_num; omega)
    rw [h16, h32]; simp
  · have h32 := toSigned_of_lt 32 n (by norm_num) (by norm_num; omega)
    rw [if_neg (by omega), h32]; simp

theorem floatToU32_of_nonneg (p : Platform) (q : ℚ) (hq : 0 ≤ q) (hlt : q < 2 ^ 32) :
    floatToU32 p q = ⌊q⌋.toNat ∧ ((⌊q⌋.toNat : ℕ) : ℚ) ≤ q ∧ q < (⌊q⌋.toNat : ℕ) + 1 := by
  have h0 : (0 : Int) ≤ ⌊q⌋ := Int.floor_nonneg.mpr hq
  have h1 : ⌊q⌋ < 2 ^ 32 := by
    rw [Int.floor_lt]; exact_mod_cast hlt
  have hcast : ((⌊q⌋.toNat : ℕ) : ℚ) = (⌊q⌋ : ℚ) := by
    have : ((⌊q⌋.toNat : ℕ) : Int) = ⌊q⌋ := Int.toNat_of_nonneg h0
    exact_mod_cast congrArg (fun z : Int => (z : ℚ)) this
  refine ⟨?_, ?_, ?_⟩
  · have h1' : ⌊q⌋ < 4294967296 := by norm_num at h1; exact h1
    have h2 : ¬ (4294967296 ≤ ⌊q⌋) := by omega
    simp [floatToU32, truncToInt, hq, h0, h2]
  · rw [hcast]; exact Int.floor_le q
  · rw [hcast]; exact Int.lt_floor_add_one q

theorem readRegister_of_readable (registers : List RegisterDescriptor) (name : String)
    (reg : RegisterDescriptor) (c : Chip)
    (hf : findRegister registers name = some reg) (hw : reg.rwType ≠ RWType.RW_WRITE) :
    readRegister registers name c =
      (convertRegisterValue registers name (readValue reg c).1, true, (readValue reg c).2) := by
  simp [readRegister, readRegisterRaw, hf, hw]

/-! ## Floating point: rounding -/

theorem pow2_eq_zpow (e : Int) : pow2 e = (2 : ℚ) ^ e := by
  unfold pow2
  split_ifs with h
  · conv_rhs => rw [← Int.toNat_of_nonneg h]
    rw [zpow_natCast]
  · have h' : 0 ≤ -e := by omega
    have : e = -((-e).toNat : Int) := by rw [Int.toNat_of_nonneg h']; ring
    conv_rhs => rw [this]
    rw [zpow_neg, zpow_natCast, one_div]

theorem log2Fuel_spec (fuel : Nat) : ∀ n, 0 < n → n ≤ fuel →
    2 ^ log2Fuel fuel n ≤ n ∧ n < 2 ^ (log2Fuel fuel n + 1) := by
  induction fuel with
  | zero => intro n h0 h1; omega
  | succ k ih =>
    intro n h0 h1
    unfold log2Fuel
    split_ifs with h
    · constructor <;> simp <;> omega
    · have hn : 0 < n / 2 := Nat.div_pos (by omega) (by norm_num)
      obtain ⟨a, b⟩ := ih (n / 2) hn (by omega)
      rw [pow_succ, pow_succ]
      constructor <;> omega

theorem floorLog2_spec (x : ℚ) (hx : x ≠ 0) :
    (2 : ℚ) ^ floorLog2 x ≤ |x| ∧ |x| < (2 : ℚ) ^ (floorLog2 x + 1) := by
  have ha : 0 < x.num.natAbs := Int.natAbs_pos.mpr (Rat.num_ne_zero.mpr hx)
  have hb : 0 < x.den := x.den_pos
  obtain ⟨a1, a2⟩ := log2Fuel_spec _ _ ha le_rfl
  obtain ⟨b1, b2⟩ := log2Fuel_spec _ _ hb le_rfl
  have habs : |x| = (x.num.natAbs : ℚ) / (x.den : ℚ) := by
    conv_lhs => rw [← Rat.num_div_den x]
    rw [abs_div, Nat.abs_cast]
    congr 1
    rw [Nat.cast_natAbs, Int.cast_abs]
  set la := log2Fuel x.num.natAbs x.num.natAbs with hla
  set lb := log2Fuel x.den x.den with hlb
  have a1' : ((2 : ℚ) ^ la) ≤ (x.num.natAbs : ℚ) := by exact_mod_cast a1
  have a2' : (x.num.natAbs : ℚ) < (2 : ℚ) ^ (la + 1) := by exact_mod_cast a2
  have b1' : ((2 : ℚ) ^ lb) ≤ (x.den : ℚ) := by exact_mod_cast b1
  have b2' : (x.den : ℚ) < (2 : ℚ) ^ (lb + 1) := by exact_mod_cast b2
  have hbq : (0 : ℚ) < x.den := by exact_mod_cast hb
  have hup : |x| < (2 : ℚ) ^ (((la : Int) - (lb : Int)) + 1) := by
    rw [habs, div_lt_iff₀ hbq]
    have : (2 : ℚ) ^ (((la : Int) - (lb : Int)) + 1) * (2 : ℚ) ^ (lb : Int)
        = (2 : ℚ) ^ ((la : Int) + 1) := by
      rw [← zpow_add₀ (by norm_num : (2 : ℚ) ≠ 0)]; congr 1; ring
    have h3 : (2 : ℚ) ^ ((la : Int) + 1) = (2 : ℚ) ^ (la + 1) := by
      rw [← zpow_natCast]; norm_cast
    have h4 : (2 : ℚ) ^ (lb : Int) = (2 : ℚ) ^ lb := zpow_natCast _ _
    have hpos : (0 : ℚ) < (2 : ℚ) ^ (((la : Int) - (lb : Int)) + 1) := by positivity
    calc (x.num.natAbs : ℚ) < (2 : ℚ) ^ (la + 1) := a2'
      _ = (2 : ℚ) ^ (((la : Int) - (lb : Int)) + 1) * (2 : ℚ) ^ (lb : Int) := by rw [this, h3]
      _ ≤ (2 : ℚ) ^ (((la : Int) - (lb : Int)) + 1) * (x.den : ℚ) := by
        rw [h4]; exact mul_le_mul_of_nonneg_left b1' hpos.le
  have hlo : (2 : ℚ) ^ (((la : Int) - (lb : Int)) - 1) ≤ |x| := by
    rw [habs, le_div_iff₀ hbq]
    have : (2 : ℚ) ^ (((la : Int) - (lb : Int)) - 1) * (2 : ℚ) ^ ((lb : Int) + 1)
        = (2 : ℚ) ^ (la : Int) := by
      rw [← zpow_add₀ (by norm_num : (2 : ℚ) ≠ 0)]; congr 1; ring
    have h3 : (2 : ℚ) ^ ((lb : Int) + 1) = (2 : ℚ) ^ (lb + 1) := by
      rw [← zpow_natCast]; norm_cast
    have h4 : (2 : ℚ) ^ (la : Int) = (2 : ℚ) ^ la := zpow_natCast _ _
    have hpos : (0 : ℚ) < (2 : ℚ) ^ (((la : Int) - (lb : Int)) - 1) := by positivity
    calc (2 : ℚ) ^ (((la : Int) - (lb : Int)) - 1) * (x.den : ℚ)
        ≤ (2 : ℚ) ^ (((la : Int) - (lb : Int)) - 1) * (2 : ℚ) ^ (lb + 1) :=
          mul_le_mul_of_nonneg_left b2'.le hpos.le
      _ = (2 : ℚ) ^ (la : Int) := by rw [← h3, this]
      _ ≤ (x.num.natAbs : ℚ) := by rw [h4]; exact a1'
  unfold floorLog2
  simp only [← hla, ← hlb, pow2_eq_zpow]
  split_ifs with h
  · exact ⟨h, hup⟩
  · refine ⟨hlo, ?_⟩
    rw [sub_add_cancel]
    exact lt_of_not_le h

/-- A smaller magnitude has no larger exponent. -/
theorem floorLog2_mono (x y : ℚ) (hx : x ≠ 0) (hy : y ≠ 0) (h : |x| ≤ |y|) :
    floorLog2 x ≤ floorLog2 y := by
  have h1 := (floorLog2_spec x hx).1
  have h2 := (floorLog2_spec y hy).2
  have h3 : (2 : ℚ) ^ floorLog2 x < (2 : ℚ) ^ (floorLog2 y + 1) :=
    lt_of_le_of_lt (h1.trans h) h2
  have h4 := (zpow_lt_zpow_iff_right₀ (by norm_num : (1 : ℚ) < 2)).mp h3
  omega

theorem roundHalfEven_between (y : ℚ) : ⌊y⌋ ≤ roundHalfEven y ∧ roundHalfEven y ≤ ⌈y⌉ := by
  have h1 := Int.floor_le y
  have hfc := Int.floor_le_ceil y
  unfold roundHalfEven
  have hlt : ∀ (h : ¬ (y - ⌊y⌋ < 1 / 2)), ⌊y⌋ + 1 ≤ ⌈y⌉ := by
    intro h
    have : (⌊y⌋ : ℚ) < y := by
      push_neg at h
      linarith
    have h5 : ⌊y⌋ < ⌈y⌉ := by
      rw [Int.lt_ceil]
      exact this
    omega
  split_ifs with ha hb hc
  · exact ⟨le_rfl, hfc⟩
  · exact ⟨by omega, hlt ha⟩
  · exact ⟨le_rfl, hfc⟩
  · exact ⟨by omega, hlt ha⟩

theorem roundHalfEven_spec (y : ℚ) : |(roundHalfEven y : ℚ) - y| ≤ 1 / 2 := by
  have h1 := Int.floor_le y
  have h2 := Int.lt_floor_add_one y
  unfold roundHalfEven
  rw [abs_le]
  split_ifs with ha hb hc <;> push_cast <;> constructor <;> linarith

theorem roundHalfEven_nonneg (y : ℚ) (hy : 0 ≤ y) : 0 ≤ roundHalfEven y :=
  le_trans (Int.floor_nonneg.mpr hy) (roundHalfEven_between y).1

theorem roundHalfEven_nonpos (y : ℚ) (hy : y ≤ 0) : roundHalfEven y ≤ 0 :=
  le_trans (roundHalfEven_between y).2 (Int.ceil_le.mpr (by exact_mod_cast hy))

/-- An integer below (above) a value is below (above) its rounding. -/
theorem roundHalfEven_ge (y : ℚ) (k : Int) (h : (k : ℚ) ≤ y) : k ≤ roundHalfEven y :=
  le_trans (Int.le_floor.mpr h) (roundHalfEven_between y).1

theorem roundHalfEven_le (y : ℚ) (k : Int) (h : y ≤ (k : ℚ)) : roundHalfEven y ≤ k :=
  le_trans (roundHalfEven_between y).2 (Int.ceil_le.mpr h)

theorem roundBinary_zero (mant : Nat) (emin emax : Int) :
    roundBinary mant emin emax 0 = some 0 := by simp [roundBinary]

/-- The shape of a rounded non-zero value: a multiple of the spacing at the
exponent of `x`, at most half a spacing away, below the overflow bound. -/
theorem roundBinary_core (mant : Nat) (emin emax : Int) (x r : ℚ) (hx : x ≠ 0)
    (h : roundBinary mant emin emax x = some r) :
    r = (roundHalfEven (x / (2 : ℚ) ^ (max (floorLog2 x) emin - mant)) : ℚ)
          * (2 : ℚ) ^ (max (floorLog2 x) emin - mant) ∧
    |r - x| ≤ (2 : ℚ) ^ (max (floorLog2 x) emin - mant - 1) ∧
    |r| < (2 : ℚ) ^ emax := by
  unfold roundBinary at h
  rw [if_neg hx] at h
  simp only [pow2_eq_zpow] at h
  split_ifs at h with hbig
  have hr := (Option.some.inj h).symm
  refine ⟨hr, ?_, ?_⟩
  · set p := (2 : ℚ) ^ (max (floorLog2 x) emin - mant) with hp
    have hppos : 0 < p := by positivity
    have h1 := roundHalfEven_spec (x / p)
    have h2 : r - x = ((roundHalfEven (x / p) : ℚ) - x / p) * p := by
      rw [hr]; field_simp
    have h3 : (2 : ℚ) ^ (max (floorLog2 x) emin - mant - 1) = p / 2 := by
      rw [hp, zpow_sub_one₀ (by norm_num : (2 : ℚ) ≠ 0)]
      ring
    rw [h2, abs_mul, abs_of_pos hppos, h3]
    nlinarith
  · rw [hr]
    exact lt_of_not_le hbig

/-- The value computed is what is returned when it is below the overflow
bound. -/
theorem roundBinary_of_lt (mant : Nat) (emin emax : Int) (x : ℚ) (hx : x ≠ 0)
    (h : |(roundHalfEven (x / (2 : ℚ) ^ (max (floorLog2 x) emin - mant)) : ℚ)
          * (2 : ℚ) ^ (max (floorLog2 x) emin - mant)| < (2 : ℚ) ^ emax) :
    roundBinary mant emin emax x
      = some ((roundHalfEven (x / (2 : ℚ) ^ (max (floorLog2 x) emin - mant)) : ℚ)
          * (2 : ℚ) ^ (max (floorLog2 x) emin - mant)) := by
  unfold roundBinary
  rw [if_neg hx]
  simp only [pow2_eq_zpow]
  rw [if_neg (not_le.mpr h)]

theorem roundBinary_nonneg (mant : Nat) (emin emax : Int) (x r : ℚ) (hx : 0 ≤ x)
    (h : roundBinary mant emin emax x = some r) : 0 ≤ r := by
  by_cases h0 : x = 0
  · rw [h0, roundBinary_zero] at h
    exact (Option.some.inj h) ▸ le_rfl
  · rw [(roundBinary_core mant emin emax x r h0 h).1]
    have : (0 : ℚ) ≤ (roundHalfEven (x / (2 : ℚ) ^ (max (floorLog2 x) emin - mant)) : ℚ) := by
      exact_mod_cast roundHalfEven_nonneg _ (div_nonneg hx (by positivity))
    positivity

theorem roundBinary_nonpos (mant : Nat) (emin emax : Int) (x r : ℚ) (hx : x ≤ 0)
    (h : roundBinary mant emin emax x = some r) : r ≤ 0 := by
  by_cases h0 : x = 0
  · rw [h0, roundBinary_zero] at h
    exact (Option.some.inj h) ▸ le_rfl
  · rw [(roundBinary_core mant emin emax x r h0 h).1]
    have h1 : (roundHalfEven (x / (2 : ℚ) ^ (max (floorLog2 x) emin - mant)) : ℚ) ≤ 0 := by
      exact_mod_cast roundHalfEven_nonpos _ (div_nonpos_of_nonpos_of_nonneg hx (by positivity))
    have h2 : (0 : ℚ) < (2 : ℚ) ^ (max (floorLog2 x) emin - mant) := by positivity
    exact mul_nonpos_of_nonpos_of_nonneg h1 h2.le

theorem zpow_two_split (e : Int) (mant : Nat) :
    (2 : ℚ) ^ e = (2 : ℚ) ^ mant * (2 : ℚ) ^ (e - mant) := by
  rw [← zpow_natCast, ← zpow_add₀ (by norm_num : (2 : ℚ) ≠ 0)]
  congr 1; ring

/-- Rounding does not cross a value of the format: a value `y` at or above a
value `a` of the format rounds to a value at or above `a`, or overflows to the
positive infinity. -/
theorem roundBinary_ge_of_le (mant : Nat) (emin emax : Int) (a y : ℚ)
    (ha : roundBinary mant emin emax a = some a) (hay : a ≤ y) :
    (∃ r, roundBinary mant emin emax y = some r ∧ a ≤ r) ∨
      (roundBinary mant emin emax y = none ∧ 0 < y) := by
  by_cases hy0 : y = 0
  · left
    exact ⟨0, by rw [hy0, roundBinary_zero], by rw [hy0] at hay; exact hay⟩
  rcases lt_or_gt_of_ne hy0 with hyneg | hypos
  · -- `a ≤ y < 0`
    left
    have haneg : a < 0 := lt_of_le_of_lt hay hyneg
    have ha0 : a ≠ 0 := haneg.ne
    obtain ⟨hashape, -, habound⟩ := roundBinary_core mant emin emax a a ha0 ha
    have habs : |y| ≤ |a| := by
      rw [abs_of_neg hyneg, abs_of_neg haneg]; linarith
    have hmono := floorLog2_mono y a hy0 ha0 habs
    have hmono' : max (floorLog2 y) emin ≤ max (floorLog2 a) emin := max_le_max hmono le_rfl
    set ey := max (floorLog2 y) emin with hey
    set ea := max (floorLog2 a) emin with hea
    set p := (2 : ℚ) ^ (ey - mant) with hp
    have hppos : 0 < p := by positivity
    have hR0 : ((roundHalfEven (y / p) : Int) : ℚ) * p ≤ 0 := by
      have h1 : ((roundHalfEven (y / p) : Int) : ℚ) ≤ 0 := by
        exact_mod_cast roundHalfEven_nonpos _ (div_nonpos_of_nonpos_of_nonneg hyneg.le hppos.le)
      exact mul_nonpos_of_nonpos_of_nonneg h1 hppos.le
    have hRa : a ≤ ((roundHalfEven (y / p) : Int) : ℚ) * p := by
      rcases eq_or_lt_of_le hmono' with heq | hlt
      · -- same spacing
        rw [← heq] at hashape
        have hk : ((roundHalfEven (a / p) : Int) : ℚ) ≤ y / p := by
          have h1 : a / p ≤ y / p := div_le_div_of_nonneg_right hay hppos.le
          have h2 : a / p = ((roundHalfEven (a / p) : Int) : ℚ) := by
            rw [div_eq_iff hppos.ne']
            exact hashape
          rw [← h2]; exact h1
        have hk2 : ((roundHalfEven (a / p) : Int) : ℚ) ≤ ((roundHalfEven (y / p) : Int) : ℚ) := by
          exact_mod_cast roundHalfEven_ge _ _ hk
        calc a = ((roundHalfEven (a / p) : Int) : ℚ) * p := hashape
          _ ≤ ((roundHalfEven (y / p) : Int) : ℚ) * p :=
            mul_le_mul_of_nonneg_right hk2 hppos.le
      · -- `a` has the larger exponent
        have hea' : ea = floorLog2 a := by
          rw [hea]
          apply max_eq_left
          by_contra hcon
          push_neg at hcon
          have : ea = emin := by rw [hea]; exact max_eq_right hcon.le
          have h2 : emin ≤ ey := le_max_right _ _
          omega
        have h1 : (2 : ℚ) ^ ea ≤ -a := by
          have := (floorLog2_spec a ha0).1
          rw [abs_of_neg haneg, ← hea'] at this
          exact this
        have h2 : -y < (2 : ℚ) ^ (ey + 1) := by
          have := (floorLog2_spec y hy0).2
          rw [abs_of_neg hyneg] at this
          refine lt_of_lt_of_le this ?_
          exact zpow_le_zpow_right₀ (by norm_num) (by
            have : floorLog2 y ≤ ey := le_max_left _ _
            omega)
        have h3 : (2 : ℚ) ^ (ey + 1) = (2 : ℚ) ^ (mant + 1) * p := by
          rw [zpow_two_split (ey + 1) (mant + 1), hp]
          congr 2
          push_cast; ring
        have h4 : (((-(2 ^ (mant + 1) : ℕ) : Int)) : ℚ) ≤ y / p := by
          rw [le_div_iff₀ hppos]
          push_cast
          rw [h3] at h2
          linarith
        have h5 := roundHalfEven_ge _ _ h4
        have h6 : ((-(2 ^ (mant + 1) : ℕ) : Int) : ℚ) ≤ ((roundHalfEven (y / p) : Int) : ℚ) := by
          exact_mod_cast h5
        have h7 : (2 : ℚ) ^ (ey + 1) ≤ (2 : ℚ) ^ ea :=
          zpow_le_zpow_right₀ (by norm_num) (by omega)
        have h8 := mul_le_mul_of_nonneg_right h6 hppos.le
        push_cast at h8
        rw [neg_mul, ← h3] at h8
        linarith
    have hfin : |((roundHalfEven (y / p) : Int) : ℚ) * p| < (2 : ℚ) ^ emax := by
      rw [abs_of_nonpos hR0]
      rw [abs_of_neg haneg] at habound
      linarith
    exact ⟨_, roundBinary_of_lt mant emin emax y hy0 hfin, hRa⟩
  · -- `0 < y`
    cases hry : roundBinary mant emin emax y with
    | none => right; exact ⟨rfl, hypos⟩
    | some r =>
      left
      refine ⟨r, rfl, ?_⟩
      by_cases ha0 : a ≤ 0
      · exact le_trans ha0 (roundBinary_nonneg mant emin emax y r hypos.le hry)
      push_neg at ha0
      obtain ⟨hashape, -, -⟩ := roundBinary_core mant emin emax a a ha0.ne' ha
      obtain ⟨hrshape, -, -⟩ := roundBinary_core mant emin emax y r hy0 hry
      have habs : |a| ≤ |y| := by
        rw [abs_of_pos hypos, abs_of_pos ha0]; exact hay
      have hmono := floorLog2_mono a y ha0.ne' hy0 habs
      have hmono' : max (floorLog2 a) emin ≤ max (floorLog2 y) emin := max_le_max hmono le_rfl
      set ey := max (floorLog2 y) emin with hey
      set ea := max (floorLog2 a) emin with hea
      set p := (2 : ℚ) ^ (ey - mant) with hp
      have hppos : 0 < p := by positivity
      rcases eq_or_lt_of_le hmono' with heq | hlt
      · rw [heq] at hashape
        have hk : ((roundHalfEven (a / p) : Int) : ℚ) ≤ y / p := by
          have h1 : a / p ≤ y / p := div_le_div_of_nonneg_right hay hppos.le
          have h2 : a / p = ((roundHalfEven (a / p) : Int) : ℚ) := by
            rw [div_eq_iff hppos.ne']
            exact hashape
          rw [← h2]; exact h1
        have hk2 : ((roundHalfEven (a / p) : Int) : ℚ) ≤ ((roundHalfEven (y / p) : Int) : ℚ) := by
          exact_mod_cast roundHalfEven_ge _ _ hk
        calc a = ((roundHalfEven (a / p) : Int) : ℚ) * p := hashape
          _ ≤ ((roundHalfEven (y / p) : Int) : ℚ) * p :=
            mul_le_mul_of_nonneg_right hk2 hppos.le
          _ = r := hrshape.symm
      · have hey' : ey = floorLog2 y := by
          rw [hey]
          apply max_eq_left
          by_contra hcon
          push_neg at hcon
          have : ey = emin := by rw [hey]; exact max_eq_right hcon.le
          have h2 : emin ≤ ea := le_max_right _ _
          omega
        have h1 : (2 : ℚ) ^ ey ≤ y := by
          have := (floorLog2_spec y hy0).1
          rw [abs_of_pos hypos, ← hey'] at this
          exact this
        have h2 : a < (2 : ℚ) ^ (ea + 1) := by
          have := (floorLog2_spec a ha0.ne').2
          rw [abs_of_pos ha0] at this
          refine lt_of_lt_of_le this ?_
          exact zpow_le_zpow_right₀ (by norm_num) (by
            have : floorLog2 a ≤ ea := le_max_left _ _
            omega)
        have h3 : (2 : ℚ) ^ ey = (2 : ℚ) ^ mant * p := zpow_two_split ey mant
        have h4 : ((((2 ^ mant : ℕ) : Int)) : ℚ) ≤ y / p := by
          rw [le_div_iff₀ hppos]
          push_cast
          rw [h3] at h1
          exact h1
        have h5 := roundHalfEven_ge _ _ h4
        have h6 : (((2 ^ mant : ℕ) : Int) : ℚ) ≤ ((roundHalfEven (y / p) : Int) : ℚ) := by
          exact_mod_cast h5
        have h7 : (2 : ℚ) ^ (ea + 1) ≤ (2 : ℚ) ^ ey :=
          zpow_le_zpow_right₀ (by norm_num) (by omega)
        have h8 := mul_le_mul_of_nonneg_right h6 hppos.le
        push_cast at h8
        rw [← h3, ← hrshape] at h8
        linarith

theorem roundF32_zero : roundF32 0 = some 0 := roundBinary_zero _ _ _

theorem roundF32_core (x r : ℚ) (hx : x ≠ 0) (h : roundF32 x = some r) :
    r = (roundHalfEven (x / (2 : ℚ) ^ (max (floorLog2 x) (-126) - 23)) : ℚ)
          * (2 : ℚ) ^ (max (floorLog2 x) (-126) - 23) ∧
    |r - x| ≤ (2 : ℚ) ^ (max (floorLog2 x) (-126) - 24) := by
  obtain ⟨h1, h2, -⟩ := roundBinary_core 23 (-126) 128 x r hx h
  have e2 : max (floorLog2 x) (-126) - ((23 : ℕ) : Int) - 1 = max (floorLog2 x) (-126) - 24 := by
    push_cast; ring
  rw [e2] at h2
  exact ⟨by simpa using h1, h2⟩

theorem roundF32_nonneg (x r : ℚ) (hx : 0 ≤ x) (h : roundF32 x = some r) : 0 ≤ r :=
  roundBinary_nonneg 23 (-126) 128 x r hx h

/-- Rounding to single precision moves a value by at most `2 ^ -24` of its
magnitude, or by `2 ^ -150` below the normal range. -/
theorem roundF32_error (x r : ℚ) (h : roundF32 x = some r) :
    |r - x| ≤ |x| / 2 ^ 24 + 1 / 2 ^ 150 := by
  by_cases h0 : x = 0
  · rw [h0, roundF32_zero] at h
    rw [← Option.some.inj h, h0]; norm_num
  · have hc := (roundF32_core x r h0 h).2
    have hs := (floorLog2_spec x h0).1
    refine hc.trans ?_
    rcases le_total (floorLog2 x) (-126) with hle | hle
    · rw [max_eq_right hle]
      have : (2 : ℚ) ^ ((-126 : Int) - 24) = 1 / 2 ^ 150 := by
        rw [show ((-126 : Int) - 24) = -((150 : ℕ) : Int) by norm_num, zpow_neg, zpow_natCast,
          one_div]
      rw [this]
      have : 0 ≤ |x| / 2 ^ 24 := by positivity
      linarith
    · rw [max_eq_left hle]
      have : (2 : ℚ) ^ (floorLog2 x - 24) = (2 : ℚ) ^ floorLog2 x / 2 ^ 24 := by
        rw [zpow_sub₀ (by norm_num : (2 : ℚ) ≠ 0)]
        norm_num
      rw [this]
      have : (2 : ℚ) ^ floorLog2 x / 2 ^ 24 ≤ |x| / 2 ^ 24 :=
        div_le_div_of_nonneg_right hs (by positivity)
      have : (0 : ℚ) ≤ 1 / 2 ^ 150 := by positivity
      linarith

/-- In the normal range the error is relative. -/
theorem roundF32_error_normal (x r : ℚ) (h : roundF32 x = some r)
    (hx : 1 / 2 ^ 126 ≤ |x|) : |r - x| ≤ |x| / 2 ^ 24 := by
  have h0 : x ≠ 0 := by
    intro h0
    rw [h0] at hx
    norm_num at hx
  have hc := (roundF32_core x r h0 h).2
  obtain ⟨hs, hs2⟩ := floorLog2_spec x h0
  have hle : -126 ≤ floorLog2 x := by
    by_contra hcon
    push_neg at hcon
    have h1 : floorLog2 x + 1 ≤ -126 := by omega
    have h2 : (2 : ℚ) ^ (floorLog2 x + 1) ≤ (2 : ℚ) ^ (-126 : Int) :=
      zpow_le_zpow_right₀ (by norm_num) h1
    have h3 : (2 : ℚ) ^ (-126 : Int) = 1 / 2 ^ 126 := by
      rw [show (-126 : Int) = -((126 : ℕ) : Int) by norm_num, zpow_neg, zpow_natCast, one_div]
    rw [h3] at h2
    linarith
  refine hc.trans ?_
  rw [max_eq_left hle]
  have : (2 : ℚ) ^ (floorLog2 x - 24) = (2 : ℚ) ^ floorLog2 x / 2 ^ 24 := by
    rw [zpow_sub₀ (by norm_num : (2 : ℚ) ≠ 0)]
    norm_num
  rw [this]
  exact div_le_div_of_nonneg_right hs (by positivity)

/-- A value below `2 ^ 127` in magnitude rounds to a finite value. -/
theorem roundF32_finite (x : ℚ) (hx : |x| < 2 ^ 127) : ∃ r, roundF32 x = some r := by
  by_cases h0 : x = 0
  · exact ⟨0, by rw [h0, roundF32_zero]⟩
  · obtain ⟨hs, hs2⟩ := floorLog2_spec x h0
    have hfl : floorLog2 x ≤ 126 := by
      by_contra hcon
      push_neg at hcon
      have h1 : (127 : Int) ≤ floorLog2 x := by omega
      have h2 : (2 : ℚ) ^ (127 : Int) ≤ (2 : ℚ) ^ floorLog2 x :=
        zpow_le_zpow_right₀ (by norm_num) h1
      have h3 : (2 : ℚ) ^ (127 : Int) = 2 ^ 127 := by
        rw [show (127 : Int) = ((127 : ℕ) : Int) by norm_num, zpow_natCast]
      rw [h3] at h2
      linarith
    set e0 := max (floorLog2 x) (-126) with he0
    have he0le : e0 ≤ 126 := max_le hfl (by norm_num)
    have he0ge : floorLog2 x ≤ e0 := le_max_left _ _
    set p := (2 : ℚ) ^ (e0 - ((23 : ℕ) : Int)) with hp
    have hppos : 0 < p := by positivity
    have hrhe := roundHalfEven_spec (x / p)
    have hxp : |x / p| < 2 ^ 24 := by
      rw [abs_div, abs_of_pos hppos, div_lt_iff₀ hppos]
      have h4 : (2 : ℚ) ^ (floorLog2 x + 1) ≤ (2 : ℚ) ^ (e0 + 1) :=
        zpow_le_zpow_right₀ (by norm_num) (by omega)
      have h5 : (2 : ℚ) ^ 24 * p = (2 : ℚ) ^ (e0 + 1) := by
        rw [hp, show (2 : ℚ) ^ 24 = (2 : ℚ) ^ ((24 : ℕ) : Int) by rw [zpow_natCast],
          ← zpow_add₀ (by norm_num : (2 : ℚ) ≠ 0)]
        congr 1; push_cast; ring
      rw [h5]
      linarith
    have hr : |(roundHalfEven (x / p) : ℚ)| ≤ 2 ^ 24 + 1 / 2 := by
      have := abs_sub_abs_le_abs_sub (roundHalfEven (x / p) : ℚ) (x / p)
      linarith
    have hp103 : p ≤ 2 ^ 103 := by
      have h6 : (2 : ℚ) ^ (e0 - ((23 : ℕ) : Int)) ≤ (2 : ℚ) ^ (103 : Int) :=
        zpow_le_zpow_right₀ (by norm_num) (by push_cast; omega)
      have h7 : (2 : ℚ) ^ (103 : Int) = 2 ^ 103 := by
        rw [show (103 : Int) = ((103 : ℕ) : Int) by norm_num, zpow_natCast]
      rw [h7] at h6
      exact h6
    refine ⟨_, roundBinary_of_lt 23 (-126) 128 x h0 ?_⟩
    rw [abs_mul, abs_of_pos hppos]
    have h8 : (2 : ℚ) ^ (128 : Int) = 2 ^ 128 := by
      rw [show (128 : Int) = ((128 : ℕ) : Int) by norm_num, zpow_natCast]
    rw [h8]
    calc |(roundHalfEven (x / p) : ℚ)| * p ≤ (2 ^ 24 + 1 / 2) * 2 ^ 103 :=
          mul_le_mul hr hp103 hppos.le (by positivity)
      _ < 2 ^ 128 := by norm_num

/-! ## C1 in single precision -/

theorem convertRegisterValueF32_nonneg (registers : List RegisterDescriptor) (name : String)
    (reg : RegisterDescriptor) (n : Nat)
    (hf : findRegister registers name = some reg) (hconv : reg.convertFunc = none)
    (hfit : layoutFits reg = true) (hn : n < nonnegRawCount reg) :
    convertRegisterValueF32 registers name n
      = roundValue roundF32 (intToF32 (n : Int) * reg.scale) := by
  have hle := nonnegRawCount_le reg hfit
  have h16 : reg.regType = RegType.DT_INT16 → toSigned 16 n = (n : Int) := by
    intro hty
    simp only [nonnegRawCount, hty] at hn
    exact toSigned_of_lt 16 n (by norm_num) (by norm_num; omega)
  have h32 : reg.regType = RegType.DT_INT16 ∨ reg.regType = RegType.DT_INT32 →
      toSigned 32 n = (n : Int) := by
    intro hty
    rcases hty with hty | hty <;> simp only [nonnegRawCount, hty] at hn <;>
      exact toSigned_of_lt 32 n (by norm_num) (by norm_num; omega)
  have h16' : reg.regType = RegType.DT_INT32 → reg.regCount ≠ 1 := by
    intro hty
    simp only [layoutFits, hty, decide_eq_true_eq, Bool.and_eq_true] at hfit
    omega
  simp only [convertRegisterValueF32, hf, hconv, Nat.mod_eq_of_lt (show n < 2 ^ 32 by omega)]
  split_ifs with hty hc
  · rcases hty with hty | hty
    · rw [h16 hty]
    · exact absurd hc (h16' hty)
  · rw [h32 hty]
  · rfl

theorem readRegisterF32_of_readable (registers : List RegisterDescriptor) (name : String)
    (reg : RegisterDescriptor) (c : Chip)
    (hf : findRegister registers name = some reg) (hw : reg.rwType ≠ RWType.RW_WRITE) :
    readRegisterF32 registers name c =
      (convertRegisterValueF32 registers name (readValue reg c).1, true, (readValue reg c).2) := by
  simp [readRegisterF32, readRegisterRaw, hf, hw]

/-- C1, the claim fails, in three ways.  `UgainA` of the floating point table is
a read-write unsigned 16-bit register with scale 1: writing 70000 stores
70000 mod 65536 = 4464, which is what the read returns.  `SagTh` is such a
register with scale 0.01 (as a `float`): writing the `float` 645.83997
(5290721 / 8192), whose quotient by the scale is in range, stores 64583 and
reads back 645.82996, which is 0.010009765625 away, more than the scale.
`WideStep` is such a register with a scale near the top of the `float` range:
writing the largest finite `float`, whose quotient by the scale is 40000,
stores 40000 and reads back the positive infinity. -/
theorem write_read_roundtrip_fails :
    (∃ reg, findRegister floatRegisters "UgainA" = some reg ∧ reg.scale = 1 ∧
      reg.convertFunc = none ∧ reg.rwType = RWType.RW_READWRITE) ∧
    (readRegisterF32 floatRegisters "UgainA"
      (writeRegisterF32 zeroPlatform floatRegisters "UgainA" 70000 zeroChip).2).1
      = FloatValue.finite 4464 ∧
    ¬ |(4464 : ℚ) - 70000| ≤ 1 ∧
    (∃ reg, findRegister floatRegisters "SagTh" = some reg ∧ reg.scale = floatHundredth ∧
      reg.convertFunc = none ∧ reg.rwType = RWType.RW_READWRITE ∧
      reg.regType = RegType.DT_UINT16) ∧
    roundF32 (5290721 / 8192) = some (5290721 / 8192) ∧
    roundF32 floatHundredth = some floatHundredth ∧
    divF32 (5290721 / 8192) floatHundredth = some (16533503 / 256) ∧
    (16533503 / 256 : ℚ) < 65536 ∧
    (writeRegisterF32 zeroPlatform floatRegisters "SagTh" (5290721 / 8192) zeroChip).2.mem 0x08
      = 64583 ∧
    (readRegisterF32 floatRegisters "SagTh"
      (writeRegisterF32 zeroPlatform floatRegisters "SagTh" (5290721 / 8192) zeroChip).2).1
      = FloatValue.finite (5290639 / 8192) ∧
    ¬ |(5290639 / 8192 : ℚ) - 5290721 / 8192| ≤ floatHundredth ∧
    (∃ reg, findRegister floatRegisters "WideStep" = some reg ∧ reg.scale = floatWideStep ∧
      reg.convertFunc = none ∧ reg.rwType = RWType.RW_READWRITE ∧
      reg.regType = RegType.DT_UINT16) ∧
    roundF32 floatMax = some floatMax ∧
    roundF32 floatWideStep = some floatWideStep ∧
    divF32 floatMax floatWideStep = some 40000 ∧
    (writeRegisterF32 zeroPlatform floatRegisters "WideStep" floatMax zeroChip).2.mem 0x09
      = 40000 ∧
    (readRegisterF32 floatRegisters "WideStep"
      (writeRegisterF32 zeroPlatform floatRegisters "WideStep" floatMax zeroChip).2).1
      = FloatValue.infinity false := by
  refine ⟨⟨reg16 "UgainA" 0x61 RWType.RW_READWRITE RegType.DT_UINT16 1,
      by simp [findRegister, floatRegisters, reg16, List.find?], rfl, rfl, rfl⟩,
    by decide!, by norm_num [abs_le],
    ⟨reg16 "SagTh" 0x08 RWType.RW_READWRITE RegType.DT_UINT16 floatHundredth,
      by simp [findRegister, floatRegisters, reg16, List.find?], rfl, rfl, rfl, rfl⟩,
    by decide!, by decide!, by decide!, by norm_num, by decide!, by decide!,
    by norm_num [abs_le, floatHundredth],
    ⟨reg16 "WideStep" 0x09 RWType.RW_READWRITE RegType.DT_UINT16 floatWideStep,
      by simp [findRegister, floatRegisters, reg16, List.find?], rfl, rfl, rfl, rfl⟩,
    by decide!, by decide!, by decide!, by decide!, by decide!⟩

/-- The `float` made from a raw count below `2 ^ 32` is finite, non-negative
and within `2 ^ -24` of the count, relatively. -/
theorem roundF32_count (n : Nat) (hn : n < 2 ^ 32) :
    roundF32 (n : ℚ) = some (intToF32 (n : Int)) ∧ 0 ≤ intToF32 (n : Int) ∧
      |intToF32 (n : Int) - n| ≤ (n : ℚ) / 2 ^ 24 := by
  have hnq : ((n : ℕ) : ℚ) < 2 ^ 32 := by exact_mod_cast hn
  have hn0 : (0 : ℚ) ≤ (n : ℚ) := Nat.cast_nonneg n
  obtain ⟨x, hx⟩ := roundF32_finite (n : ℚ) (by
    rw [abs_of_nonneg hn0]
    exact lt_trans hnq (by norm_num))
  have hi : intToF32 (n : Int) = x := by
    simp [intToF32, hx]
  rw [hi]
  refine ⟨hx, roundF32_nonneg _ _ hn0 hx, ?_⟩
  rcases Nat.eq_zero_or_pos n with h0 | hpos
  · subst h0
    rw [Nat.cast_zero, roundF32_zero] at hx
    rw [← Option.some.inj hx]; norm_num
  · have h1 : (1 : ℚ) ≤ (n : ℚ) := by exact_mod_cast hpos
    have := roundF32_error_normal (n : ℚ) x hx (by
      rw [abs_of_nonneg hn0]
      exact le_trans (by norm_num) h1)
    rwa [abs_of_nonneg hn0] at this

/-- C1 as amended, in single precision: for a register that resolves, has no
decode function, is neither read-only nor write-only, has a layout that fits
its kind and a scale `s > 0`, and for a value `0 ≤ v < 2 ^ 126` whose `float`
quotient `q` by `s` is finite and below the number of non-negative raw values
of the kind, `writeRegister` succeeds, the following `readRegister` succeeds
and returns a finite value `v'`, and `v'` differs from `v` by at most
`s + v / 2 ^ 22 + 2 ^ -150`; it differs by at most `s` when the quotient, the
conversion of the raw count and its product with `s` are exact. -/
theorem write_read_within_scale (p : Platform) (registers : List RegisterDescriptor)
    (name : String) (reg : RegisterDescriptor) (v q : ℚ) (c : Chip)
    (hf : findRegister registers name = some reg) (hconv : reg.convertFunc = none)
    (hr : reg.rwType ≠ RWType.RW_READ) (hw : reg.rwType ≠ RWType.RW_WRITE)
    (hfit : layoutFits reg = true) (hs : 0 < reg.scale) (hv : 0 ≤ v) (hbig : v < 2 ^ 126)
    (hq : divF32 v reg.scale = some q) (hrange : q < nonnegRawCount reg) :
    (writeRegisterF32 p registers name v c).1 = true ∧
    (readRegisterF32 registers name (writeRegisterF32 p registers name v c).2).2.1 = true ∧
    ∃ v' : ℚ,
      (readRegisterF32 registers name (writeRegisterF32 p registers name v c).2).1
        = FloatValue.finite v' ∧
      |v' - v| ≤ reg.scale + v / 2 ^ 22 + 1 / 2 ^ 150 ∧
      (q = v / reg.scale → roundF32 (⌊q⌋.toNat : ℚ) = some (⌊q⌋.toNat : ℚ) →
        roundF32 ((⌊q⌋.toNat : ℚ) * reg.scale) = some ((⌊q⌋.toNat : ℚ) * reg.scale) →
        |v' - v| ≤ reg.scale) := by
  have hq' : roundF32 (v / reg.scale) = some q := by
    simpa [divF32, hs.ne'] using hq
  have hQ : 0 ≤ v / reg.scale := div_nonneg hv hs.le
  have hq0 : 0 ≤ q := roundF32_nonneg _ _ hQ hq'
  have hle : ((nonnegRawCount reg : ℕ) : ℚ) ≤ 2 ^ 32 := by
    exact_mod_cast nonnegRawCount_le reg hfit
  obtain ⟨hraw, hlo, hhi⟩ := floatToU32_of_nonneg p q hq0 (lt_of_lt_of_le hrange hle)
  have hn : ⌊q⌋.toNat < nonnegRawCount reg := by
    exact_mod_cast lt_of_le_of_lt hlo hrange
  have hn32 : ⌊q⌋.toNat < 2 ^ 32 := lt_of_lt_of_le hn (nonnegRawCount_le reg hfit)
  have hwr : writeRegisterF32 p registers name v c
      = writeValue reg ⌊q⌋.toNat c := by
    simp only [writeRegisterF32, hf, if_neg hr, hq, hraw]
  rw [hwr, readRegisterF32_of_readable _ _ _ _ hf hw, readValue_writeValue reg _ c hfit hn,
    convertRegisterValueF32_nonneg registers name reg _ hf hconv hfit hn]
  refine ⟨(writeValue_ok reg _ c).1, rfl, ?_⟩
  obtain ⟨hx, hx0, hxe⟩ := roundF32_count ⌊q⌋.toNat hn32
  set x : ℚ := intToF32 ((⌊q⌋.toNat : ℕ) : Int) with hxdef
  set n : ℚ := (⌊q⌋.toNat : ℚ) with hndef
  have hn0 : 0 ≤ n := Nat.cast_nonneg _
  have hvs : v / reg.scale * reg.scale = v := div_mul_cancel₀ v hs.ne'
  rw [abs_le] at hxe
  -- the quotient, times the scale, is near `v`
  have hqe := roundF32_error _ _ hq'
  rw [abs_of_nonneg hQ, abs_le] at hqe
  by_cases hsmall : v / reg.scale < 1 / 2 ^ 126
  · -- the quotient is below 1: the raw count is 0
    have hq1 : q < 1 := by
      have : v / reg.scale / 2 ^ 24 ≤ v / reg.scale := by
        apply div_le_self hQ; norm_num
      have h3 : (1 : ℚ) / 2 ^ 126 + 1 / 2 ^ 126 + 1 / 2 ^ 150 < 1 := by norm_num
      linarith [hqe.2]
    have hnz : n = 0 := by
      have h4 : n < 1 := lt_of_le_of_lt hlo hq1
      have h5 : (⌊q⌋.toNat : ℚ) < ((1 : ℕ) : ℚ) := by simpa [hndef] using h4
      have h6 : ⌊q⌋.toNat < 1 := by exact_mod_cast h5
      have h7 : ⌊q⌋.toNat = 0 := by omega
      rw [hndef, h7]; simp
    have hvlt : v < reg.scale := by
      have : v < 1 / 2 ^ 126 * reg.scale := by
        rw [← hvs]
        exact mul_lt_mul_of_pos_right hsmall hs
      have h8 : 1 / 2 ^ 126 * reg.scale ≤ reg.scale := by
        have : (1 : ℚ) / 2 ^ 126 ≤ 1 := by norm_num
        nlinarith
      linarith
    have hx00 : x = 0 := by
      rw [hnz, roundF32_zero] at hx
      exact (Option.some.inj hx).symm
    refine ⟨0, ?_, ?_, ?_⟩
    · rw [hx00]
      simp [roundValue, roundF32_zero]
    · rw [zero_sub, abs_neg, abs_of_nonneg hv]
      have h9 : 0 ≤ v / 2 ^ 22 := div_nonneg hv (by norm_num)
      have h10 : (0 : ℚ) ≤ 1 / 2 ^ 150 := by norm_num
      linarith
    · intro _ _ _
      rw [zero_sub, abs_neg, abs_of_nonneg hv]
      exact hvlt.le
  · push_neg at hsmall
    have hqn := roundF32_error_normal _ _ hq' (by rwa [abs_of_nonneg hQ])
    rw [abs_of_nonneg hQ, abs_le] at hqn
    -- products with the scale
    have hC1 : q * reg.scale - v ≤ v / 2 ^ 24 := by
      have := mul_le_mul_of_nonneg_right hqn.2 hs.le
      rw [sub_mul, hvs, div_mul_eq_mul_div, hvs] at this
      exact this
    have hC2 : -(v / 2 ^ 24) ≤ q * reg.scale - v := by
      have := mul_le_mul_of_nonneg_right hqn.1 hs.le
      rw [sub_mul, hvs, neg_mul, div_mul_eq_mul_div, hvs] at this
      exact this
    have hA1 : n * reg.scale ≤ q * reg.scale := mul_le_mul_of_nonneg_right hlo hs.le
    have hA2 : q * reg.scale < n * reg.scale + reg.scale := by
      have := mul_lt_mul_of_pos_right hhi hs
      rw [add_mul, one_mul] at this
      exact this
    have hA0 : 0 ≤ n * reg.scale := mul_nonneg hn0 hs.le
    have hB1 : x * reg.scale - n * reg.scale ≤ n * reg.scale / 2 ^ 24 := by
      have := mul_le_mul_of_nonneg_right hxe.2 hs.le
      rw [sub_mul, div_mul_eq_mul_div] at this
      exact this
    have hB2 : -(n * reg.scale / 2 ^ 24) ≤ x * reg.scale - n * reg.scale := by
      have := mul_le_mul_of_nonneg_right hxe.1 hs.le
      rw [sub_mul, neg_mul, div_mul_eq_mul_div] at this
      exact this
    have hB0 : 0 ≤ x * reg.scale := mul_nonneg hx0 hs.le
    have hBfin : |x * reg.scale| < 2 ^ 127 := by
      rw [abs_of_nonneg hB0]
      linarith
    obtain ⟨v', hv'⟩ := roundF32_finite _ hBfin
    have hve := roundF32_error _ _ hv'
    rw [abs_of_nonneg hB0, abs_le] at hve
    refine ⟨v', ?_, ?_, ?_⟩
    · simp [roundValue, hv']
    · rw [abs_le]
      constructor <;> linarith [hve.1, hve.2]
    · intro hex1 hex2 hex3
      have hxn : x = n := by
        rw [hx] at hex2
        exact Option.some.inj hex2
      have hvn : v' = n * reg.scale := by
        rw [hxn, hex3] at hv'
        exact (Option.some.inj hv').symm
      have hlo' : n * reg.scale ≤ v := by
        rw [hex1] at hlo
        exact (le_div_iff₀ hs).mp hlo
      have hhi' : v < n * reg.scale + reg.scale := by
        rw [hex1] at hhi
        have := (div_lt_iff₀ hs).mp hhi
        rwa [add_mul, one_mul] at this
      rw [hvn, abs_le]
      constructor <;> linarith

/-- C1 as amended, at two registers of the single-precision table.  On `SagTh`
(scale 0.01 as a `float`) the value 645.83997 of the counterexample reads back
within `s + v / 2 ^ 22 + 2 ^ -150`; on `UgainA` (scale 1) the value 1234.5,
where every operation is exact, reads back within the scale. -/
theorem write_read_within_scale_witness :
    (∃ v' : ℚ,
      (readRegisterF32 floatRegisters "SagTh"
        (writeRegisterF32 zeroPlatform floatRegisters "SagTh" (5290721 / 8192) zeroChip).2).1
        = FloatValue.finite v' ∧
      |v' - 5290721 / 8192| ≤ floatHundredth + 5290721 / 8192 / 2 ^ 22 + 1 / 2 ^ 150) ∧
    (∃ v' : ℚ,
      (readRegisterF32 floatRegisters "UgainA"
        (writeRegisterF32 zeroPlatform floatRegisters "UgainA" (2469 / 2) zeroChip).2).1
        = FloatValue.finite v' ∧
      |v' - 2469 / 2| ≤ 1) :=
  ⟨(write_read_within_scale zeroPlatform floatRegisters "SagTh"
      (reg16 "SagTh" 0x08 RWType.RW_READWRITE RegType.DT_UINT16 floatHundredth)
      (5290721 / 8192) (16533503 / 256) zeroChip
      (by simp [findRegister, floatRegisters, reg16, List.find?]) rfl
      (by decide) (by decide) (by decide) (by norm_num [reg16, floatHundredth]) (by norm_num)
      (by norm_num) (by decide!) (by norm_num [reg16, nonnegRawCount])).2.2.imp
      (fun _ h => ⟨h.1, h.2.1⟩),
    (write_read_within_scale zeroPlatform floatRegisters "UgainA"
      (reg16 "UgainA" 0x61 RWType.RW_READWRITE RegType.DT_UINT16 1)
      (2469 / 2) (2469 / 2) zeroChip
      (by simp [findRegister, floatRegisters, reg16, List.find?]) rfl
      (by decide) (by decide) (by decide) (by norm_num [reg16]) (by norm_num)
      (by norm_num) (by decide!) (by norm_num [reg16, nonnegRawCount])).2.2.imp
      (fun _ h => ⟨h.1, h.2.2 (by norm_num [reg16]) (by decide!) (by decide!)⟩)⟩

/-! ## C7 -/

/-- C10: `startCalibration` returns false and leaves the accumulator (flag,
mask, start time and everything else) and the chip (cells and transaction
log) as they were whenever a session is active or the mask is 0 or above 7;
in every other case it returns true. -/
theorem startCalibration_rejects_iff (p : Platform) (registers : List RegisterDescriptor)
    (now phaseMask : Nat) (acc : EnergyAccumulator) (c : Chip) :
    ((acc.calibState.calibrating = true ∨ phaseMask = 0 ∨ phaseMask > 7) →
      startCalibration p registers now phaseMask acc c = (false, acc, c)) ∧
    (¬ (acc.calibState.calibrating = true ∨ phaseMask = 0 ∨ phaseMask > 7) →
      (startCalibration p registers now phaseMask acc c).1 = true) := by
  constructor
  · intro h
    rcases h with h | h | h
    · simp [startCalibration, h]
    · simp [startCalibration, h]
    · have : phaseMask = 0 ∨ phaseMask > 0x07 := Or.inr h
      simp only [startCalibration, this, if_true]
      split <;> rfl
  · intro h
    have h1 : ¬ acc.calibState.calibrating = true := fun x => h (Or.inl x)
    have h2 : ¬ (phaseMask = 0 ∨ phaseMask > 0x07) := fun x => h (Or.inr x)
    simp only [startCalibration, if_neg h1, if_neg h2]

/-! ## C8 and C9 -/

theorem toSigned_int16ToU16 (t : Int) (h1 : -32768 ≤ t) (h2 : t ≤ 32767) :
    toSigned 16 (int16ToU16 t) = t := by
  unfold toSigned int16ToU16
  have hnn : 0 ≤ t % 65536 := Int.emod_nonneg t (by norm_num)
  have hlt : t % 65536 < 65536 := Int.emod_lt_of_pos t (by norm_num)
  have hcast : (((t % 65536).toNat : ℕ) : Int) = t % 65536 := Int.toNat_of_nonneg hnn
  have hm : (t % 65536).toNat % 2 ^ 16 = (t % 65536).toNat := Nat.mod_eq_of_lt (by omega)
  rw [hm]
  by_cases hneg : t < 0
  · have : ¬ (t % 65536).toNat < 2 ^ (16 - 1) := by omega
    rw [if_neg this, hcast]
    norm_num
    omega
  · have : (t % 65536).toNat < 2 ^ (16 - 1) := by omega
    rw [if_pos this, hcast]
    omega

/-- The chip after `calculateAndApplyGain` in single precision when the energy
guard passes: unlock, raw write of the gain to the phase's gain register,
lock. -/
theorem calculateAndApplyGainF32_chip (p : Platform) (registers : List RegisterDescriptor)
    (acc : EnergyAccumulator) (phase : Nat) (g : String) (e m : ℚ) (c : Chip)
    (hm : doubleTenth ≤ m) (hg : getPhaseRegisterName phase true = some g) :
    (calculateAndApplyGainF32 p registers acc phase e m c).2.2 =
      (writeRegisterF32 p registers "CfgRegAccEn" 0x0000
        (writeRegisterRaw registers g (int16ToU16 (newGainF32 p e m))
          (writeRegisterF32 p registers "CfgRegAccEn" 0x55AA c).2).2).2 ∧
    (calculateAndApplyGainF32 p registers acc phase e m c).1 =
      (writeRegisterRaw registers g (int16ToU16 (newGainF32 p e m))
          (writeRegisterF32 p registers "CfgRegAccEn" 0x55AA c).2).1 := by
  have hm' : ¬ m < doubleTenth := not_lt.mpr hm
  simp only [calculateAndApplyGainF32, if_neg hm', hg]
  cases hs : (writeRegisterRaw registers g (int16ToU16 (newGainF32 p e m))
      (writeRegisterF32 p registers "CfgRegAccEn" 0x55AA c).2).1 <;>
    cases hset : acc.settings <;> simp [hs]

theorem truncToInt_toward_zero (x : ℚ) :
    |(truncToInt x : ℚ)| ≤ |x| ∧ |x - truncToInt x| < 1 := by
  unfold truncToInt
  split_ifs with h
  · have h1 := Int.floor_le x
    have h2 := Int.lt_floor_add_one x
    have h3 : (0 : ℚ) ≤ (⌊x⌋ : ℚ) := by exact_mod_cast Int.floor_nonneg.mpr h
    rw [abs_of_nonneg h3, abs_of_nonneg h, abs_lt]
    refine ⟨h1, ?_, ?_⟩ <;> linarith
  · push_neg at h
    have h1 := Int.le_ceil x
    have h2 := Int.ceil_lt_add_one x
    have h3 : ((⌈x⌉ : Int) : ℚ) ≤ 0 := by exact_mod_cast Int.ceil_le.mpr (by exact_mod_cast h.le)
    rw [abs_of_nonpos h3, abs_of_neg h, abs_lt]
    refine ⟨by linarith, ?_, ?_⟩ <;> linarith

/-- A `float` that is at least 0.1 is at least the `double` constant 0.1 of the
guard: between 1/16 and 1/8 the spacing of the `float` values is `2 ^ -27`, and
the least multiple at or above 0.1 is 13421773 / 2 ^ 27. -/
theorem float_ge_doubleTenth (m : ℚ) (hmf : roundF32 m = some m) (hm : 1 / 10 ≤ m) :
    doubleTenth ≤ m := by
  by_cases hbig : (1 : ℚ) / 8 ≤ m
  · exact le_trans (by norm_num [doubleTenth]) hbig
  push_neg at hbig
  have hm0 : m ≠ 0 := by
    intro h0; rw [h0] at hm; norm_num at hm
  have hmpos : 0 < m := lt_of_lt_of_le (by norm_num) hm
  obtain ⟨hlo, hhi⟩ := floorLog2_spec m hm0
  rw [abs_of_pos hmpos] at hlo hhi
  have hfl : floorLog2 m = -4 := by
    have h1 : (2 : ℚ) ^ floorLog2 m < (2 : ℚ) ^ (-3 : Int) := by
      refine lt_of_le_of_lt hlo (lt_of_lt_of_le hbig ?_)
      rw [show (-3 : Int) = -((3 : ℕ) : Int) by norm_num, zpow_neg, zpow_natCast]
      norm_num
    have h2 : (2 : ℚ) ^ (-4 : Int) < (2 : ℚ) ^ (floorLog2 m + 1) := by
      refine lt_of_le_of_lt ?_ (lt_of_le_of_lt hm hhi)
      rw [show (-4 : Int) = -((4 : ℕ) : Int) by norm_num, zpow_neg, zpow_natCast]
      norm_num
    have h3 := (zpow_lt_zpow_iff_right₀ (by norm_num : (1 : ℚ) < 2)).mp h1
    have h4 := (zpow_lt_zpow_iff_right₀ (by norm_num : (1 : ℚ) < 2)).mp h2
    omega
  obtain ⟨hshape, -⟩ := roundF32_core m m hm0 hmf
  rw [hfl, show max (-4 : Int) (-126) - 23 = -((27 : ℕ) : Int) by norm_num, zpow_neg,
    zpow_natCast] at hshape
  set k : Int := roundHalfEven (m / ((2 : ℚ) ^ 27)⁻¹) with hk
  have hk1 : (13421772 : ℚ) < (k : ℚ) := by
    rw [hshape] at hm
    have : (1 : ℚ) / 10 ≤ (k : ℚ) * ((2 : ℚ) ^ 27)⁻¹ := hm
    have h5 : (0 : ℚ) < (2 : ℚ) ^ 27 := by positivity
    rw [← div_eq_mul_inv, le_div_iff₀ h5] at this
    norm_num at this ⊢
    linarith
  have hk2 : (13421773 : Int) ≤ k := by
    have : (13421772 : Int) < k := by exact_mod_cast hk1
    omega
  have hk3 : (13421773 : ℚ) ≤ (k : ℚ) := by exact_mod_cast hk2
  rw [hshape]
  have h6 : (13421773 : ℚ) * ((2 : ℚ) ^ 27)⁻¹ ≤ (k : ℚ) * ((2 : ℚ) ^ 27)⁻¹ :=
    mul_le_mul_of_nonneg_right hk3 (by positivity)
  refine le_trans ?_ h6
  norm_num [doubleTenth]

/-- C8, the claim fails.  With `expectedWh = 100` and `measuredWh = 125` the
formula gives -6553.6, which rounds to -6554; the code computes the `float`
-6553.60009765625, casts it to -6553 and writes the pattern 58983 to `PQGainA`.
With `expectedWh = 19` and `measuredWh = 16` the formula gives 6144 exactly;
the code computes the `float` 6143.99951171875 and casts it to 6143. -/
theorem gain_not_rounded :
    gainCalc 100 125 = -6553.6 ∧
    round (gainCalc 100 125) = -6554 ∧
    gainCalcF32 100 125 = some (-13421773 / 2048) ∧
    newGainF32 zeroPlatform 100 125 = -6553 ∧
    int16ToU16 (newGainF32 zeroPlatform 100 125) = 58983 ∧
    (calculateAndApplyGainF32 zeroPlatform floatRegisters initialAccumulator 0 100 125
      zeroChip).2.2.log
      = [BusOp.write 0x7F 0x55AA, BusOp.write 0x47 58983, BusOp.write 0x7F 0] ∧
    gainCalc 19 16 = 6144 ∧
    round (gainCalc 19 16) = 6144 ∧
    gainCalcF32 19 16 = some (12582911 / 2048) ∧
    newGainF32 zeroPlatform 19 16 = 6143 := by
  have hg : gainCalc 100 125 = -6553.6 := by norm_num [gainCalc]
  have hg2 : gainCalc 19 16 = 6144 := by norm_num [gainCalc]
  refine ⟨hg, ?_, by decide!, by decide!, by decide!, by decide!, hg2, ?_, by decide!,
    by decide!⟩
  · rw [hg, round_eq, Int.floor_eq_iff]
    norm_num
  · rw [hg2, round_eq, Int.floor_eq_iff]
    norm_num

/-- C8 as amended, in single precision: for `expectedWh > 0` and a `float`
`measuredWh ≥ 0.1` for which the `float` evaluation of `(-ε / (1 + ε)) * 32768`
gives a finite value `gv` whose integer part is inside the signed 16-bit range,
the gain computed is `gv` truncated toward zero, where `gv` is the result of
the five rounded operations of the source; `calculateAndApplyGain` returns true and, between the unlock and
the lock of the calibration registers, writes the gain's two's-complement
pattern to the cell of the phase's (writable, 16-bit) gain register. -/
theorem gain_is_truncation (p : Platform) (registers : List RegisterDescriptor)
    (acc : EnergyAccumulator) (phase : Nat) (g : String) (reg : RegisterDescriptor)
    (e m gv : ℚ) (c : Chip)
    (he : 0 < e) (hmf : roundF32 m = some m) (hm : 1 / 10 ≤ m)
    (hgv : gainCalcF32 e m = some gv)
    (hrange : -32768 ≤ truncToInt gv ∧ truncToInt gv ≤ 32767)
    (hg : getPhaseRegisterName phase true = some g)
    (hf : findRegister registers g = some reg)
    (hty : reg.regType = RegType.DT_INT16 ∨ reg.regType = RegType.DT_UINT16)
    (hrw : reg.rwType ≠ RWType.RW_READ) :
    (∃ diff epsilon denom quotient : ℚ,
      roundF32 (m - e) = some diff ∧ roundF32 (diff / e) = some epsilon ∧
      roundF32 (1 + epsilon) = some denom ∧ denom ≠ 0 ∧
      roundF32 (-epsilon / denom) = some quotient ∧
      roundF32 (quotient * 32768) = some gv) ∧
    newGainF32 p e m = truncToInt gv ∧
    |(newGainF32 p e m : ℚ)| ≤ |gv| ∧ |gv - newGainF32 p e m| < 1 ∧
    toSigned 16 (int16ToU16 (newGainF32 p e m)) = newGainF32 p e m ∧
    (calculateAndApplyGainF32 p registers acc phase e m c).1 = true ∧
    (calculateAndApplyGainF32 p registers acc phase e m c).2.2 =
      (writeRegisterF32 p registers "CfgRegAccEn" 0x0000
        (write16 (writeRegisterF32 p registers "CfgRegAccEn" 0x55AA c).2 reg.address0
          (int16ToU16 (newGainF32 p e m)))).2 := by
  have hn : newGainF32 p e m = truncToInt gv := by
    simp only [newGainF32, hgv, floatToI16, hrange, and_self, if_true]
  have hu : int16ToU16 (newGainF32 p e m) % 2 ^ 32 = int16ToU16 (newGainF32 p e m) := by
    apply Nat.mod_eq_of_lt
    unfold int16ToU16
    have hlt : newGainF32 p e m % 65536 < 65536 := Int.emod_lt_of_pos _ (by norm_num)
    omega
  have hwr : ∀ c1, writeRegisterRaw registers g (int16ToU16 (newGainF32 p e m)) c1
      = (true, write16 c1 reg.address0 (int16ToU16 (newGainF32 p e m))) := by
    intro c1
    simp only [writeRegisterRaw, hf, if_neg hrw, hu]
    rcases hty with hty | hty <;> simp [writeValue, hty]
  obtain ⟨h1, h2⟩ := calculateAndApplyGainF32_chip p registers acc phase g e m c
    (float_ge_doubleTenth m hmf hm) hg
  refine ⟨?_, hn, ?_, ?_, ?_, ?_, ?_⟩
  · unfold gainCalcF32 at hgv
    obtain ⟨diff, hd, hgv⟩ := Option.bind_eq_some.mp hgv
    obtain ⟨epsilon, heps, hgv⟩ := Option.bind_eq_some.mp hgv
    obtain ⟨denom, hden, hgv⟩ := Option.bind_eq_some.mp hgv
    obtain ⟨quotient, hquot, hgv⟩ := Option.bind_eq_some.mp hgv
    have hd0 : denom ≠ 0 := by
      intro h0
      simp [divF32, h0] at hquot
    refine ⟨diff, epsilon, denom, quotient, hd, ?_, hden, hd0, ?_, hgv⟩
    · simpa [divF32, he.ne'] using heps
    · simpa [divF32, hd0] using hquot
  · rw [hn]; exact (truncToInt_toward_zero gv).1
  · rw [hn]; exact (truncToInt_toward_zero gv).2
  · rw [hn]; exact toSigned_int16ToU16 _ hrange.1 hrange.2
  · rw [h2, hwr]
  · rw [h1, hwr]

/-- C8 as amended, at phase A of the single-precision table: with
`expectedWh = 19` and `measuredWh = 16` the `float` value is 6143.99951171875
and the gain is 6143; with `expectedWh = 100` and `measuredWh = 125` the gain
is -6553. -/
theorem gain_is_truncation_witness :
    (newGainF32 zeroPlatform 19 16 = truncToInt (12582911 / 2048) ∧
      truncToInt (12582911 / 2048) = 6143 ∧
      (calculateAndApplyGainF32 zeroPlatform floatRegisters initialAccumulator 0 19 16
        zeroChip).1 = true) ∧
    (newGainF32 zeroPlatform 100 125 = truncToInt (-13421773 / 2048) ∧
      truncToInt (-13421773 / 2048) = -6553) :=
  have h := gain_is_truncation zeroPlatform floatRegisters initialAccumulator 0 "PQGainA"
    (reg16 "PQGainA" 0x47 RWType.RW_READWRITE RegType.DT_INT16 1) 19 16 (12582911 / 2048)
    zeroChip (by norm_num) (by decide!) (by norm_num) (by decide!) (by decide!) rfl
    (by simp [findRegister, floatRegisters, reg16, List.find?])
    (Or.inl rfl) (by decide)
  have h2 := gain_is_truncation zeroPlatform floatRegisters initialAccumulator 0 "PQGainA"
    (reg16 "PQGainA" 0x47 RWType.RW_READWRITE RegType.DT_INT16 1) 100 125 (-13421773 / 2048)
    zeroChip (by norm_num) (by decide!) (by norm_num) (by decide!) (by decide!) rfl
    (by simp [findRegister, floatRegisters, reg16, List.find?])
    (Or.inl rfl) (by decide)
  ⟨⟨h.2.1, by decide!, h.2.2.2.2.2.1⟩, h2.2.1, by decide!⟩

theorem onlyReads_refl (c : Chip) : OnlyReads c c :=
  ⟨rfl, [], by simp, by simp⟩

theorem onlyReads_trans {c1 c2 c3 : Chip} (h12 : OnlyReads c1 c2) (h23 : OnlyReads c2 c3) :
    OnlyReads c1 c3 := by
  obtain ⟨hm1, ops1, hl1, hr1⟩ := h12
  obtain ⟨hm2, ops2, hl2, hr2⟩ := h23
  refine ⟨hm2.trans hm1, ops1 ++ ops2, ?_, ?_⟩
  · rw [hl2, hl1, List.append_assoc]
  · intro op hop
    rcases List.mem_append.mp hop with h | h
    · exact hr1 op h
    · exact hr2 op h

theorem readValue_onlyReads (reg : RegisterDescriptor) (c : Chip) :
    OnlyReads c (readValue reg c).2 := by
  cases hty : reg.regType <;>
    simp [OnlyReads, readValue, hty, readBit, readBitfield, read16, read32]

theorem readRegister_onlyReads (registers : List RegisterDescriptor) (name : String)
    (c : Chip) : OnlyReads c (readRegister registers name c).2.2 := by
  cases hf : findRegister registers name with
  | none => simpa [readRegister, readRegisterRaw, hf] using onlyReads_refl c
  | some reg =>
    by_cases hrw : reg.rwType = RWType.RW_WRITE
    · simpa [readRegister, readRegisterRaw, hf, hrw] using onlyReads_refl c
    · simpa [readRegister, readRegisterRaw, hf, hrw] using readValue_onlyReads reg c

theorem readEnergyRegister_onlyReads (registers : List RegisterDescriptor)
    (acc : EnergyAccumulator) (phase : Nat) (c : Chip) :
    OnlyReads c (readEnergyRegister registers acc phase c).2 := by
  unfold readEnergyRegister
  cases hn : getPhaseRegisterName phase false with
  | none => exact onlyReads_refl c
  | some name =>
    have h := readRegister_onlyReads registers name c
    simp only
    split <;> exact h

/-- The chip after an energy read does not depend on the accumulator. -/
theorem readEnergyRegister_chip (registers : List RegisterDescriptor)
    (acc acc' : EnergyAccumulator) (phase : Nat) (c : Chip) :
    (readEnergyRegister registers acc phase c).2 = (readEnergyRegister registers acc' phase c).2 := by
  unfold readEnergyRegister
  cases hn : getPhaseRegisterName phase false with
  | none => rfl
  | some name =>
    simp only
    split <;> rfl

/-! ## C11 -/

theorem and_one_shiftLeft_eq_zero_iff (m k : Nat) :
    m &&& (1 <<< k) = 0 ↔ m.testBit k = false := by
  rw [Nat.one_shiftLeft]
  constructor
  · intro h
    have := congrArg (fun x => x.testBit k) h
    simpa [Nat.testBit_two_pow] using this
  · intro h
    apply Nat.eq_of_testBit_eq
    intro i
    rw [Nat.testBit_and, Nat.testBit_two_pow, Nat.zero_testBit]
    by_cases hi : k = i
    · subst hi; simp [h]
    · simp [hi]

/-- The three guards of `completeCalibration`. -/
theorem completeCalibration_guard (p : Platform) (registers : List RegisterDescriptor)
    (now phase : Nat) (loadWatts durationMinutes : ℚ) (acc : EnergyAccumulator) (c : Chip)
    (h : acc.calibState.calibrating = false ∨ phase ≥ 3 ∨
      acc.calibState.phaseMask.testBit phase = false) :
    completeCalibration p registers now phase loadWatts durationMinutes acc c
      = (false, acc, c) := by
  by_cases h1 : acc.calibState.calibrating = true
  · by_cases h2 : phase ≥ 3
    · simp [completeCalibration, h1, h2]
    · have h0 : acc.calibState.phaseMask &&& (1 <<< phase) = 0 := by
        rcases h with h | h | h
        · rw [h1] at h; exact absurd h (by decide)
        · exact absurd h h2
        · exact (and_one_shiftLeft_eq_zero_iff _ _).mpr h
      simp [completeCalibration, h1, h2, h0]
  · simp [completeCalibration, h1]

/-- C11: `completeCalibration` returns false and leaves the accumulator (flag
and mask included) and the chip (cells and transaction log) as they were
whenever no session is active, `phase ≥ 3`, or the phase's bit is not set in
the active mask. -/
theorem completeCalibration_rejects (p : Platform) (registers : List RegisterDescriptor)
    (now phase : Nat) (loadWatts durationMinutes : ℚ) (acc : EnergyAccumulator) (c : Chip)
    (h : acc.calibState.calibrating = false ∨ phase ≥ 3 ∨
      acc.calibState.phaseMask.testBit phase = false) :
    completeCalibration p registers now phase loadWatts durationMinutes acc c
      = (false, acc, c) := by
  by_cases h1 : acc.calibState.calibrating = true
  · by_cases h2 : phase ≥ 3
    · simp [completeCalibration, h1, h2]
    · have h0 : acc.calibState.phaseMask &&& (1 <<< phase) = 0 := by
        rcases h with h | h | h
        · rw [h1] at h; exact absurd h (by decide)
        · exact absurd h h2
        · exact (and_one_shiftLeft_eq_zero_iff _ _).mpr h
      simp [completeCalibration, h1, h2, h0]
  · simp [completeCalibration, h1]

/-- C11 at a fresh accumulator (no session) and at a session for phases A and B
asked to complete phase C. -/
theorem completeCalibration_rejects_witness :
    completeCalibration zeroPlatform sampleRegisters 5 0 1000 1 initialAccumulator energyChip
      = (false, initialAccumulator, energyChip) ∧
    completeCalibration zeroPlatform sampleRegisters 5 2 1000 1 calibratingAccumulator energyChip
      = (false, calibratingAccumulator, energyChip) :=
  ⟨completeCalibration_rejects zeroPlatform sampleRegisters 5 0 1000 1 initialAccumulator
      energyChip (Or.inl rfl),
    completeCalibration_rejects zeroPlatform sampleRegisters 5 2 1000 1 calibratingAccumulator
      energyChip (Or.inr (Or.inr (by decide)))⟩

/-! ## C12 -/

theorem calculateAndApplyGain_small (p : Platform) (registers : List RegisterDescriptor)
    (acc : EnergyAccumulator) (phase : Nat) (e m : ℚ) (c : Chip) (hm : m < 1 / 10) :
    calculateAndApplyGain p registers acc phase e m c = (false, acc, c) := by
  simp only [calculateAndApplyGain, if_pos hm]

/-- C12: in an active session for a phase in the mask, when the energy read
succeeds with a measured energy below 0.1 Wh, `completeCalibration` returns
false; the accumulator is unchanged (flag, mask and settings store, so no gain
is saved and the session stays open), and the chip has only seen the reads of
the energy register: no gain register, nor any other, is written. -/
theorem completeCalibration_small_energy (p : Platform) (registers : List RegisterDescriptor)
    (now phase : Nat) (loadWatts durationMinutes : ℚ) (acc : EnergyAccumulator) (c : Chip)
    (measuredWh : ℚ)
    (hcal : acc.calibState.calibrating = true) (hph : phase < 3)
    (hbit : acc.calibState.phaseMask.testBit phase = true)
    (hread : (readEnergyRegister registers acc phase c).1 = some measuredWh)
    (hsmall : measuredWh < 1 / 10) :
    completeCalibration p registers now phase loadWatts durationMinutes acc c
      = (false, acc, (readEnergyRegister registers acc phase c).2) ∧
    OnlyReads c (readEnergyRegister registers acc phase c).2 := by
  refine ⟨?_, readEnergyRegister_onlyReads registers acc phase c⟩
  have h2 : ¬ phase ≥ 3 := by omega
  have h0 : ¬ acc.calibState.phaseMask &&& (1 <<< phase) = 0 := by
    rw [and_one_shiftLeft_eq_zero_iff, hbit]; decide
  have hr : readEnergyRegister registers acc phase c
      = (some measuredWh, (readEnergyRegister registers acc phase c).2) := by
    rw [← hread]
  unfold completeCalibration
  rw [hr]
  simp only [hcal, h2, h0, calculateAndApplyGain_small _ _ _ _ _ _ _ hsmall]
  simp

/-- C12 at phase A of the sample table with an energy cell holding 0: 0 Wh is
measured, the step is rejected and the session for phases A and B stays as it
was. -/
theorem completeCalibration_small_energy_witness :
    completeCalibration zeroPlatform sampleRegisters 5 0 1000 1 calibratingAccumulator zeroChip
      = (false, calibratingAccumulator,
          (readEnergyRegister sampleRegisters calibratingAccumulator 0 zeroChip).2) :=
  (completeCalibration_small_energy zeroPlatform sampleRegisters 5 0 1000 1
    calibratingAccumulator zeroChip 0 rfl (by decide) (by decide) (by decide!)
    (by norm_num)).1

/-! ## C13 -/

/-- `calculateAndApplyGain` touches nothing of the accumulator but the settings
store. -/
theorem calculateAndApplyGain_acc (p : Platform) (registers : List RegisterDescriptor)
    (acc : EnergyAccumulator) (phase : Nat) (e m : ℚ) (c : Chip) :
    (calculateAndApplyGain p registers acc phase e m c).2.1.calibState = acc.calibState ∧
    (calculateAndApplyGain p registers acc phase e m c).2.1.lastReadTime = acc.lastReadTime ∧
    (calculateAndApplyGain p registers acc phase e m c).2.1.accumulatedEnergy
      = acc.accumulatedEnergy := by
  unfold calculateAndApplyGain
  by_cases hm : m < 1 / 10
  · simp only [if_pos hm, and_self]
  · simp only [if_neg hm]
    cases getPhaseRegisterName phase true with
    | none => simp
    | some g =>
      simp only
      split
      · simp
      · cases acc.settings <;> simp

theorem testBit_clear_phase (mask phase i : Nat) (hmask : mask < 256) (hph : phase < 3) :
    ((mask &&& not32 (1 <<< phase)) % 256).testBit i
      = (mask.testBit i && decide (i ≠ phase)) := by
  have e : (256 : Nat) = 2 ^ 8 := by norm_num
  have hlt : 2 ^ phase < 2 ^ 32 := Nat.pow_lt_pow_right (by norm_num) (by omega)
  rw [e, Nat.testBit_mod_two_pow, Nat.testBit_and, Nat.one_shiftLeft, testBit_not32 _ _ hlt,
    Nat.testBit_two_pow]
  by_cases h8 : i < 8
  · have h32 : i < 32 := by omega
    by_cases hi : phase = i
    · subst hi; simp
    · have hi' : ¬ i = phase := fun h => hi h.symm
      simp [h8, h32, hi, hi']
  · have hbit : mask.testBit i = false := by
      apply Nat.testBit_lt_two_pow
      calc mask < 2 ^ 8 := by omega
        _ ≤ 2 ^ i := Nat.pow_le_pow_right (by norm_num) (by omega)
    simp [h8, hbit]

/-- C13: when `completeCalibration` returns true (the mask being a `uint8_t`),
the new mask is the old one with exactly the bit of `phase` cleared; the
session flag afterwards is set iff the new mask is non-zero; while the mask is
non-zero the chip is as the gain step left it and the read timer is untouched;
when the mask is zero the read timer is reset to `now` and the chip has seen,
after the gain step, one energy read for phase A, then B, then C. -/
theorem completeCalibration_clears_phase (p : Platform) (registers : List RegisterDescriptor)
    (now phase : Nat) (loadWatts durationMinutes : ℚ) (acc : EnergyAccumulator) (c : Chip)
    (hmask : acc.calibState.phaseMask < 256)
    (hok : (completeCalibration p registers now phase loadWatts durationMinutes acc c).1
      = true) :
    (∀ i, (completeCalibration p registers now phase loadWatts durationMinutes acc
          c).2.1.calibState.phaseMask.testBit i
        = (acc.calibState.phaseMask.testBit i && decide (i ≠ phase))) ∧
    ((completeCalibration p registers now phase loadWatts durationMinutes acc
          c).2.1.calibState.calibrating = true ↔
      (completeCalibration p registers now phase loadWatts durationMinutes acc
          c).2.1.calibState.phaseMask ≠ 0) ∧
    ∃ measuredWh cg,
      (readEnergyRegister registers acc phase c).1 = some measuredWh ∧
      cg = (calculateAndApplyGain p registers acc phase (loadWatts * (durationMinutes / 60))
              measuredWh (readEnergyRegister registers acc phase c).2).2.2 ∧
      ((completeCalibration p registers now phase loadWatts durationMinutes acc
            c).2.1.calibState.phaseMask ≠ 0 →
        (completeCalibration p registers now phase loadWatts durationMinutes acc c).2.2 = cg ∧
        (completeCalibration p registers now phase loadWatts durationMinutes acc
            c).2.1.lastReadTime = acc.lastReadTime) ∧
      ((completeCalibration p registers now phase loadWatts durationMinutes acc
            c).2.1.calibState.phaseMask = 0 →
        (completeCalibration p registers now phase loadWatts durationMinutes acc
            c).2.1.lastReadTime = now ∧
        (completeCalibration p registers now phase loadWatts durationMinutes acc c).2.2
          = (readEnergyRegister registers acc 2
              (readEnergyRegister registers acc 1
                (readEnergyRegister registers acc 0 cg).2).2).2) := by
  by_cases h1 : acc.calibState.calibrating = true
  swap
  · have := completeCalibration_guard p registers now phase loadWatts durationMinutes acc c
      (Or.inl (by simpa using h1))
    rw [this] at hok; simp at hok
  by_cases h2 : phase ≥ 3
  · have := completeCalibration_guard p registers now phase loadWatts durationMinutes acc c
      (Or.inr (Or.inl h2))
    rw [this] at hok; simp at hok
  by_cases h0 : acc.calibState.phaseMask &&& (1 <<< phase) = 0
  · have := completeCalibration_guard p registers now phase loadWatts durationMinutes acc c
      (Or.inr (Or.inr ((and_one_shiftLeft_eq_zero_iff _ _).mp h0)))
    rw [this] at hok; simp at hok
  have hph : phase < 3 := by omega
  cases hread : (readEnergyRegister registers acc phase c).1 with
  | none =>
    have hr : readEnergyRegister registers acc phase c
        = (none, (readEnergyRegister registers acc phase c).2) := by rw [← hread]
    unfold completeCalibration at hok
    rw [hr] at hok
    simp [h1, h2, h0] at hok
  | some measuredWh =>
    have hr : readEnergyRegister registers acc phase c
        = (some measuredWh, (readEnergyRegister registers acc phase c).2) := by rw [← hread]
    obtain ⟨hcs, hlrt, -⟩ := calculateAndApplyGain_acc p registers acc phase
      (loadWatts * (durationMinutes / 60)) measuredWh (readEnergyRegister registers acc phase c).2
    have hbits := fun i => testBit_clear_phase acc.calibState.phaseMask phase i hmask hph
    cases hg : (calculateAndApplyGain p registers acc phase
        (loadWatts * (durationMinutes / 60)) measuredWh
        (readEnergyRegister registers acc phase c).2).1 with
    | false =>
      unfold completeCalibration at hok
      rw [hr] at hok
      simp [h1, h2, h0, hg] at hok
    | true =>
      unfold completeCalibration
      rw [hr]
      simp only [h1, h2, h0, hg, Bool.not_true, Bool.false_eq_true, if_false, hcs]
      by_cases hz : (acc.calibState.phaseMask &&& not32 (1 <<< phase)) % 256 = 0
      · simp only [hz, if_true]
        refine ⟨?_, ?_, measuredWh, _, rfl, rfl, ?_, ?_⟩
        · intro i; rw [← hbits i, hz]
        · simp
        · intro hne; exact absurd rfl hne
        · intro _
          refine ⟨trivial, ?_⟩
          simp only [clearEnergyRegisters, List.foldl]
          rw [readEnergyRegister_chip registers _ acc 0, readEnergyRegister_chip registers _ acc 1,
            readEnergyRegister_chip registers _ acc 2]
      · simp only [hz, if_false]
        refine ⟨?_, ?_, measuredWh, _, rfl, rfl, ?_, ?_⟩
        · intro i; rw [← hbits i]
        · simp [h1, hz]
        · intro _; exact ⟨rfl, hlrt⟩
        · intro hzero; exact False.elim hzero

/-- C13 on the sample table, from mask `0b011`: completing phase A succeeds and
leaves mask `0b010` with the session active; completing phase B then succeeds
and leaves mask 0 with the session ended, the read timer reset, and the three
energy registers read once each after the gain step. -/
theorem completeCalibration_clears_phase_witness :
    ((completeCalibration zeroPlatform sampleRegisters 77 0 1000 (15 / 8)
        calibratingAccumulator energyChip).2.1.calibState.calibrating = true ↔
      (completeCalibration zeroPlatform sampleRegisters 77 0 1000 (15 / 8)
        calibratingAccumulator energyChip).2.1.calibState.phaseMask ≠ 0) ∧
    (completeCalibration zeroPlatform sampleRegisters 77 0 1000 (15 / 8)
        calibratingAccumulator energyChip).1 = true ∧
    (completeCalibration zeroPlatform sampleRegisters 77 0 1000 (15 / 8)
        calibratingAccumulator energyChip).2.1.calibState.phaseMask = 2 ∧
    (completeCalibration zeroPlatform sampleRegisters 77 0 1000 (15 / 8)
        calibratingAccumulator energyChip).2.1.calibState.calibrating = true ∧
    (completeCalibration zeroPlatform sampleRegisters 99 1 1000 (15 / 8)
        (completeCalibration zeroPlatform sampleRegisters 77 0 1000 (15 / 8)
          calibratingAccumulator energyChip).2.1
        (completeCalibration zeroPlatform sampleRegisters 77 0 1000 (15 / 8)
          calibratingAccumulator energyChip).2.2).1 = true ∧
    (completeCalibration zeroPlatform sampleRegisters 99 1 1000 (15 / 8)
        (completeCalibration zeroPlatform sampleRegisters 77 0 1000 (15 / 8)
          calibratingAccumulator energyChip).2.1
        (completeCalibration zeroPlatform sampleRegisters 77 0 1000 (15 / 8)
          calibratingAccumulator energyChip).2.2).2.1.calibState.phaseMask = 0 ∧
    (completeCalibration zeroPlatform sampleRegisters 99 1 1000 (15 / 8)
        (completeCalibration zeroPlatform sampleRegisters 77 0 1000 (15 / 8)
          calibratingAccumulator energyChip).2.1
        (completeCalibration zeroPlatform sampleRegisters 77 0 1000 (15 / 8)
          calibratingAccumulator energyChip).2.2).2.1.calibState.calibrating = false ∧
    (completeCalibration zeroPlatform sampleRegisters 99 1 1000 (15 / 8)
        (completeCalibration zeroPlatform sampleRegisters 77 0 1000 (15 / 8)
          calibratingAccumulator energyChip).2.1
        (completeCalibration zeroPlatform sampleRegisters 77 0 1000 (15 / 8)
          calibratingAccumulator energyChip).2.2).2.1.lastReadTime = 99 ∧
    (completeCalibration zeroPlatform sampleRegisters 99 1 1000 (15 / 8)
        (completeCalibration zeroPlatform sampleRegisters 77 0 1000 (15 / 8)
          calibratingAccumulator energyChip).2.1
        (completeCalibration zeroPlatform sampleRegisters 77 0 1000 (15 / 8)
          calibratingAccumulator energyChip).2.2).2.2.log
      = [BusOp.read 0x81, BusOp.write 0x7F 0x55AA, BusOp.write 0x47 0, BusOp.write 0x7F 0,
         BusOp.read 0x82, BusOp.write 0x7F 0x55AA, BusOp.write 0x49 0, BusOp.write 0x7F 0,
         BusOp.read 0x81, BusOp.read 0x82, BusOp.read 0x83] :=
  ⟨(completeCalibration_clears_phase zeroPlatform sampleRegisters 77 0 1000 (15 / 8)
      calibratingAccumulator energyChip (by decide) (by decide!)).2.1,
    by decide!, by decide!, by decide!, by decide!, by decide!, by decide!, by decide!,
    by decide!⟩

/-! ## C14 -/

/-- C14: when the allocation of the clamped size succeeds, `allocateBuffer n`
returns true with capacity `min (max n 1) 1000` and cursor 0, and so does
`setBufferSize n` on an empty buffer; the settings parser clamps `BufferSize`
the same way. -/
theorem allocateBuffer_clamps (env : Env) (n : Nat) (l : SDCardLogger)
    (halloc : env.allocBuffer (min (max n 1) 1000) = true) :
    (allocateBuffer env n l).1 = true ∧
    (allocateBuffer env n l).2.bufferSize = min (max n 1) 1000 ∧
    (allocateBuffer env n l).2.bufferIndex = 0 ∧
    (l.bufferIndex = 0 →
      (setBufferSize env n l).bufferSize = min (max n 1) 1000 ∧
      (setBufferSize env n l).bufferIndex = 0) ∧
    parseBufferSize n = min (max n 1) 1000 := by
  have hclamp : (if (if n < 1 then 1 else n) > 1000 then 1000 else (if n < 1 then 1 else n))
      = min (max n 1) 1000 := by
    by_cases h1 : n < 1
    · have : n = 0 := by omega
      subst this; decide
    · by_cases h2 : n > 1000
      · simp only [if_neg h1, if_pos h2]; omega
      · simp only [if_neg h1, if_neg h2]; omega
  have ha : allocateBuffer env n l = (true,
      { freeBuffer l with
        bufferAllocated := true,
        buffer := fun i => if i < min (max n 1) 1000 then emptyMeasurement
          else (freeBuffer l).buffer i,
        bufferSize := min (max n 1) 1000,
        bufferIndex := 0 }) := by
    simp only [allocateBuffer, hclamp, halloc, Bool.not_true, Bool.false_eq_true, if_false]
  refine ⟨?_, ?_, ?_, ?_, ?_⟩
  · rw [ha]
  · rw [ha]
  · rw [ha]
  · intro h0
    have hg : (l.loggingEnabled && decide (l.bufferIndex > 0)) = false := by simp [h0]
    simp only [setBufferSize, hg, Bool.false_eq_true, if_false]
    rw [ha]
    exact ⟨rfl, rfl⟩
  · simp only [parseBufferSize, hclamp]

/-- C14 at the two requests of the specification: 0 yields capacity 1 and 5000
yields capacity 1000, for `allocateBuffer`, `setBufferSize` and the parser. -/
theorem allocateBuffer_clamps_witness :
    (allocateBuffer sampleEnv 0 (constructLogger sampleEnv 4 (-1))).2.bufferSize = 1 ∧
    (allocateBuffer sampleEnv 5000 (constructLogger sampleEnv 4 (-1))).2.bufferSize = 1000 ∧
    (setBufferSize sampleEnv 5000 (constructLogger sampleEnv 4 (-1))).bufferSize = 1000 ∧
    parseBufferSize 0 = 1 ∧ parseBufferSize 5000 = 1000 :=
  ⟨(allocateBuffer_clamps sampleEnv 0 (constructLogger sampleEnv 4 (-1)) rfl).2.1,
    (allocateBuffer_clamps sampleEnv 5000 (constructLogger sampleEnv 4 (-1)) rfl).2.1,
    ((allocateBuffer_clamps sampleEnv 5000 (constructLogger sampleEnv 4 (-1))
      rfl).2.2.2.1 (by decide!)).1,
    (allocateBuffer_clamps sampleEnv 0 (constructLogger sampleEnv 4 (-1)) rfl).2.2.2.2,
    (allocateBuffer_clamps sampleEnv 5000 (constructLogger sampleEnv 4 (-1)) rfl).2.2.2.2⟩

/-! ## C15 -/

/-- C15, the claim fails: after one captured measurement the card is unmounted,
which disables logging and leaves the cursor at 1; `setBufferSize(10)` then
reallocates (cursor 0, capacity 10, slot 0 emptied) and `setLogFields("Freq")`
returns true and replaces the field list. -/
theorem reconfiguration_not_refused_when_logging_disabled :
    (unmountCard (loggingWorld goodCard)).logger.bufferIndex = 1 ∧
    (unmountCard (loggingWorld goodCard)).logger.loggingEnabled = false ∧
    ((unmountCard (loggingWorld goodCard)).logger.buffer 0).fields.isSome = true ∧
    (setBufferSize sampleEnv 10 (unmountCard (loggingWorld goodCard)).logger).bufferIndex = 0 ∧
    (setBufferSize sampleEnv 10 (unmountCard (loggingWorld goodCard)).logger).bufferSize = 10 ∧
    ((setBufferSize sampleEnv 10 (unmountCard (loggingWorld goodCard)).logger).buffer
      0).fields.isSome = false ∧
    (setLogFields sampleEnv "Freq" (unmountCard (loggingWorld goodCard)).logger).1 = true ∧
    (unmountCard (loggingWorld goodCard)).logger.fieldNames
      = ["UrmsA", "IrmsA", "PmeanA", "SmeanA", "QmeanA", "Freq"] ∧
    (setLogFields sampleEnv "Freq" (unmountCard (loggingWorld goodCard)).logger).2.fieldNames
      = ["Freq"] := by
  refine ⟨?_, ?_, ?_, ?_, ?_, ?_, ?_, ?_, ?_⟩ <;> decide!

/-- C15 as amended: while logging is enabled and the buffer holds unflushed data
(cursor > 0), `setBufferSize` leaves the logger as it is (field list,
capacity, cursor and slots) and `setLogFields` returns false and leaves the
logger as it is. -/
theorem reconfiguration_refused_while_logging (env : Env) (size : Nat) (fieldList : String)
    (l : SDCardLogger) (hen : l.loggingEnabled = true) (hcur : l.bufferIndex > 0) :
    setBufferSize env size l = l ∧ setLogFields env fieldList l = (false, l) := by
  simp [setBufferSize, setLogFields, hen, hcur]

/-- C15 as amended, at the logger that holds one captured measurement with
logging enabled. -/
theorem reconfiguration_refused_while_logging_witness :
    setBufferSize sampleEnv 10 (loggingWorld goodCard).logger = (loggingWorld goodCard).logger ∧
    setLogFields sampleEnv "Freq" (loggingWorld goodCard).logger
      = (false, (loggingWorld goodCard).logger) :=
  reconfiguration_refused_while_logging sampleEnv 10 "Freq" (loggingWorld goodCard).logger
    (by decide!) (by decide!)

/-! ## C17 -/

/-- C17: with cursor 0 `flushBuffer` returns true and leaves the world (logger,
card, chip) untouched, whatever the mount and write-protect flags, so that
repeating it changes nothing; whenever it returns true the cursor is 0
afterwards; whenever it returns false the logger, cursor included, is
unchanged. -/
theorem flushBuffer_cursor (env : Env) (registers : List RegisterDescriptor) (w : World) :
    (w.logger.bufferIndex = 0 → flushBuffer env registers w = (true, w)) ∧
    (w.logger.bufferIndex = 0 →
      flushBuffer env registers (flushBuffer env registers w).2 = (true, w)) ∧
    ((flushBuffer env registers w).1 = true →
      (flushBuffer env registers w).2.logger.bufferIndex = 0) ∧
    ((flushBuffer env registers w).1 = false →
      (flushBuffer env registers w).2.logger = w.logger) := by
  have h0 : w.logger.bufferIndex = 0 → flushBuffer env registers w = (true, w) := by
    intro h; simp [flushBuffer, h]
  refine ⟨h0, ?_, ?_, ?_⟩
  · intro h
    rw [h0 h]
    exact h0 h
  · intro hok
    by_cases h : w.logger.bufferIndex = 0
    · rw [h0 h]; exact h
    · by_cases hg : (!w.logger.initialized || w.logger.writeProtected) = true
      · simp [flushBuffer, h, hg] at hok
      · simp only [flushBuffer, if_neg h, if_neg hg] at hok ⊢
        split
        · rfl
        · rename_i hf
          simp [hf] at hok
  · intro hfail
    by_cases h : w.logger.bufferIndex = 0
    · rw [h0 h] at hfail; simp at hfail
    · by_cases hg : (!w.logger.initialized || w.logger.writeProtected) = true
      · simp [flushBuffer, h, hg]
      · simp only [flushBuffer, if_neg h, if_neg hg] at hfail ⊢
        split
        · rename_i hf
          simp [hf] at hfail
        · rfl

/-! ## C18 -/

theorem unmountCard_logger (w : World) :
    (unmountCard w).logger.initialized = false ∧
    (unmountCard w).logger.bufferIndex = w.logger.bufferIndex ∧
    (unmountCard w).logger.buffer = w.logger.buffer ∧
    (unmountCard w).logger.bufferSize = w.logger.bufferSize ∧
    (unmountCard w).logger.logCount = w.logger.logCount ∧
    (unmountCard w).logger.powerLost = w.logger.powerLost ∧
    (unmountCard w).logger.powerLossThreshold = w.logger.powerLossThreshold ∧
    (unmountCard w).chip = w.chip := by
  unfold unmountCard
  cases h : w.logger.initialized <;> simp [h]

/-- What `flushBuffer` does to the logger: on success the cursor is 0, on
failure the logger is unchanged; the chip, the accumulator and the flags
other than the cursor are never touched. -/
theorem flushBuffer_logger (env : Env) (registers : List RegisterDescriptor) (w : World) :
    ((flushBuffer env registers w).1 = true →
      (flushBuffer env registers w).2.logger.bufferIndex = 0) ∧
    ((flushBuffer env registers w).1 = false →
      (flushBuffer env registers w).2.logger = w.logger) ∧
    (flushBuffer env registers w).2.logger.initialized = w.logger.initialized ∧
    (flushBuffer env registers w).2.logger.powerLost = w.logger.powerLost ∧
    (flushBuffer env registers w).2.logger.logCount = w.logger.logCount ∧
    (flushBuffer env registers w).2.logger.bufferSize = w.logger.bufferSize ∧
    (flushBuffer env registers w).2.chip = w.chip ∧
    (flushBuffer env registers w).2.accumulator = w.accumulator := by
  unfold flushBuffer
  by_cases h : w.logger.bufferIndex = 0
  · simp [h]
  · by_cases hg : (!w.logger.initialized || w.logger.writeProtected) = true
    · simp [h, hg]
    · simp only [if_neg h, if_neg hg]
      split <;> simp_all

/-- The shape of `handlePowerLoss`: a world `w2` whose cursor is the prior one
or one more, then the flush of `w2`, then the unmount. -/
theorem handlePowerLoss_shape (env : Env) (registers : List RegisterDescriptor) (w : World) :
    ∃ w2 : World,
      (w2.logger.bufferIndex = w.logger.bufferIndex ∨
        w2.logger.bufferIndex = w.logger.bufferIndex + 1) ∧
      w2.logger.powerLost = w.logger.powerLost ∧
      w2.logger.powerLossThreshold = w.logger.powerLossThreshold ∧
      handlePowerLoss env registers w
        = ((flushBuffer env registers w2).1, unmountCard (flushBuffer env registers w2).2) := by
  refine ⟨_, ?_, ?_, ?_, rfl⟩
  · cases w.accumulator <;> simp only <;> split <;>
      first
        | (left; rfl)
        | (split <;> simp)
  · cases w.accumulator <;> simp only <;> split <;> simp
  · cases w.accumulator <;> simp only <;> split <;> simp

/-- C18, the claim fails: with one measurement buffered on a card that refuses
every `mkdir` and `open`, `handlePowerLoss` captures a final measurement,
the flush fails, the card is unmounted and the cursor is left at 2. -/
theorem powerLoss_cursor_not_zero_when_flush_fails :
    (loggingWorld failingCard).logger.bufferIndex = 1 ∧
    (handlePowerLoss sampleEnv loggerRegisters (loggingWorld failingCard)).1 = false ∧
    (handlePowerLoss sampleEnv loggerRegisters (loggingWorld failingCard)).2.logger.bufferIndex
      = 2 ∧
    (handlePowerLoss sampleEnv loggerRegisters (loggingWorld failingCard)).2.logger.initialized
      = false := by
  refine ⟨?_, ?_, ?_, ?_⟩ <;> decide!

/-- C18 as amended: for every prior fill level, after `handlePowerLoss` the
initialized flag is false whatever the flush outcome; when the emergency
flush succeeds (`handlePowerLoss` returns true) the cursor is 0; when it
fails the cursor is the prior one, or one more when the final measurement was
captured. -/
theorem powerLoss_unmounts_and_empties_on_success (env : Env)
    (registers : List RegisterDescriptor) (w : World) :
    (handlePowerLoss env registers w).2.logger.initialized = false ∧
    ((handlePowerLoss env registers w).1 = true →
      (handlePowerLoss env registers w).2.logger.bufferIndex = 0) ∧
    ((handlePowerLoss env registers w).1 = false →
      (handlePowerLoss env registers w).2.logger.bufferIndex = w.logger.bufferIndex ∨
      (handlePowerLoss env registers w).2.logger.bufferIndex = w.logger.bufferIndex + 1) := by
  obtain ⟨w2, hcur, -, -, hshape⟩ := handlePowerLoss_shape env registers w
  obtain ⟨hok, hfail, -⟩ := flushBuffer_logger env registers w2
  obtain ⟨hinit, hidx, -⟩ := unmountCard_logger (flushBuffer env registers w2).2
  rw [hshape]
  refine ⟨hinit, ?_, ?_⟩
  · intro h
    simp only at h ⊢
    rw [hidx]; exact hok h
  · intro h
    simp only at h ⊢
    rw [hidx, hfail h]; exact hcur

/-! ## C19 -/

theorem mountCard_preserves (w : World) :
    sameCapture w.logger (mountCard w).2.logger ∧ (mountCard w).2.chip = w.chip ∧
    (mountCard w).2.accumulator = w.accumulator := by
  unfold mountCard printCardInfo sameCapture
  split
  · split <;> simp
  · simp

theorem unmountCard_preserves (w : World) :
    sameCapture w.logger (unmountCard w).logger ∧ (unmountCard w).chip = w.chip ∧
    (unmountCard w).accumulator = w.accumulator := by
  unfold unmountCard sameCapture
  split <;> simp

theorem sameCapture_trans {a b c : SDCardLogger} (h1 : sameCapture a b) (h2 : sameCapture b c) :
    sameCapture a c := by
  unfold sameCapture at *
  obtain ⟨a1, a2, a3, a4, a5, a6, a7, a8⟩ := h1
  obtain ⟨b1, b2, b3, b4, b5, b6, b7, b8⟩ := h2
  exact ⟨b1.trans a1, b2.trans a2, b3.trans a3, b4.trans a4, b5.trans a5, b6.trans a6,
    b7.trans a7, b8.trans a8⟩

theorem sameSurroundings_mount (w w1 : World) (b : Bool) (h : sameSurroundings w w1) :
    sameSurroundings w (if b = true then (mountCard w1).2 else w1) := by
  cases b
  · exact h
  · obtain ⟨m1, m2, m3⟩ := mountCard_preserves w1
    exact ⟨sameCapture_trans h.1 m1, m2.trans h.2.1, m3.trans h.2.2⟩

theorem sameSurroundings_unmount (w w2 : World) (b : Bool) (h : sameSurroundings w w2) :
    sameSurroundings w (if b = true then unmountCard w2 else w2) := by
  cases b
  · exact h
  · obtain ⟨m1, m2, m3⟩ := unmountCard_preserves w2
    exact ⟨sameCapture_trans h.1 m1, m2.trans h.2.1, m3.trans h.2.2⟩

theorem checkCardStatus_preserves (env : Env) (w : World) :
    sameSurroundings w (checkCardStatus env w) := by
  unfold checkCardStatus
  simp only
  apply sameSurroundings_unmount
  apply sameSurroundings_mount
  simp [sameSurroundings, sameCapture]

theorem flushBuffer_threshold (env : Env) (registers : List RegisterDescriptor) (w : World) :
    (flushBuffer env registers w).2.logger.powerLossThreshold = w.logger.powerLossThreshold ∧
    (flushBuffer env registers w).2.logger.powerLossDetectionEnabled
      = w.logger.powerLossDetectionEnabled := by
  unfold flushBuffer
  by_cases h : w.logger.bufferIndex = 0
  · simp [h]
  · by_cases hg : (!w.logger.initialized || w.logger.writeProtected) = true
    · simp [h, hg]
    · simp only [if_neg h, if_neg hg]
      split <;> simp

theorem handlePowerLoss_flags (env : Env) (registers : List RegisterDescriptor) (w : World) :
    (handlePowerLoss env registers w).2.logger.powerLost = w.logger.powerLost ∧
    (handlePowerLoss env registers w).2.logger.powerLossThreshold
      = w.logger.powerLossThreshold := by
  obtain ⟨w2, -, hpl, hth, hshape⟩ := handlePowerLoss_shape env registers w
  obtain ⟨-, -, -, hfl, -⟩ := flushBuffer_logger env registers w2
  obtain ⟨hft, -⟩ := flushBuffer_threshold env registers w2
  obtain ⟨⟨-, -, -, -, hul, hut, -⟩, -⟩ := unmountCard_preserves (flushBuffer env registers w2).2
  rw [hshape]
  exact ⟨hul.trans (hfl.trans hpl), hut.trans (hft.trans hth)⟩

/-- A power poll that neither detects a loss nor a restoration only reads the
voltage register. -/
theorem checkPowerStatus_idle (env : Env) (registers : List RegisterDescriptor) (w : World)
    (h : (w.logger.powerLost = false ∧ ¬ seesPowerLow registers w) ∨
      (w.logger.powerLost = true ∧ ¬ seesPowerRestored registers w)) :
    (checkPowerStatus env registers w).logger = w.logger ∧
    (checkPowerStatus env registers w).sd = w.sd ∧
    (checkPowerStatus env registers w).accumulator = w.accumulator ∧
    OnlyReads w.chip (checkPowerStatus env registers w).chip := by
  have hreads := readRegister_onlyReads registers "UrmsA" w.chip
  unfold checkPowerStatus
  by_cases hd : w.logger.powerLossDetectionEnabled = true
  swap
  · simp only [hd, Bool.not_false, if_true]
    refine ⟨?_, ?_, ?_, onlyReads_refl _⟩ <;> trivial
  by_cases hs : (readRegister registers "UrmsA" w.chip).2.1 = true
  swap
  · simp only [hd, hs, Bool.not_true, Bool.false_eq_true, if_false, Bool.not_false, if_true]
    refine ⟨?_, ?_, ?_, hreads⟩ <;> trivial
  simp only [hd, hs, Bool.not_true, Bool.false_eq_true, if_false]
  rcases h with ⟨hpl, hlow⟩ | ⟨hpl, hres⟩
  · have hv : ¬ (readRegister registers "UrmsA" w.chip).1 < w.logger.powerLossThreshold :=
      fun hv => hlow ⟨hd, hs, hv⟩
    simp only [hpl, hv, false_and, and_false, if_false, Bool.false_eq_true]
    refine ⟨?_, ?_, ?_, hreads⟩ <;> trivial
  · have hv : ¬ (readRegister registers "UrmsA" w.chip).1 ≥ w.logger.powerLossThreshold :=
      fun hv => hres ⟨hd, hs, hv⟩
    simp only [hpl, hv, false_and, and_false, if_false, Bool.true_eq_false]
    refine ⟨?_, ?_, ?_, hreads⟩ <;> trivial

theorem seesPowerRestored_congr (registers : List RegisterDescriptor) (w w' : World)
    (h : sameSurroundings w w') :
    seesPowerRestored registers w' ↔ seesPowerRestored registers w := by
  obtain ⟨⟨-, -, -, -, -, hth, hde, -⟩, hc, -⟩ := h
  unfold seesPowerRestored
  rw [hc, hth, hde]

/-- While the power-lost flag is set and the poll does not see the supply back,
`update` leaves the capture state alone. -/
theorem loggerUpdate_while_powerLost (env : Env) (registers : List RegisterDescriptor)
    (now : Nat) (w : World) (hpl : w.logger.powerLost = true)
    (hres : ¬ seesPowerRestored registers w) :
    (loggerUpdate env registers now w).logger.powerLost = true ∧
    (loggerUpdate env registers now w).logger.bufferIndex = w.logger.bufferIndex ∧
    (loggerUpdate env registers now w).logger.buffer = w.logger.buffer ∧
    (loggerUpdate env registers now w).logger.logCount = w.logger.logCount := by
  -- the card poll
  have h1 : ∀ w1 : World, w1 = (if elapsed32 now w.logger.lastCardCheck ≥ 1000 then
      { checkCardStatus env w with
        logger := { (checkCardStatus env w).logger with lastCardCheck := now } }
      else w) → sameSurroundings w w1 := by
    intro w1 hw1
    subst hw1
    split
    · obtain ⟨⟨a1, a2, a3, a4, a5, a6, a7, a8⟩, hc, ha⟩ := checkCardStatus_preserves env w
      exact ⟨⟨a1, a2, a3, a4, a5, a6, a7, a8⟩, hc, ha⟩
    · exact ⟨⟨rfl, rfl, rfl, rfl, rfl, rfl, rfl, rfl⟩, rfl, rfl⟩
  -- the power poll
  have h2 : ∀ w1 : World, sameSurroundings w w1 → ∀ w2 : World,
      w2 = (if elapsed32 now w1.logger.lastPowerCheck ≥ 100 then
        { checkPowerStatus env registers w1 with
          logger := { (checkPowerStatus env registers w1).logger with lastPowerCheck := now } }
        else w1) →
      w2.logger.powerLost = true ∧ w2.logger.bufferIndex = w.logger.bufferIndex ∧
      w2.logger.buffer = w.logger.buffer ∧ w2.logger.logCount = w.logger.logCount := by
    intro w1 hs w2 hw2
    have hres1 : ¬ seesPowerRestored registers w1 :=
      fun h => hres ((seesPowerRestored_congr registers w w1 hs).mp h)
    obtain ⟨⟨b1, b2, -, b4, b5, -⟩, -, -⟩ := hs
    have hpl1 : w1.logger.powerLost = true := b5.trans hpl
    obtain ⟨hl, -⟩ := checkPowerStatus_idle env registers w1 (Or.inr ⟨hpl1, hres1⟩)
    subst hw2
    split
    · simp only [hl]
      exact ⟨hpl1, b2, b1, b4⟩
    · exact ⟨hpl1, b2, b1, b4⟩
  unfold loggerUpdate
  simp only
  obtain ⟨g1, g2, g3, g4⟩ := h2 _ (h1 _ rfl) _ rfl
  rw [if_pos g1]
  exact ⟨g1, g2, g3, g4⟩

/-- C19: `checkPowerStatus` runs `handlePowerLoss` on the poll that reads a
voltage below the threshold while the power-lost flag is clear, and that poll
leaves the flag set; with the flag clear and no such reading it only reads the
voltage register; with the flag set it runs the restoration when the voltage
is back and otherwise changes nothing in the logger, the card or the
accumulator (it only reads the voltage register), so a later poll with the
voltage still low does not repeat the emergency sequence; and while the flag
is set and the supply is not seen back, `update()` captures nothing: cursor,
slots and log count stay as they were. -/
theorem powerLoss_sequence_once (env : Env) (registers : List RegisterDescriptor)
    (w : World) :
    (seesPowerLow registers w → w.logger.powerLost = false →
      checkPowerStatus env registers w
        = (handlePowerLoss env registers
            { w with
              chip := (readRegister registers "UrmsA" w.chip).2.2,
              logger := { w.logger with powerLost := true } }).2 ∧
      (checkPowerStatus env registers w).logger.powerLost = true) ∧
    (w.logger.powerLost = false → ¬ seesPowerLow registers w →
      (checkPowerStatus env registers w).logger = w.logger ∧
      (checkPowerStatus env registers w).sd = w.sd ∧
      (checkPowerStatus env registers w).accumulator = w.accumulator ∧
      OnlyReads w.chip (checkPowerStatus env registers w).chip) ∧
    (w.logger.powerLost = true → seesPowerRestored registers w →
      checkPowerStatus env registers w
        = (handlePowerRestoration env
            { w with
              chip := (readRegister registers "UrmsA" w.chip).2.2,
              logger := { w.logger with powerLost := false } }).2) ∧
    (w.logger.powerLost = true → ¬ seesPowerRestored registers w →
      (checkPowerStatus env registers w).logger = w.logger ∧
      (checkPowerStatus env registers w).sd = w.sd ∧
      (checkPowerStatus env registers w).accumulator = w.accumulator ∧
      OnlyReads w.chip (checkPowerStatus env registers w).chip) ∧
    (w.logger.powerLost = true → ¬ seesPowerRestored registers w → ∀ now,
      (loggerUpdate env registers now w).logger.powerLost = true ∧
      (loggerUpdate env registers now w).logger.bufferIndex = w.logger.bufferIndex ∧
      (loggerUpdate env registers now w).logger.buffer = w.logger.buffer ∧
      (loggerUpdate env registers now w).logger.logCount = w.logger.logCount) := by
  refine ⟨?_, ?_, ?_, ?_, ?_⟩
  · rintro ⟨hd, hs, hv⟩ hpl
    obtain ⟨hfl, hth⟩ := handlePowerLoss_flags env registers
      { w with
        chip := (readRegister registers "UrmsA" w.chip).2.2,
        logger := { w.logger with powerLost := true } }
    have hnot : ¬ ((readRegister registers "UrmsA" w.chip).1
        ≥ (handlePowerLoss env registers
            { w with
              chip := (readRegister registers "UrmsA" w.chip).2.2,
              logger := { w.logger with powerLost := true } }).2.logger.powerLossThreshold ∧
        (handlePowerLoss env registers
            { w with
              chip := (readRegister registers "UrmsA" w.chip).2.2,
              logger := { w.logger with powerLost := true } }).2.logger.powerLost = true) := by
      rw [hth]
      exact fun h => absurd h.1 (not_le.mpr hv)
    have hc : (readRegister registers "UrmsA" w.chip).1 < w.logger.powerLossThreshold ∧
        w.logger.powerLost = false := ⟨hv, hpl⟩
    have heq : checkPowerStatus env registers w
        = (handlePowerLoss env registers
            { w with
              chip := (readRegister registers "UrmsA" w.chip).2.2,
              logger := { w.logger with powerLost := true } }).2 := by
      have e1 : (!w.logger.powerLossDetectionEnabled) = false := by simp [hd]
      have e2 : (!(readRegister registers "UrmsA" w.chip).2.1) = false := by simp [hs]
      unfold checkPowerStatus
      simp only [e1, e2, Bool.false_eq_true, if_false, if_pos hc]
      exact if_neg hnot
    exact ⟨heq, by rw [heq, hfl]⟩
  · intro hpl hlow
    exact checkPowerStatus_idle env registers w (Or.inl ⟨hpl, hlow⟩)
  · rintro hpl ⟨hd, hs, hv⟩
    have hlt : ¬ (readRegister registers "UrmsA" w.chip).1 < w.logger.powerLossThreshold :=
      not_lt.mpr hv
    have e1 : (!w.logger.powerLossDetectionEnabled) = false := by simp [hd]
    have e2 : (!(readRegister registers "UrmsA" w.chip).2.1) = false := by simp [hs]
    unfold checkPowerStatus
    simp only [e1, e2, Bool.false_eq_true, if_false]
    have hc1 : ¬ ((readRegister registers "UrmsA" w.chip).1 < w.logger.powerLossThreshold ∧
        w.logger.powerLost = false) := fun h => hlt h.1
    have hc2 : (readRegister registers "UrmsA" w.chip).1 ≥ w.logger.powerLossThreshold ∧
        w.logger.powerLost = true := ⟨hv, hpl⟩
    simp only [if_neg hc1]
    exact if_pos hc2
  · intro hpl hres
    exact checkPowerStatus_idle env registers w (Or.inr ⟨hpl, hres⟩)
  · intro hpl hres now
    exact loggerUpdate_while_powerLost env registers now w hpl hres

/-- C19 at a drop of the supply with one measurement buffered: the first poll
runs the emergency sequence (flag set, `SD.end()` called once); the second
poll, with the voltage still at 0 V, leaves the logger and the card as they
are. -/
theorem powerLoss_sequence_once_witness :
    (checkPowerStatus sampleEnv loggerRegisters brownoutWorld).logger.powerLost = true ∧
    (checkPowerStatus sampleEnv loggerRegisters brownoutWorld).sd.endCount = 1 ∧
    (checkPowerStatus sampleEnv loggerRegisters
        (checkPowerStatus sampleEnv loggerRegisters brownoutWorld)).logger
      = (checkPowerStatus sampleEnv loggerRegisters brownoutWorld).logger ∧
    (checkPowerStatus sampleEnv loggerRegisters
        (checkPowerStatus sampleEnv loggerRegisters brownoutWorld)).sd
      = (checkPowerStatus sampleEnv loggerRegisters brownoutWorld).sd :=
  have h2 := (powerLoss_sequence_once sampleEnv loggerRegisters
    (checkPowerStatus sampleEnv loggerRegisters brownoutWorld)).2.2.2.1 (by decide!)
    (fun h => absurd h.2.2 (by decide!))
  ⟨((powerLoss_sequence_once sampleEnv loggerRegisters brownoutWorld).1
      ⟨by decide!, by decide!, by decide!⟩ (by decide!)).2,
    by decide!, h2.1, h2.2.1⟩

/-! ## C16 -/

/-- C16, the code at the failing input: on a card that refuses every `mkdir`
and `open`, with a one-slot buffer, the first `update()` that logs fills slot
0 and the flush fails, leaving the cursor at the capacity 1; the next
`update()` stores its measurement in slot 1, beyond the buffer, and moves the
cursor to 2; the one after moves it to 3. -/
theorem cursor_exceeds_capacity_after_failed_flush :
    (overflowRun 0).logger.bufferSize = 1 ∧ (overflowRun 0).logger.bufferIndex = 0 ∧
    (overflowRun 1).logger.bufferSize = 1 ∧ (overflowRun 1).logger.bufferIndex = 1 ∧
    ((overflowRun 1).logger.buffer 1).fields.isSome = false ∧
    (overflowRun 2).logger.bufferSize = 1 ∧ (overflowRun 2).logger.bufferIndex = 2 ∧
    ((overflowRun 2).logger.buffer 1).fields.isSome = true ∧
    (overflowRun 3).logger.bufferSize = 1 ∧ (overflowRun 3).logger.bufferIndex = 3 := by
  refine ⟨?_, ?_, ?_, ?_, ?_, ?_, ?_, ?_, ?_, ?_⟩ <;> decide!

/-! ## C20 -/

theorem convertRegisterValue_ge_zero (registers : List RegisterDescriptor) (name : String)
    (reg : RegisterDescriptor) (raw : Nat)
    (hf : findRegister registers name = some reg) (hconv : reg.convertFunc = none)
    (hs : 0 ≤ reg.scale)
    (h16 : reg.regType ≠ RegType.DT_INT16) (h32 : reg.regType ≠ RegType.DT_INT32) :
    0 ≤ convertRegisterValue registers name raw := by
  have hty : ¬ (reg.regType = RegType.DT_INT16 ∨ reg.regType = RegType.DT_INT32) := by
    rintro (h | h)
    · exact h16 h
    · exact h32 h
  simp only [convertRegisterValue, hf, hconv, if_neg hty]
  exact mul_nonneg (Nat.cast_nonneg _) hs

theorem readRegister_ge_zero (registers : List RegisterDescriptor) (name : String) (c : Chip)
    (h : ∀ reg, findRegister registers name = some reg →
      reg.convertFunc = none ∧ 0 ≤ reg.scale ∧
      reg.regType ≠ RegType.DT_INT16 ∧ reg.regType ≠ RegType.DT_INT32) :
    0 ≤ (readRegister registers name c).1 := by
  cases hf : findRegister registers name with
  | none => simp [readRegister, readRegisterRaw, hf]
  | some reg =>
    obtain ⟨hconv, hs, h16, h32⟩ := h reg hf
    by_cases hrw : reg.rwType = RWType.RW_WRITE
    · simp [readRegister, readRegisterRaw, hf, hrw]
    · rw [readRegister_of_readable registers name reg c hf hrw]
      exact convertRegisterValue_ge_zero registers name reg _ hf hconv hs h16 h32

theorem readEnergyRegister_ge_zero (registers : List RegisterDescriptor)
    (acc : EnergyAccumulator) (phase : Nat) (c : Chip) (wattHours : ℚ)
    (h : ∀ name reg, getPhaseRegisterName phase false = some name →
      findRegister registers name = some reg →
      reg.convertFunc = none ∧ 0 ≤ reg.scale ∧
      reg.regType ≠ RegType.DT_INT16 ∧ reg.regType ≠ RegType.DT_INT32)
    (hr : (readEnergyRegister registers acc phase c).1 = some wattHours) :
    0 ≤ wattHours := by
  unfold readEnergyRegister at hr
  cases hn : getPhaseRegisterName phase false with
  | none => simp [hn] at hr
  | some name =>
    have hv := readRegister_ge_zero registers name c (fun reg hf => h name reg hn hf)
    simp only [hn] at hr
    split at hr
    · simp only [Option.some.injEq] at hr
      rw [← hr]
      exact mul_nonneg hv (div_nonneg (by norm_num) (Nat.cast_nonneg _))
    · simp at hr

theorem updatePhase_mono (registers : List RegisterDescriptor)
    (s : EnergyAccumulator × Chip) (phase : Fin 3)
    (h : ∀ name reg, getPhaseRegisterName phase.val false = some name →
      findRegister registers name = some reg →
      reg.convertFunc = none ∧ 0 ≤ reg.scale ∧
      reg.regType ≠ RegType.DT_INT16 ∧ reg.regType ≠ RegType.DT_INT32)
    (i : Fin 3) :
    s.1.accumulatedEnergy i ≤ (updatePhase registers s phase).1.accumulatedEnergy i := by
  unfold updatePhase
  cases hr : (readEnergyRegister registers s.1 phase.val s.2).1 with
  | none =>
    have : readEnergyRegister registers s.1 phase.val s.2
        = (none, (readEnergyRegister registers s.1 phase.val s.2).2) := by rw [← hr]
    rw [this]
  | some wattHours =>
    have hnn := readEnergyRegister_ge_zero registers s.1 phase.val s.2 wattHours h hr
    have : readEnergyRegister registers s.1 phase.val s.2
        = (some wattHours, (readEnergyRegister registers s.1 phase.val s.2).2) := by rw [← hr]
    rw [this]
    simp only
    by_cases hi : i = phase
    · subst hi
      rw [Function.update_same]
      have : 0 ≤ wattHours / 1000 := div_nonneg hnn (by norm_num)
      linarith
    · rw [Function.update_noteq hi]

theorem saveToSettings_totals (acc : EnergyAccumulator) :
    (saveToSettings acc).2.accumulatedEnergy = acc.accumulatedEnergy := by
  unfold saveToSettings
  cases acc.settings <;> rfl

theorem update_mono (registers : List RegisterDescriptor) (now : Nat)
    (acc : EnergyAccumulator) (c : Chip)
    (h : ∀ phase name reg, getPhaseRegisterName phase false = some name →
      findRegister registers name = some reg →
      reg.convertFunc = none ∧ 0 ≤ reg.scale ∧
      reg.regType ≠ RegType.DT_INT16 ∧ reg.regType ≠ RegType.DT_INT32)
    (i : Fin 3) :
    acc.accumulatedEnergy i ≤ (update registers now acc c).1.accumulatedEnergy i := by
  have hstep : ∀ (s : EnergyAccumulator × Chip) (phase : Fin 3),
      s.1.accumulatedEnergy i ≤ (updatePhase registers s phase).1.accumulatedEnergy i :=
    fun s phase => updatePhase_mono registers s phase (h phase.val) i
  have hreads : acc.accumulatedEnergy i ≤
      ((if (!acc.calibState.calibrating) = true then
          if elapsed32 now acc.lastReadTime ≥ acc.readInterval then
            [0, 1, 2].foldl (updatePhase registers) ({ acc with lastReadTime := now }, c)
          else (acc, c)
        else (acc, c)) : EnergyAccumulator × Chip).1.accumulatedEnergy i := by
    split
    · split
      · simp only [List.foldl]
        exact le_trans (le_trans (hstep _ 0) (hstep _ 1)) (hstep _ 2)
      · exact le_refl _
    · exact le_refl _
  have key : ∀ (s1 : EnergyAccumulator × Chip) (b : Prop) [Decidable b],
      acc.accumulatedEnergy i ≤ s1.1.accumulatedEnergy i →
      acc.accumulatedEnergy i ≤
        (if b then ((saveToSettings { s1.1 with lastSaveTime := now }).2, s1.2)
          else s1).1.accumulatedEnergy i := by
    intro s1 b _ hs1
    split
    · rw [saveToSettings_totals]
      exact hs1
    · exact hs1
  unfold update
  exact key _ _ hreads

/-! ### The totals in floating point -/

theorem roundValue_nonneg (mant : Nat) (emin emax : Int) (x : ℚ) (hx : 0 ≤ x) :
    leValue (FloatValue.finite 0) (roundValue (roundBinary mant emin emax) x) = true := by
  unfold roundValue
  cases h : roundBinary mant emin emax x with
  | none => simp [leValue, not_lt.mpr hx]
  | some r => simp [leValue, roundBinary_nonneg mant emin emax x r hx h]

theorem intToF32_natCast_nonneg (n : Nat) (hn : n < 2 ^ 32) : 0 ≤ intToF32 (n : Int) :=
  (roundF32_count n hn).2.1

theorem convertRegisterValueF32_ge_zero (registers : List RegisterDescriptor) (name : String)
    (reg : RegisterDescriptor) (raw : Nat)
    (hf : findRegister registers name = some reg) (hconv : reg.convertFunc = none)
    (hs : 0 ≤ reg.scale)
    (h16 : reg.regType ≠ RegType.DT_INT16) (h32 : reg.regType ≠ RegType.DT_INT32) :
    leValue (FloatValue.finite 0) (convertRegisterValueF32 registers name raw) = true := by
  have hty : ¬ (reg.regType = RegType.DT_INT16 ∨ reg.regType = RegType.DT_INT32) := by
    rintro (h | h)
    · exact h16 h
    · exact h32 h
  simp only [convertRegisterValueF32, hf, hconv, if_neg hty]
  exact roundValue_nonneg 23 (-126) 128 _
    (mul_nonneg (intToF32_natCast_nonneg _ (Nat.mod_lt _ (by norm_num))) hs)

theorem readRegisterF32_ge_zero (registers : List RegisterDescriptor) (name : String) (c : Chip)
    (h : ∀ reg, findRegister registers name = some reg →
      reg.convertFunc = none ∧ 0 ≤ reg.scale ∧
      reg.regType ≠ RegType.DT_INT16 ∧ reg.regType ≠ RegType.DT_INT32) :
    leValue (FloatValue.finite 0) (readRegisterF32 registers name c).1 = true := by
  cases hf : findRegister registers name with
  | none => simp [readRegisterF32, readRegisterRaw, hf, leValue]
  | some reg =>
    obtain ⟨hconv, hs, h16, h32⟩ := h reg hf
    by_cases hrw : reg.rwType = RWType.RW_WRITE
    · simp [readRegisterF32, readRegisterRaw, hf, hrw, leValue]
    · rw [readRegisterF32_of_readable registers name reg c hf hrw]
      exact convertRegisterValueF32_ge_zero registers name reg _ hf hconv hs h16 h32

theorem getMeterConstant_lt (acc : EnergyAccumulator) : getMeterConstant acc < 65536 := by
  unfold getMeterConstant
  cases acc.settings with
  | none => norm_num
  | some st => exact Nat.mod_lt _ (by norm_num)

/-- With a positive meter constant the quotient `1000.0f / mc` is finite and
positive. -/
theorem wattHoursPerCountF32_pos (mc : Nat) (h0 : 0 < mc) (hlt : mc < 65536) :
    ∃ k : ℚ, wattHoursPerCountF32 mc = FloatValue.finite k ∧ 0 < k := by
  obtain ⟨-, hx0, hxe⟩ := roundF32_count mc (by omega)
  set x : ℚ := intToF32 ((mc : ℕ) : Int) with hx
  have h1 : (1 : ℚ) ≤ (mc : ℚ) := by exact_mod_cast h0
  have h2 : (mc : ℚ) < 65536 := by exact_mod_cast hlt
  rw [abs_le] at hxe
  have hxlo : (1 : ℚ) / 2 ≤ x := by linarith [hxe.1]
  have hxhi : x ≤ 131072 := by linarith [hxe.2]
  have hxpos : 0 < x := by linarith
  have hq0 : 0 < 1000 / x := div_pos (by norm_num) hxpos
  have hqhi : 1000 / x ≤ 2000 := by
    rw [div_le_iff₀ hxpos]; linarith
  have hqlo : (1 : ℚ) / 2 ^ 126 ≤ 1000 / x := by
    rw [le_div_iff₀ hxpos]
    have : (1 : ℚ) / 2 ^ 126 * x ≤ 1 / 2 ^ 126 * 131072 :=
      mul_le_mul_of_nonneg_left hxhi (by norm_num)
    have h3 : (1 : ℚ) / 2 ^ 126 * 131072 ≤ 1000 := by norm_num
    linarith
  obtain ⟨k, hk⟩ := roundF32_finite (1000 / x) (by
    rw [abs_of_pos hq0]
    exact lt_of_le_of_lt hqhi (by norm_num))
  have hke := roundF32_error_normal _ _ hk (by rwa [abs_of_pos hq0])
  rw [abs_of_pos hq0, abs_le] at hke
  refine ⟨k, ?_, ?_⟩
  · simp only [wattHoursPerCountF32, if_neg h0.ne', roundValue, ← hx, hk]
  · have : 1000 / x / 2 ^ 24 < 1000 / x := by
      apply div_lt_self hq0; norm_num
    linarith [hke.1]

theorem mulValue_nonneg (cf : FloatValue) (k : ℚ) (hk : 0 < k)
    (hcf : leValue (FloatValue.finite 0) cf = true) :
    leValue (FloatValue.finite 0) (mulValue roundF32 cf (FloatValue.finite k)) = true := by
  cases cf with
  | nan => simp [leValue] at hcf
  | infinity s =>
    have hs : s = false := by simpa [leValue] using hcf
    simp [mulValue, hk.ne', hs, leValue, not_lt.mpr hk.le]
  | finite a =>
    have ha : 0 ≤ a := by simpa [leValue] using hcf
    simp only [mulValue]
    exact roundValue_nonneg 23 (-126) 128 _ (mul_nonneg ha hk.le)

/-- The watt-hours of a successful energy read are not below zero and not a
NaN, for an unsigned energy register and a positive meter constant. -/
theorem readEnergyRegisterF32_ge_zero (registers : List RegisterDescriptor)
    (acc : EnergyAccumulator) (phase : Nat) (c : Chip) (wattHours : FloatValue)
    (h : ∀ name reg, getPhaseRegisterName phase false = some name →
      findRegister registers name = some reg →
      reg.convertFunc = none ∧ 0 ≤ reg.scale ∧
      reg.regType ≠ RegType.DT_INT16 ∧ reg.regType ≠ RegType.DT_INT32)
    (hmc : 0 < getMeterConstant acc)
    (hr : (readEnergyRegisterF32 registers acc phase c).1 = some wattHours) :
    leValue (FloatValue.finite 0) wattHours = true := by
  obtain ⟨k, hk, hkpos⟩ := wattHoursPerCountF32_pos _ hmc (getMeterConstant_lt acc)
  unfold readEnergyRegisterF32 at hr
  cases hn : getPhaseRegisterName phase false with
  | none => simp [hn] at hr
  | some name =>
    have hv := readRegisterF32_ge_zero registers name c (fun reg hf => h name reg hn hf)
    simp only [hn] at hr
    split at hr
    · simp only [Option.some.injEq] at hr
      rw [← hr, hk]
      exact mulValue_nonneg _ k hkpos hv
    · simp at hr

/-- Adding watt-hours that are not below zero to a finite `double` total gives
a total that is not below the old one. -/
theorem accumulateF64_ge (a : ℚ) (wattHours : FloatValue)
    (ha : roundF64 a = some a)
    (hw : leValue (FloatValue.finite 0) wattHours = true) :
    leValue (FloatValue.finite a) (accumulateF64 (FloatValue.finite a) wattHours) = true := by
  have hadd : ∀ x : ℚ, 0 ≤ x →
      leValue (FloatValue.finite a) (roundValue roundF64 (a + x)) = true := by
    intro x hx
    rcases roundBinary_ge_of_le 52 (-1022) 1024 a (a + x) ha (by linarith) with
      ⟨r, hr, har⟩ | ⟨hnone, hpos⟩
    · have hr' : roundF64 (a + x) = some r := hr
      simp [roundValue, hr', leValue, har]
    · have hr' : roundF64 (a + x) = none := hnone
      simp [roundValue, hr', leValue, not_lt.mpr hpos.le]
  cases wattHours with
  | nan => simp [leValue] at hw
  | infinity s =>
    have hs : s = false := by simpa [leValue] using hw
    simp [accumulateF64, divValue, addValue, hs, leValue]
  | finite w =>
    have hw0 : 0 ≤ w := by simpa [leValue] using hw
    have hd : 0 ≤ w / 1000 := div_nonneg hw0 (by norm_num)
    simp only [accumulateF64, divValue, roundValue]
    cases hq : roundF64 (w / 1000) with
    | none => simp [addValue, leValue, not_lt.mpr hd]
    | some x =>
      simp only [addValue]
      exact hadd x (roundBinary_nonneg 52 (-1022) 1024 _ x hd hq)

theorem leValue_refl (a : ℚ) : leValue (FloatValue.finite a) (FloatValue.finite a) = true := by
  simp [leValue]

/-- One pass of the phase loop on the `double` totals leaves the totals of the
other phases as they are and does not lower the total of its own phase. -/
theorem updatePhaseF64_step (registers : List RegisterDescriptor) (acc : EnergyAccumulator)
    (s : (Fin 3 → FloatValue) × Chip) (phase : Fin 3)
    (h : ∀ name reg, getPhaseRegisterName phase.val false = some name →
      findRegister registers name = some reg →
      reg.convertFunc = none ∧ 0 ≤ reg.scale ∧
      reg.regType ≠ RegType.DT_INT16 ∧ reg.regType ≠ RegType.DT_INT32)
    (hmc : 0 < getMeterConstant acc) :
    (∀ j, j ≠ phase → (updatePhaseF64 registers acc s phase).1 j = s.1 j) ∧
    (∀ a, s.1 phase = FloatValue.finite a → roundF64 a = some a →
      leValue (FloatValue.finite a) ((updatePhaseF64 registers acc s phase).1 phase) = true) := by
  unfold updatePhaseF64
  cases hr : (readEnergyRegisterF32 registers acc phase.val s.2).1 with
  | none =>
    have : readEnergyRegisterF32 registers acc phase.val s.2
        = (none, (readEnergyRegisterF32 registers acc phase.val s.2).2) := by rw [← hr]
    rw [this]
    refine ⟨fun j _ => rfl, fun a ha _ => ?_⟩
    simp only [ha]
    exact leValue_refl a
  | some wattHours =>
    have hnn := readEnergyRegisterF32_ge_zero registers acc phase.val s.2 wattHours h hmc hr
    have : readEnergyRegisterF32 registers acc phase.val s.2
        = (some wattHours, (readEnergyRegisterF32 registers acc phase.val s.2).2) := by rw [← hr]
    rw [this]
    refine ⟨fun j hj => ?_, fun a ha hd => ?_⟩
    · simp only [Function.update_noteq hj]
    · simp only [Function.update_same, ha]
      exact accumulateF64_ge a wattHours hd hnn

/-- In floating point, `update` lowers none of the three totals. -/
theorem updateTotalsF64_ge (registers : List RegisterDescriptor) (now : Nat)
    (acc : EnergyAccumulator) (c : Chip)
    (h : ∀ ph name reg, getPhaseRegisterName ph false = some name →
      findRegister registers name = some reg →
      reg.convertFunc = none ∧ 0 ≤ reg.scale ∧
      reg.regType ≠ RegType.DT_INT16 ∧ reg.regType ≠ RegType.DT_INT32)
    (hmc : 0 < getMeterConstant acc)
    (hd : ∀ j, roundF64 (acc.accumulatedEnergy j) = some (acc.accumulatedEnergy j))
    (i : Fin 3) :
    leValue (totalsF64 acc i) ((updateTotalsF64 registers now acc (totalsF64 acc) c).1 i)
      = true := by
  unfold updateTotalsF64
  split
  · split
    · simp only [List.foldl]
      obtain ⟨k0, g0⟩ := updatePhaseF64_step registers acc (totalsF64 acc, c) 0 (h _) hmc
      obtain ⟨k1, g1⟩ := updatePhaseF64_step registers acc
        (updatePhaseF64 registers acc (totalsF64 acc, c) 0) 1 (h _) hmc
      obtain ⟨k2, g2⟩ := updatePhaseF64_step registers acc
        (updatePhaseF64 registers acc (updatePhaseF64 registers acc (totalsF64 acc, c) 0) 1) 2
        (h _) hmc
      rcases (by decide : ∀ j : Fin 3, j = 0 ∨ j = 1 ∨ j = 2) i with rfl | rfl | rfl
      · rw [k2 0 (by decide), k1 0 (by decide)]
        exact g0 _ rfl (hd 0)
      · rw [k2 1 (by decide)]
        exact g1 _ (k0 1 (by decide)) (hd 1)
      · exact g2 _ ((k1 2 (by decide)).trans (k0 2 (by decide))) (hd 2)
    · exact leValue_refl _
  · exact leValue_refl _

/-- C20, the claim fails.  With the meter constant 0 in the settings store and
nothing counted, the energy read of phase A gives `0 * (1000 / 0)`, a NaN, and
`update` turns the phase A total of 1.5 kWh into a NaN, which is not at or
above 1.5.  With a signed 16-bit energy register for phase A and the raw word
`0xFFFF` (-1), `update` lowers the phase A total from 0 to a negative value, in
exact arithmetic and in floating point alike. -/
theorem totals_not_monotone :
    getMeterConstant zeroConstantAccumulator = 0 ∧
    totalsF64 zeroConstantAccumulator 0 = FloatValue.finite (3 / 2) ∧
    (readEnergyRegisterF32 floatRegisters zeroConstantAccumulator 0 zeroChip).1
      = some FloatValue.nan ∧
    (updateTotalsF64 floatRegisters 20000 zeroConstantAccumulator
      (totalsF64 zeroConstantAccumulator) zeroChip).1 0 = FloatValue.nan ∧
    leValue (FloatValue.finite (3 / 2)) FloatValue.nan = false ∧
    (∃ reg, findRegister signedEnergyRegisters "APenergyA" = some reg ∧
      reg.regType = RegType.DT_INT16 ∧ reg.scale = floatHundredth ∧ reg.convertFunc = none) ∧
    initialAccumulator.accumulatedEnergy 0 = 0 ∧
    (update signedEnergyRegisters 20000 initialAccumulator onesChip).1.accumulatedEnergy 0 < 0 ∧
    (updateTotalsF64 signedEnergyRegisters 20000 initialAccumulator
      (totalsF64 initialAccumulator) onesChip).1 0
      = FloatValue.finite (-3689348594839585 / 1180591620717411303424) ∧
    leValue (totalsF64 initialAccumulator 0)
      (FloatValue.finite (-3689348594839585 / 1180591620717411303424)) = false := by
  refine ⟨by decide!, by decide!, by decide!, by decide!, by decide!,
    ⟨reg16 "APenergyA" 0x81 RWType.RW_READCLEAR RegType.DT_INT16 floatHundredth,
      by simp [findRegister, signedEnergyRegisters, reg16, List.find?], rfl, rfl, rfl⟩,
    rfl, by decide!, by decide!, by decide!⟩
/-- C20 as amended, for a descriptor table whose three energy registers have no
decode function, a non-negative scale and an unsigned kind, a positive meter
constant and totals that are finite `double` values: `update` lowers none of
the three totals, in floating point and in exact arithmetic alike, and
`startCalibration`, `completeCalibration` and `saveToSettings` leave all three
as they are. -/
theorem totals_never_decrease (p : Platform) (registers : List RegisterDescriptor)
    (now phaseMask phase : Nat) (loadWatts durationMinutes : ℚ) (acc : EnergyAccumulator)
    (c : Chip)
    (h : ∀ ph name reg, getPhaseRegisterName ph false = some name →
      findRegister registers name = some reg →
      reg.convertFunc = none ∧ 0 ≤ reg.scale ∧
      reg.regType ≠ RegType.DT_INT16 ∧ reg.regType ≠ RegType.DT_INT32)
    (hmc : 0 < getMeterConstant acc)
    (hd : ∀ j, roundF64 (acc.accumulatedEnergy j) = some (acc.accumulatedEnergy j))
    (i : Fin 3) :
    leValue (totalsF64 acc i) ((updateTotalsF64 registers now acc (totalsF64 acc) c).1 i)
      = true ∧
    acc.accumulatedEnergy i ≤ (update registers now acc c).1.accumulatedEnergy i ∧
    (startCalibration p registers now phaseMask acc c).2.1.accumulatedEnergy i
      = acc.accumulatedEnergy i ∧
    (completeCalibration p registers now phase loadWatts durationMinutes acc
      c).2.1.accumulatedEnergy i = acc.accumulatedEnergy i ∧
    (saveToSettings acc).2.accumulatedEnergy i = acc.accumulatedEnergy i := by
  refine ⟨updateTotalsF64_ge registers now acc c h hmc hd i,
    update_mono registers now acc c h i, ?_, ?_, ?_⟩
  · unfold startCalibration
    split
    · rfl
    · split <;> rfl
  · unfold completeCalibration
    split
    · rfl
    · split
      · rfl
      · split
        · rfl
        · cases hr : (readEnergyRegister registers acc phase c).1 with
          | none =>
            have : readEnergyRegister registers acc phase c
                = (none, (readEnergyRegister registers acc phase c).2) := by rw [← hr]
            rw [this]
          | some m =>
            have : readEnergyRegister registers acc phase c
                = (some m, (readEnergyRegister registers acc phase c).2) := by rw [← hr]
            rw [this]
            obtain ⟨-, -, hacc⟩ := calculateAndApplyGain_acc p registers acc phase
              (loadWatts * (durationMinutes / 60)) m (readEnergyRegister registers acc phase c).2
            simp only
            split
            · rw [hacc]
            · split <;> simp only [hacc]
  · rw [saveToSettings_totals]

/-- The three energy registers of the sample table are unsigned 16-bit with
scale 0.01 and no decode function. -/
theorem sampleRegisters_energy_unsigned :
    ∀ ph name reg, getPhaseRegisterName ph false = some name →
      findRegister sampleRegisters name = some reg →
      reg.convertFunc = none ∧ 0 ≤ reg.scale ∧
      reg.regType ≠ RegType.DT_INT16 ∧ reg.regType ≠ RegType.DT_INT32 := by
  intro ph name reg hn hf
  have hname : name = "APenergyA" ∨ name = "APenergyB" ∨ name = "APenergyC" := by
    match ph, hn with
    | 0, hn => left; simpa [getPhaseRegisterName] using hn.symm
    | 1, hn => right; left; simpa [getPhaseRegisterName] using hn.symm
    | 2, hn => right; right; simpa [getPhaseRegisterName] using hn.symm
    | _ + 3, hn => simp [getPhaseRegisterName] at hn
  rcases hname with rfl | rfl | rfl <;>
    simp [findRegister, sampleRegisters, reg16, reg32, List.find?] at hf <;>
    subst hf <;>
    refine ⟨rfl, by norm_num, by decide, by decide⟩

/-- The three energy registers of the floating point table are unsigned 16-bit
with scale 0.01 (as a `float`) and no decode function. -/
theorem floatRegisters_energy_unsigned :
    ∀ ph name reg, getPhaseRegisterName ph false = some name →
      findRegister floatRegisters name = some reg →
      reg.convertFunc = none ∧ 0 ≤ reg.scale ∧
      reg.regType ≠ RegType.DT_INT16 ∧ reg.regType ≠ RegType.DT_INT32 := by
  intro ph name reg hn hf
  have hname : name = "APenergyA" ∨ name = "APenergyB" ∨ name = "APenergyC" := by
    match ph, hn with
    | 0, hn => left; simpa [getPhaseRegisterName] using hn.symm
    | 1, hn => right; left; simpa [getPhaseRegisterName] using hn.symm
    | 2, hn => right; right; simpa [getPhaseRegisterName] using hn.symm
    | _ + 3, hn => simp [getPhaseRegisterName] at hn
  rcases hname with rfl | rfl | rfl <;>
    simp [findRegister, floatRegisters, reg16, List.find?] at hf <;>
    subst hf <;>
    refine ⟨rfl, by norm_num [floatHundredth], by decide, by decide⟩

/-- C20 as amended, on the floating point table with the meter constant 3200:
one `update` after the read interval, with 100 CF in each energy register,
raises the phase A total from 0 to 0.03125 kWh, in floating point and in exact
arithmetic. -/
theorem totals_never_decrease_witness :
    leValue (totalsF64 initialAccumulator 0)
      ((updateTotalsF64 floatRegisters 20000 initialAccumulator (totalsF64 initialAccumulator)
        energyChip).1 0) = true ∧
    (updateTotalsF64 floatRegisters 20000 initialAccumulator (totalsF64 initialAccumulator)
      energyChip).1 0 = FloatValue.finite (1 / 32) ∧
    initialAccumulator.accumulatedEnergy 0
      ≤ (update floatRegisters 20000 initialAccumulator energyChip).1.accumulatedEnergy 0 ∧
    initialAccumulator.accumulatedEnergy 0 = 0 :=
  have h := totals_never_decrease zeroPlatform floatRegisters 20000 3 0 1000 1
    initialAccumulator energyChip floatRegisters_energy_unsigned (by decide)
    (fun _ => roundBinary_zero _ _ _) 0
  ⟨h.1, by decide!, h.2.1, rfl⟩

/-! ## C16: the cursor below the capacity -/

/-- While the cursor is below the capacity, `logMeasurement` keeps it within the
capacity: the missing check only matters once a failed flush has left the
cursor at the capacity. -/
theorem logMeasurement_cursor_in_range (env : Env) (registers : List RegisterDescriptor)
    (w : World) (h : w.logger.bufferIndex < w.logger.bufferSize) :
    (logMeasurement env registers w).2.logger.bufferIndex
      ≤ (logMeasurement env registers w).2.logger.bufferSize := by
  have key : ∀ (w2 : World) (b : Prop) [Decidable b],
      w2.logger.bufferIndex = w.logger.bufferIndex + 1 →
      w2.logger.bufferSize = w.logger.bufferSize →
      (if b then flushBuffer env registers w2 else (true, w2)).2.logger.bufferIndex
        ≤ (if b then flushBuffer env registers w2 else (true, w2)).2.logger.bufferSize := by
    intro w2 b _ hidx hsz
    obtain ⟨hok, hfail, -, -, -, hbs, -⟩ := flushBuffer_logger env registers w2
    by_cases hb : b
    · rw [if_pos hb]
      cases hres : (flushBuffer env registers w2).1 with
      | true => rw [hok hres]; exact Nat.zero_le _
      | false => rw [hfail hres, hidx, hsz]; exact h
    · rw [if_neg hb]
      simp only [hidx, hsz]
      exact h
  by_cases g1 : (!w.logger.initialized || w.logger.writeProtected || !env.rtcValid) = true
  · simp only [logMeasurement, g1, if_true]
    exact h.le
  by_cases g2 : (!w.logger.bufferAllocated || decide (w.logger.bufferSize = 0)) = true
  · simp only [logMeasurement, g1, g2, if_true, if_false]
    exact h.le
  by_cases g3 : (!(takeMeasurement env registers w.logger w.accumulator
      (w.logger.buffer w.logger.bufferIndex) w.chip).1) = true
  · simp only [logMeasurement, g1, g2, g3, if_true, if_false]
    exact h.le
  simp only [logMeasurement, g1, g2, g3, if_false]
  exact key _ _ rfl rfl

/-! ## C21 -/

/-- C21: `saveToSettings` called on its own result returns the same flag and
leaves the same accumulator and settings store as the first call; it leaves
the totals, intervals, timers and calibration state of the accumulator as they
were; with a store attached, the store's energy group afterwards holds the
three totals and the two intervals with the meter constant it had, the
calibration group is untouched, and the result is whether the settings file
could be written; with no store attached it returns false and changes
nothing. -/
theorem saveToSettings_idempotent (acc : EnergyAccumulator) :
    saveToSettings (saveToSettings acc).2 = saveToSettings acc ∧
    (saveToSettings acc).2.accumulatedEnergy = acc.accumulatedEnergy ∧
    (saveToSettings acc).2.readInterval = acc.readInterval ∧
    (saveToSettings acc).2.saveInterval = acc.saveInterval ∧
    (saveToSettings acc).2.lastReadTime = acc.lastReadTime ∧
    (saveToSettings acc).2.lastSaveTime = acc.lastSaveTime ∧
    (saveToSettings acc).2.calibState = acc.calibState ∧
    (∀ st, acc.settings = some st →
      ∃ st', (saveToSettings acc).2.settings = some st' ∧
        st'.energyAccumulation =
          { energyReadInterval := acc.readInterval,
            energySaveInterval := acc.saveInterval,
            accumulatedEnergyA := acc.accumulatedEnergy 0,
            accumulatedEnergyB := acc.accumulatedEnergy 1,
            accumulatedEnergyC := acc.accumulatedEnergy 2,
            meterConstant := st.energyAccumulation.meterConstant } ∧
        st'.calibrationRegisters = st.calibrationRegisters ∧
        st'.sdWritable = st.sdWritable ∧
        (saveToSettings acc).1 = st.sdWritable) ∧
    (acc.settings = none → saveToSettings acc = (false, acc)) := by
  cases hs : acc.settings with
  | none =>
    have h : saveToSettings acc = (false, acc) := by
      simp only [saveToSettings, hs]
    refine ⟨by rw [h]; exact h, by rw [h], by rw [h], by rw [h], by rw [h], by rw [h], by rw [h],
      ?_, ?_⟩
    · intro st hst; cases hst
    · intro _; exact h
  | some st =>
    cases hw : st.sdWritable with
    | true =>
      refine ⟨?_, ?_, ?_, ?_, ?_, ?_, ?_, ?_, ?_⟩
      all_goals simp [saveToSettings, saveSettings, hs, hw]
    | false =>
      refine ⟨?_, ?_, ?_, ?_, ?_, ?_, ?_, ?_, ?_⟩
      all_goals simp [saveToSettings, saveSettings, hs, hw]

/-- C21 on the sample store: the first call writes the totals 1.5, 2 and 0 kWh
and the intervals into the store and its file and keeps the meter constant
3200; the second call changes nothing further. -/
theorem saveToSettings_idempotent_witness :
    saveToSettings (saveToSettings meteredAccumulator).2 = saveToSettings meteredAccumulator ∧
    (saveToSettings meteredAccumulator).1 = true ∧
    ((saveToSettings meteredAccumulator).2.settings.map
        (fun s => s.energyAccumulation.accumulatedEnergyA)) = some (3 / 2) ∧
    ((saveToSettings meteredAccumulator).2.settings.map
        (fun s => s.energyAccumulation.meterConstant)) = some 3200 ∧
    ((saveToSettings meteredAccumulator).2.settings.map
        (fun s => s.savedFile.map (fun f => f.1.accumulatedEnergyB))) = some (some 2) :=
  ⟨(saveToSettings_idempotent meteredAccumulator).1, by decide!, by decide!, by decide!,
    by decide!⟩

/-! ## C22 -/

/-- C22 at two measurements taken thirty days apart, 14 November and
14 December 2023, flushed together: the flush succeeds and both rows are in
the November file; the file of the December measurement's own date is never
created. -/
theorem row_written_to_file_of_other_month :
    monthApartRun.logger.bufferIndex = 0 ∧
    getCurrentLogPath (novemberEnv.localtime 1700000000).year
      (novemberEnv.localtime 1700000000).month (novemberEnv.localtime 1700000000).day
      = "/data/2023/11/14.csv" ∧
    getCurrentLogPath (decemberEnv.localtime 1702592000).year
      (decemberEnv.localtime 1702592000).month (decemberEnv.localtime 1702592000).day
      = "/data/2023/12/14.csv" ∧
    rowTimestamps (sdFileContent monthApartRun.sd "/data/2023/11/14.csv")
      = [1700000000, 1702592000] ∧
    sdExists monthApartRun.sd "/data/2023/12/14.csv" = false := by
  refine ⟨?_, ?_, ?_, ?_, ?_⟩ <;> decide!

/-- When any two buffered measurements (and the open file) that agree in the
day of the month agree in the whole date, the measurement loop is the loop that
switches files on every change of date, so each row goes to the file of its
own date; the day-of-month test only goes wrong for a buffer that holds the
same day of two different months. -/
theorem writeRows_follows_date (env : Env) (registers : List RegisterDescriptor)
    (l : SDCardLogger) (data : List Measurement) (cur : Date) (filepath : String) (sd : SDCard)
    (hcur : ∀ m ∈ data, (env.localtime m.timestamp).day = cur.day →
      env.localtime m.timestamp = cur)
    (hpair : ∀ m ∈ data, ∀ m' ∈ data,
      (env.localtime m'.timestamp).day = (env.localtime m.timestamp).day →
      env.localtime m'.timestamp = env.localtime m.timestamp) :
    writeRows env registers l data cur.day filepath sd
      = writeRowsByDate env registers l data cur filepath sd := by
  induction data generalizing cur filepath sd with
  | nil => rfl
  | cons m rest ih =>
    have hrest : ∀ a ∈ rest, ∀ b ∈ rest,
        (env.localtime b.timestamp).day = (env.localtime a.timestamp).day →
        env.localtime b.timestamp = env.localtime a.timestamp :=
      fun a ha b hb => hpair a (List.mem_cons_of_mem _ ha) b (List.mem_cons_of_mem _ hb)
    by_cases hd : (env.localtime m.timestamp).day = cur.day
    · have hdate : env.localtime m.timestamp = cur := hcur m (List.mem_cons_self _ _) hd
      have hne : ¬ (env.localtime m.timestamp).day ≠ cur.day := fun h => h hd
      have hne' : ¬ env.localtime m.timestamp ≠ cur := fun h => h hdate
      simp only [writeRows, writeRowsByDate, if_neg hne, if_neg hne']
      exact ih cur filepath _ (fun a ha => hcur a (List.mem_cons_of_mem _ ha)) hrest
    · have hne' : env.localtime m.timestamp ≠ cur := fun h => hd (by rw [h])
      have hd' : (env.localtime m.timestamp).day ≠ cur.day := hd
      simp only [writeRows, writeRowsByDate, if_pos hd', if_pos hne']
      cases ho : openDatedFile registers l sd (env.localtime m.timestamp) with
      | mk fp sd1 =>
        cases fp with
        | none => rfl
        | some filepath1 =>
          simp only
          exact ih (env.localtime m.timestamp) filepath1 _
            (fun a ha => hpair m (List.mem_cons_self _ _) a (List.mem_cons_of_mem _ ha)) hrest

/-! ## Field lists: splitting at commas and joining with commas -/

theorem splitComma_ne_nil (cs : List Char) : splitComma cs ≠ [] := by
  cases cs with
  | nil => simp [splitComma]
  | cons ch rest =>
    unfold splitComma
    split
    · simp
    · split <;> simp

theorem splitComma_length (cs : List Char) :
    (splitComma cs).length = 1 + (cs.filter (fun ch => ch = ',')).length := by
  induction cs with
  | nil => simp [splitComma]
  | cons ch rest ih =>
    unfold splitComma
    by_cases hc : ch = ','
    · simp only [if_pos hc, List.length_cons, ih]
      simp [hc]
      omega
    · simp only [if_neg hc]
      cases hs : splitComma rest with
      | nil => exact absurd hs (splitComma_ne_nil rest)
      | cons piece pieces =>
        rw [hs] at ih
        simp only [List.length_cons] at ih ⊢
        simp [hc, ih]

theorem splitComma_noComma (cs : List Char) : ∀ p ∈ splitComma cs, ',' ∉ p := by
  induction cs with
  | nil => simp [splitComma]
  | cons ch rest ih =>
    unfold splitComma
    by_cases hc : ch = ','
    · simp only [if_pos hc]
      intro p hp
      rcases List.mem_cons.mp hp with h | h
      · rw [h]; simp
      · exact ih p h
    · simp only [if_neg hc]
      cases hs : splitComma rest with
      | nil => exact absurd hs (splitComma_ne_nil rest)
      | cons piece pieces =>
        rw [hs] at ih
        intro p hp
        rcases List.mem_cons.mp hp with h | h
        · rw [h]
          intro hmem
          rcases List.mem_cons.mp hmem with h1 | h1
          · exact hc h1.symm
          · exact ih piece (List.mem_cons_self _ _) h1
        · exact ih p (List.mem_cons_of_mem _ h)

theorem splitComma_append_comma (p t : List Char) (hp : ',' ∉ p) :
    splitComma (p ++ ',' :: t) = p :: splitComma t := by
  induction p with
  | nil => simp [splitComma]
  | cons ch p ih =>
    have hc : ¬ ch = ',' := fun h => hp (by rw [h]; exact List.mem_cons_self _ _)
    have hp' : ',' ∉ p := fun h => hp (List.mem_cons_of_mem _ h)
    rw [List.cons_append, splitComma, if_neg hc, ih hp']

theorem splitComma_of_noComma (p : List Char) (hp : ',' ∉ p) : splitComma p = [p] := by
  induction p with
  | nil => rfl
  | cons ch p ih =>
    have hc : ¬ ch = ',' := fun h => hp (by rw [h]; exact List.mem_cons_self _ _)
    have hp' : ',' ∉ p := fun h => hp (List.mem_cons_of_mem _ h)
    rw [splitComma, if_neg hc, ih hp']

theorem splitComma_joinComma (ps : List (List Char)) (hne : ps ≠ [])
    (h : ∀ p ∈ ps, ',' ∉ p) : splitComma (joinComma ps) = ps := by
  induction ps with
  | nil => exact absurd rfl hne
  | cons p rest ih =>
    cases rest with
    | nil => exact splitComma_of_noComma p (h p (List.mem_cons_self _ _))
    | cons q rest =>
      rw [joinComma, splitComma_append_comma _ _ (h p (List.mem_cons_self _ _)),
        ih (by simp) (fun x hx => h x (List.mem_cons_of_mem _ hx))]

theorem joinComma_splitComma (cs : List Char) : joinComma (splitComma cs) = cs := by
  induction cs with
  | nil => rfl
  | cons ch rest ih =>
    unfold splitComma
    by_cases hc : ch = ','
    · simp only [if_pos hc]
      cases hs : splitComma rest with
      | nil => exact absurd hs (splitComma_ne_nil rest)
      | cons piece pieces =>
        rw [hs] at ih
        rw [joinComma, ih, hc]
        rfl
    · simp only [if_neg hc]
      cases hs : splitComma rest with
      | nil => exact absurd hs (splitComma_ne_nil rest)
      | cons piece pieces =>
        rw [hs] at ih
        cases pieces with
        | nil =>
          simp only [joinComma] at ih ⊢
          rw [ih]
        | cons q more =>
          simp only [joinComma] at ih ⊢
          rw [← ih]
          rfl

theorem joinComma_cons (p : List Char) (rest : List (List Char)) :
    joinComma (p :: rest) = p ++ (rest.map (fun q => ',' :: q)).flatten := by
  induction rest generalizing p with
  | nil => simp [joinComma]
  | cons q rest ih =>
    rw [joinComma, ih q]
    simp

theorem intercalate_go_data (acc : String) (names : List String) :
    (String.intercalate.go acc "," names).data
      = acc.data ++ (names.map (fun q => ',' :: q.data)).flatten := by
  induction names generalizing acc with
  | nil => simp [String.intercalate.go]
  | cons a rest ih =>
    rw [String.intercalate.go, ih]
    simp [String.data_append]

theorem intercalate_data (names : List String) :
    (",".intercalate names).data = joinComma (names.map String.data) := by
  cases names with
  | nil => rfl
  | cons a rest =>
    rw [String.intercalate, intercalate_go_data, List.map_cons, joinComma_cons, List.map_map]
    rfl

/-! ## Field lists: trimming -/

theorem mem_of_mem_trimChars (p : List Char) (x : Char) (hx : x ∈ trimChars p) : x ∈ p := by
  unfold trimChars at hx
  rw [List.mem_reverse] at hx
  have h1 := (List.dropWhile_sublist isSpaceChar).subset hx
  rw [List.mem_reverse] at h1
  exact (List.dropWhile_sublist isSpaceChar).subset h1

theorem trimChars_eq_rdropWhile (p : List Char) :
    trimChars p = (p.dropWhile isSpaceChar).rdropWhile isSpaceChar := rfl

theorem dropWhile_eq_self_of_prefix (f : Char → Bool) (q T : List Char)
    (hq : q.dropWhile f = q) (hpre : T <+: q) : T.dropWhile f = T := by
  obtain ⟨t, rfl⟩ := hpre
  cases T with
  | nil => rfl
  | cons a T =>
    rw [List.dropWhile_eq_self_iff] at hq ⊢
    intro _
    have := hq (by simp)
    simpa using this

theorem trimChars_idempotent (p : List Char) : trimChars (trimChars p) = trimChars p := by
  have hhead : (trimChars p).dropWhile isSpaceChar = trimChars p :=
    dropWhile_eq_self_of_prefix isSpaceChar (p.dropWhile isSpaceChar) (trimChars p)
      (List.dropWhile_idempotent isSpaceChar p)
      (List.rdropWhile_prefix isSpaceChar (p.dropWhile isSpaceChar))
  rw [trimChars_eq_rdropWhile (trimChars p), hhead, trimChars_eq_rdropWhile,
    List.rdropWhile_idempotent]
/-! ## C23 -/

theorem parseFieldList_eq (env : Env) (s : String) (l : SDCardLogger) :
    parseFieldList env s l
      = if (!env.allocFieldNames (1 + commaCount s)) = true then
          (false, { freeFieldNames l with fieldNames := [], fieldCount := 0 })
        else
          (true,
            { freeFieldNames l with
              fieldNames := fieldNamesOf s, fieldCount := 1 + commaCount s }) := rfl

theorem setLogFields_eq (env : Env) (s : String) (l : SDCardLogger)
    (hg : (l.loggingEnabled && decide (l.bufferIndex > 0)) = false) :
    setLogFields env s l = parseFieldList env s l := by
  unfold setLogFields
  rw [hg]
  rfl

theorem setLogFields_accepted (env : Env) (s : String) (l : SDCardLogger)
    (h : (setLogFields env s l).1 = true) :
    (l.loggingEnabled && decide (l.bufferIndex > 0)) = false ∧
    env.allocFieldNames (1 + commaCount s) = true ∧
    (setLogFields env s l).2
      = { l with fieldNames := fieldNamesOf s, fieldCount := 1 + commaCount s } := by
  cases hg : (l.loggingEnabled && decide (l.bufferIndex > 0)) with
  | true =>
    unfold setLogFields at h
    rw [hg] at h
    exact absurd h (by simp)
  | false =>
    rw [setLogFields_eq env s l hg, parseFieldList_eq] at h ⊢
    cases ha : env.allocFieldNames (1 + commaCount s) with
    | false =>
      rw [ha] at h
      exact absurd h (by simp)
    | true =>
      refine ⟨rfl, rfl, ?_⟩
      rfl

theorem setLogFields_not_refused (env : Env) (s : String) (l : SDCardLogger)
    (hg : (l.loggingEnabled && decide (l.bufferIndex > 0)) = false) :
    (setLogFields env s l).1 = env.allocFieldNames (1 + commaCount s) := by
  rw [setLogFields_eq env s l hg, parseFieldList_eq]
  cases ha : env.allocFieldNames (1 + commaCount s) <;> rfl

theorem fieldNamesOf_length (s : String) : (fieldNamesOf s).length = 1 + commaCount s := by
  simp only [fieldNamesOf, commaCount, List.length_map, splitComma_length]

/-- Whether a read succeeds is decided by the descriptor table alone. -/
theorem readRegister_success (registers : List RegisterDescriptor) (name : String) (c : Chip) :
    (readRegister registers name c).2.1
      = match findRegister registers name with
        | none => false
        | some reg => decide (reg.rwType ≠ RWType.RW_WRITE) := by
  cases hf : findRegister registers name with
  | none => simp [readRegister, readRegisterRaw, hf]
  | some reg =>
    by_cases hrw : reg.rwType = RWType.RW_WRITE
    · simp [readRegister, readRegisterRaw, hf, hrw]
    · simp [readRegister, readRegisterRaw, hf, hrw]

theorem readFields_names (registers : List RegisterDescriptor) (names : List String) (c : Chip) :
    (readFields registers names c).1.map (fun f => f.name) = names := by
  induction names generalizing c with
  | nil => rfl
  | cons n rest ih => simp [readFields, ih]

theorem readFields_valid (registers : List RegisterDescriptor) (names : List String)
    (c c0 : Chip) :
    ∀ f ∈ (readFields registers names c).1, f.valid = (readRegister registers f.name c0).2.1 := by
  induction names generalizing c with
  | nil => simp [readFields]
  | cons n rest ih =>
    intro f hf
    simp only [readFields, List.mem_cons] at hf
    rcases hf with h | h
    · rw [h]
      simp only
      rw [readRegister_success, readRegister_success registers n c0]
    · exact ih _ f h

/-- C23: on an empty buffer the result of `setLogFields` is the outcome of the
allocation of the name array, whatever names the list holds and whatever the
descriptor table says about them; when it returns true the configured names
are the trimmed pieces of the list, all of them; a capture whose field
allocation succeeds then returns true with one entry per configured name, in
configured order, and the validity flag of each entry is the success flag of
`readRegister` for its name, so an entry whose name is not in the table or
names a write-only register is recorded as invalid. -/
theorem invalid_names_accepted_and_recorded (env : Env) (registers : List RegisterDescriptor)
    (fieldList : String) (l : SDCardLogger) (acc : Option EnergyAccumulator) (m : Measurement)
    (c : Chip) :
    (l.bufferIndex = 0 →
      (setLogFields env fieldList l).1 = env.allocFieldNames (1 + commaCount fieldList)) ∧
    ((setLogFields env fieldList l).1 = true →
      (setLogFields env fieldList l).2.fieldNames = fieldNamesOf fieldList ∧
      (setLogFields env fieldList l).2.fieldCount = (fieldNamesOf fieldList).length ∧
      (env.allocFields (setLogFields env fieldList l).2.fieldCount = true →
        (takeMeasurement env registers (setLogFields env fieldList l).2 acc m c).1 = true ∧
        ∃ fs,
          (takeMeasurement env registers (setLogFields env fieldList l).2 acc m c).2.1.fields
            = some fs ∧
          (takeMeasurement env registers (setLogFields env fieldList l).2 acc m c).2.1.fieldCount
            = fs.length ∧
          fs.map (fun f => f.name) = fieldNamesOf fieldList ∧
          fs.map (fun f => f.valid)
            = (fieldNamesOf fieldList).map (fun n => (readRegister registers n c).2.1) ∧
          ∀ f ∈ fs,
            (findRegister registers f.name = none ∨
              ∃ reg, findRegister registers f.name = some reg ∧
                reg.rwType = RWType.RW_WRITE) →
            f.valid = false)) := by
  constructor
  · intro h0
    exact setLogFields_not_refused env fieldList l (by simp [h0])
  · intro hok
    obtain ⟨-, -, hl⟩ := setLogFields_accepted env fieldList l hok
    rw [hl]
    refine ⟨rfl, (fieldNamesOf_length fieldList).symm, ?_⟩
    intro halloc
    have halloc' : env.allocFields (1 + commaCount fieldList) = true := halloc
    have htake : (fieldNamesOf fieldList).take (1 + commaCount fieldList)
        = fieldNamesOf fieldList := by
      rw [← fieldNamesOf_length]; exact List.take_length _
    simp only [takeMeasurement, halloc', htake, Bool.not_true, Bool.false_eq_true, if_false]
    refine ⟨trivial, _, rfl, ?_, readFields_names registers _ c, ?_, ?_⟩
    · have := congrArg List.length (readFields_names registers (fieldNamesOf fieldList) c)
      rw [List.length_map, fieldNamesOf_length] at this
      exact this.symm
    · have hv := readFields_valid registers (fieldNamesOf fieldList) c c
      have hn := readFields_names registers (fieldNamesOf fieldList) c
      have : (readFields registers (fieldNamesOf fieldList) c).1.map (fun f => f.valid)
          = (readFields registers (fieldNamesOf fieldList) c).1.map
              (fun f => (readRegister registers f.name c).2.1) :=
        List.map_congr_left hv
      rw [this]
      conv_rhs => rw [← hn]
      rw [List.map_map]
      rfl
    · intro f hf hbad
      rw [readFields_valid registers (fieldNamesOf fieldList) c c f hf, readRegister_success]
      rcases hbad with h | ⟨reg, h, hrw⟩
      · rw [h]
      · rw [h]; simp [hrw]

/-- C23 on the logger table with a write-only register added: the list
`UrmsA, NoSuchReg,SoftReset` is accepted on the fresh logger, the three names
are kept, and a capture records the voltage as valid and the unknown and the
write-only name as invalid. -/
theorem invalid_names_accepted_and_recorded_witness :
    (setLogFields sampleEnv "UrmsA, NoSuchReg,SoftReset" (constructLogger sampleEnv 4 (-1))).1
      = sampleEnv.allocFieldNames (1 + commaCount "UrmsA, NoSuchReg,SoftReset") ∧
    (setLogFields sampleEnv "UrmsA, NoSuchReg,SoftReset" (constructLogger sampleEnv 4 (-1))).1
      = true ∧
    (setLogFields sampleEnv "UrmsA, NoSuchReg,SoftReset"
      (constructLogger sampleEnv 4 (-1))).2.fieldNames = ["UrmsA", "NoSuchReg", "SoftReset"] ∧
    (takeMeasurement sampleEnv writeOnlyRegisters
      (setLogFields sampleEnv "UrmsA, NoSuchReg,SoftReset" (constructLogger sampleEnv 4 (-1))).2
      none emptyMeasurement mainsChip).2.1.fields.map
        (fun fs => fs.map (fun f => (f.name, f.value, f.valid)))
      = some [("UrmsA", 230, true), ("NoSuchReg", 0, false), ("SoftReset", 0, false)] :=
  ⟨(invalid_names_accepted_and_recorded sampleEnv writeOnlyRegisters "UrmsA, NoSuchReg,SoftReset"
      (constructLogger sampleEnv 4 (-1)) none emptyMeasurement mainsChip).1 (by decide!),
    by decide!, by decide!, by decide!⟩

/-! ## C30 -/

theorem fieldNamesOf_data (s : String) :
    (fieldNamesOf s).map String.data = (splitComma s.toList).map trimChars := by
  simp only [fieldNamesOf, List.map_map]
  rfl

theorem intercalate_fieldNamesOf_data (s : String) :
    (",".intercalate (fieldNamesOf s)).data = joinComma ((splitComma s.toList).map trimChars) := by
  rw [intercalate_data, fieldNamesOf_data]

theorem splitComma_intercalate_fieldNamesOf (s : String) :
    splitComma (",".intercalate (fieldNamesOf s)).toList = (splitComma s.toList).map trimChars := by
  show splitComma (",".intercalate (fieldNamesOf s)).data = _
  rw [intercalate_fieldNamesOf_data]
  apply splitComma_joinComma
  · intro h
    exact splitComma_ne_nil s.toList (List.map_eq_nil_iff.mp h)
  · intro p hp
    obtain ⟨q, hq, rfl⟩ := List.mem_map.mp hp
    exact fun hmem => splitComma_noComma s.toList q hq (mem_of_mem_trimChars q ',' hmem)

theorem fieldNamesOf_intercalate (s : String) :
    fieldNamesOf (",".intercalate (fieldNamesOf s)) = fieldNamesOf s := by
  rw [fieldNamesOf, splitComma_intercalate_fieldNamesOf, List.map_map, fieldNamesOf]
  apply List.map_congr_left
  intro p _
  simp only [Function.comp, trimChars_idempotent]

theorem commaCount_intercalate (s : String) :
    commaCount (",".intercalate (fieldNamesOf s)) = commaCount s := by
  have h1 := splitComma_length (",".intercalate (fieldNamesOf s)).toList
  rw [splitComma_intercalate_fieldNamesOf, List.length_map, splitComma_length] at h1
  simp only [commaCount]
  omega

/-- C30: when `setLogFields` accepts the list `s`, the configured field count
is the number of commas of `s` plus one; `getLogFields` returns the configured
names (the pieces of `s` between commas, each with surrounding whitespace
removed) in order, joined by single commas; `setLogFields` on that result is
accepted and leaves the logger exactly as it is; and when no piece of `s` has
surrounding whitespace, `getLogFields` returns `s`. -/
theorem getLogFields_fixed_point (env : Env) (s : String) (l : SDCardLogger)
    (hok : (setLogFields env s l).1 = true) :
    (setLogFields env s l).2.fieldCount = commaCount s + 1 ∧
    (setLogFields env s l).2.fieldNames = fieldNamesOf s ∧
    getLogFields (setLogFields env s l).2 = ",".intercalate (fieldNamesOf s) ∧
    (getLogFields (setLogFields env s l).2).toList
      = joinComma ((splitComma s.toList).map trimChars) ∧
    setLogFields env (getLogFields (setLogFields env s l).2) (setLogFields env s l).2
      = (true, (setLogFields env s l).2) ∧
    ((∀ piece ∈ splitComma s.toList, trimChars piece = piece) →
      getLogFields (setLogFields env s l).2 = s) := by
  obtain ⟨hg, halloc, hl⟩ := setLogFields_accepted env s l hok
  have htake : (fieldNamesOf s).take (1 + commaCount s) = fieldNamesOf s := by
    rw [← fieldNamesOf_length]; exact List.take_length _
  have hget : getLogFields (setLogFields env s l).2 = ",".intercalate (fieldNamesOf s) := by
    rw [hl]
    simp only [getLogFields, htake]
  refine ⟨by rw [hl]; exact Nat.add_comm _ _, by rw [hl], hget, ?_, ?_, ?_⟩
  · rw [hget]
    exact intercalate_fieldNamesOf_data s
  · rw [hget, hl]
    have hg' : (({ l with fieldNames := fieldNamesOf s, fieldCount := 1 + commaCount s }
        : SDCardLogger).loggingEnabled &&
        decide (({ l with fieldNames := fieldNamesOf s, fieldCount := 1 + commaCount s }
          : SDCardLogger).bufferIndex > 0)) = false := hg
    rw [setLogFields_eq env _ _ hg', parseFieldList_eq, commaCount_intercalate,
      fieldNamesOf_intercalate, halloc]
    rfl
  · intro hclean
    rw [hget]
    apply String.ext
    rw [intercalate_fieldNamesOf_data]
    have : (splitComma s.toList).map trimChars = splitComma s.toList := by
      conv_rhs => rw [← List.map_id (splitComma s.toList)]
      exact List.map_congr_left (fun p hp => hclean p hp)
    rw [this, joinComma_splitComma]
    rfl

/-- C30 on the fresh logger: the list with blanks around its two names gives
two fields read back as `UrmsA,Freq`, which configures the same again; a list
without blanks, here with an empty name in the middle, is read back as it was
given. -/
theorem getLogFields_fixed_point_witness :
    (setLogFields sampleEnv " UrmsA , Freq" (constructLogger sampleEnv 4 (-1))).2.fieldCount = 2 ∧
    getLogFields (setLogFields sampleEnv " UrmsA , Freq" (constructLogger sampleEnv 4 (-1))).2
      = "UrmsA,Freq" ∧
    setLogFields sampleEnv
        (getLogFields (setLogFields sampleEnv " UrmsA , Freq" (constructLogger sampleEnv 4 (-1))).2)
        (setLogFields sampleEnv " UrmsA , Freq" (constructLogger sampleEnv 4 (-1))).2
      = (true, (setLogFields sampleEnv " UrmsA , Freq" (constructLogger sampleEnv 4 (-1))).2) ∧
    getLogFields (setLogFields sampleEnv "UrmsA,,Freq" (constructLogger sampleEnv 4 (-1))).2
      = "UrmsA,,Freq" :=
  ⟨by decide!, by decide!,
    (getLogFields_fixed_point sampleEnv " UrmsA , Freq" (constructLogger sampleEnv 4 (-1))
      (by decide!)).2.2.2.2.1,
    (getLogFields_fixed_point sampleEnv "UrmsA,,Freq" (constructLogger sampleEnv 4 (-1))
      (by decide!)).2.2.2.2.2 (by decide!)⟩

/-! ## C24 -/

theorem startCalibrationPhase_eq (registers : List RegisterDescriptor) (acc : EnergyAccumulator)
    (phaseMask : Nat) (c : Chip) (phase : Nat) (g : String)
    (hg : getPhaseRegisterName phase true = some g) :
    startCalibrationPhase registers acc phaseMask c phase
      = if phaseMask.testBit phase = true then
          (readEnergyRegister registers acc phase (writeRegisterRaw registers g 0 c).2).2
        else c := by
  unfold startCalibrationPhase
  by_cases hb : phaseMask.testBit phase = true
  · have hne : phaseMask &&& (1 <<< phase) ≠ 0 := by
      intro h0
      rw [(and_one_shiftLeft_eq_zero_iff _ _).mp h0] at hb
      exact absurd hb (by decide)
    simp only [if_pos hne, if_pos hb, hg]
  · have h0 : ¬ (phaseMask &&& (1 <<< phase) ≠ 0) := by
      intro hne
      exact hne ((and_one_shiftLeft_eq_zero_iff _ _).mpr (by simpa using hb))
    simp only [if_neg h0, if_neg hb]

theorem writeRegister_word (p : Platform) (registers : List RegisterDescriptor) (name : String)
    (reg : RegisterDescriptor) (q : ℚ) (v : Nat) (c : Chip)
    (hf : findRegister registers name = some reg) (hrw : reg.rwType ≠ RWType.RW_READ)
    (hty : IsWordRegister reg) (hs : reg.scale = 1) (hq : q = (v : ℚ)) (hv : v < 2 ^ 32) :
    (writeRegister p registers name q c).2.log
      = c.log ++ [BusOp.write (busCell reg) (v % 65536)] := by
  have hs0 : ¬ reg.scale = 0 := by rw [hs]; norm_num
  have hfl : floatToU32 p (q / reg.scale) = v := by
    rw [hs, div_one, hq]
    rw [(floatToU32_of_nonneg p (v : ℚ) (Nat.cast_nonneg v) (by exact_mod_cast hv)).1]
    simp
  simp only [writeRegister, hf, if_neg hrw, if_neg hs0, hfl]
  rcases hty with h | h <;> simp [writeValue, h, write16, busCell]

theorem writeRegisterRaw_word (registers : List RegisterDescriptor) (name : String)
    (reg : RegisterDescriptor) (c : Chip)
    (hf : findRegister registers name = some reg) (hrw : reg.rwType ≠ RWType.RW_READ)
    (hty : IsWordRegister reg) :
    (writeRegisterRaw registers name 0 c).2.log = c.log ++ [BusOp.write (busCell reg) 0] := by
  simp only [writeRegisterRaw, hf, if_neg hrw]
  rcases hty with h | h <;> simp [writeValue, h, write16, busCell]

theorem readEnergyRegister_word (registers : List RegisterDescriptor) (acc : EnergyAccumulator)
    (phase : Nat) (name : String) (reg : RegisterDescriptor) (c : Chip)
    (hn : getPhaseRegisterName phase false = some name)
    (hf : findRegister registers name = some reg) (hrw : reg.rwType ≠ RWType.RW_WRITE)
    (hty : IsWordRegister reg) :
    (readEnergyRegister registers acc phase c).2.log = c.log ++ [BusOp.read (busCell reg)] := by
  simp only [readEnergyRegister, hn, readRegister_of_readable registers name reg c hf hrw]
  rcases hty with h | h <;> simp [readValue, h, read16, busCell]

/-- C25: when `startCalibration` returns true, the calibrating flag is set, the
recorded mask is the argument and the start time is `now`; the chip afterwards
is the chip after the write of 0x55AA to `CfgRegAccEn`, then for phase A, B, C
in turn, when the phase is selected in the mask and only then, the raw write
of 0 to its gain register followed by one read of its energy register, then
the write of 0x0000 to `CfgRegAccEn`.  On a table in which these seven
registers are plain 16-bit words (the lock register writable with scale 1, the
gain registers writable, the energy registers readable), the transactions on
the bus are exactly: the unlock write, per selected phase the gain write and
the energy read, the lock write. -/
theorem startCalibration_selected_phases (p : Platform) (registers : List RegisterDescriptor)
    (now phaseMask : Nat) (acc : EnergyAccumulator) (c : Chip)
    (hok : (startCalibration p registers now phaseMask acc c).1 = true) :
    (startCalibration p registers now phaseMask acc c).2.1.calibState
      = { calibrating := true, phaseMask := phaseMask, startTime := now } ∧
    (∀ (stepA stepB stepC : Chip → Chip),
      (stepA = fun ch => if phaseMask.testBit 0 = true then
        (readEnergyRegister registers acc 0 (writeRegisterRaw registers "PQGainA" 0 ch).2).2
        else ch) →
      (stepB = fun ch => if phaseMask.testBit 1 = true then
        (readEnergyRegister registers acc 1 (writeRegisterRaw registers "PQGainB" 0 ch).2).2
        else ch) →
      (stepC = fun ch => if phaseMask.testBit 2 = true then
        (readEnergyRegister registers acc 2 (writeRegisterRaw registers "PQGainC" 0 ch).2).2
        else ch) →
      (startCalibration p registers now phaseMask acc c).2.2
        = (writeRegister p registers "CfgRegAccEn" 0x0000
            (stepC (stepB (stepA (writeRegister p registers "CfgRegAccEn" 0x55AA c).2)))).2) ∧
    (∀ (cfg : RegisterDescriptor) (gain energy : Nat → RegisterDescriptor),
      (findRegister registers "CfgRegAccEn" = some cfg ∧ IsWordRegister cfg ∧
        cfg.rwType ≠ RWType.RW_READ ∧ cfg.scale = 1) →
      (∀ k name, getPhaseRegisterName k true = some name →
        findRegister registers name = some (gain k) ∧ IsWordRegister (gain k) ∧
          (gain k).rwType ≠ RWType.RW_READ) →
      (∀ k name, getPhaseRegisterName k false = some name →
        findRegister registers name = some (energy k) ∧ IsWordRegister (energy k) ∧
          (energy k).rwType ≠ RWType.RW_WRITE) →
      (startCalibration p registers now phaseMask acc c).2.2.log
        = c.log ++ [BusOp.write (busCell cfg) 0x55AA]
            ++ phaseStartOps phaseMask gain energy 0
            ++ phaseStartOps phaseMask gain energy 1
            ++ phaseStartOps phaseMask gain energy 2
            ++ [BusOp.write (busCell cfg) 0]) := by
  by_cases h1 : acc.calibState.calibrating = true
  · simp [startCalibration, h1] at hok
  by_cases h2 : phaseMask = 0 ∨ phaseMask > 0x07
  · simp only [startCalibration, if_neg h1, if_pos h2] at hok
    exact absurd hok (by simp)
  have hchip : (startCalibration p registers now phaseMask acc c).2.2
      = (writeRegister p registers "CfgRegAccEn" 0x0000
          (startCalibrationPhase registers acc phaseMask
            (startCalibrationPhase registers acc phaseMask
              (startCalibrationPhase registers acc phaseMask
                (writeRegister p registers "CfgRegAccEn" 0x55AA c).2 0) 1) 2)).2 := by
    simp only [startCalibration, if_neg h1, if_neg h2, List.foldl]
  refine ⟨?_, ?_, ?_⟩
  · simp only [startCalibration, if_neg h1, if_neg h2]
  · intro stepA stepB stepC hA hB hC
    rw [hchip, startCalibrationPhase_eq _ _ _ _ 0 "PQGainA" rfl,
      startCalibrationPhase_eq _ _ _ _ 1 "PQGainB" rfl,
      startCalibrationPhase_eq _ _ _ _ 2 "PQGainC" rfl, hA, hB, hC]
  · intro cfg gain energy hcfg hgain henergy
    obtain ⟨hcf, hcw, hcrw, hcs⟩ := hcfg
    have hstep : ∀ (k : Nat) (g : String) (ch : Chip), getPhaseRegisterName k true = some g →
        (∃ e, getPhaseRegisterName k false = some e) →
        (startCalibrationPhase registers acc phaseMask ch k).log
          = ch.log ++ phaseStartOps phaseMask gain energy k := by
      intro k g ch hg he
      obtain ⟨e, he⟩ := he
      obtain ⟨hgf, hgw, hgrw⟩ := hgain k g hg
      obtain ⟨hef, hew, herw⟩ := henergy k e he
      rw [startCalibrationPhase_eq _ _ _ _ k g hg]
      unfold phaseStartOps
      by_cases hb : phaseMask.testBit k = true
      · rw [if_pos hb, if_pos hb,
          readEnergyRegister_word registers acc k e (energy k) _ he hef herw hew,
          writeRegisterRaw_word registers g (gain k) ch hgf hgrw hgw]
        simp
      · rw [if_neg hb, if_neg hb]
        simp
    rw [hchip,
      writeRegister_word p registers "CfgRegAccEn" cfg 0x0000 0 _ hcf hcrw hcw hcs (by norm_num)
        (by norm_num),
      hstep 2 "PQGainC" _ rfl ⟨_, rfl⟩, hstep 1 "PQGainB" _ rfl ⟨_, rfl⟩,
      hstep 0 "PQGainA" _ rfl ⟨_, rfl⟩,
      writeRegister_word p registers "CfgRegAccEn" cfg 0x55AA 0x55AA c hcf hcrw hcw hcs
        (by norm_num) (by norm_num)]

theorem sampleRegisters_gain_words :
    ∀ k name, getPhaseRegisterName k true = some name →
      findRegister sampleRegisters name = some (sampleGain k) ∧ IsWordRegister (sampleGain k) ∧
        (sampleGain k).rwType ≠ RWType.RW_READ := by
  intro k name hn
  match k, hn with
  | 0, hn =>
    obtain rfl : "PQGainA" = name := by simpa [getPhaseRegisterName] using hn
    exact ⟨by simp [findRegister, sampleRegisters, reg16, reg32, List.find?, sampleGain],
      Or.inr rfl, by decide⟩
  | 1, hn =>
    obtain rfl : "PQGainB" = name := by simpa [getPhaseRegisterName] using hn
    exact ⟨by simp [findRegister, sampleRegisters, reg16, reg32, List.find?, sampleGain],
      Or.inr rfl, by decide⟩
  | 2, hn =>
    obtain rfl : "PQGainC" = name := by simpa [getPhaseRegisterName] using hn
    exact ⟨by simp [findRegister, sampleRegisters, reg16, reg32, List.find?, sampleGain],
      Or.inr rfl, by decide⟩
  | _ + 3, hn => simp [getPhaseRegisterName] at hn

theorem sampleRegisters_energy_words :
    ∀ k name, getPhaseRegisterName k false = some name →
      findRegister sampleRegisters name = some (sampleEnergy k) ∧
        IsWordRegister (sampleEnergy k) ∧ (sampleEnergy k).rwType ≠ RWType.RW_WRITE := by
  intro k name hn
  match k, hn with
  | 0, hn =>
    obtain rfl : "APenergyA" = name := by simpa [getPhaseRegisterName] using hn
    exact ⟨by simp [findRegister, sampleRegisters, reg16, reg32, List.find?, sampleEnergy],
      Or.inl rfl, by decide⟩
  | 1, hn =>
    obtain rfl : "APenergyB" = name := by simpa [getPhaseRegisterName] using hn
    exact ⟨by simp [findRegister, sampleRegisters, reg16, reg32, List.find?, sampleEnergy],
      Or.inl rfl, by decide⟩
  | 2, hn =>
    obtain rfl : "APenergyC" = name := by simpa [getPhaseRegisterName] using hn
    exact ⟨by simp [findRegister, sampleRegisters, reg16, reg32, List.find?, sampleEnergy],
      Or.inl rfl, by decide⟩
  | _ + 3, hn => simp [getPhaseRegisterName] at hn

/-- C25 on the sample table with mask `0b101`: the session is recorded with
that mask, and the bus sees the unlock write, the gain write and the energy
read of phase A, those of phase C, and the lock write; nothing for phase B. -/
theorem startCalibration_selected_phases_witness :
    (startCalibration zeroPlatform sampleRegisters 42 5 initialAccumulator zeroChip).1 = true ∧
    (startCalibration zeroPlatform sampleRegisters 42 5 initialAccumulator zeroChip).2.1.calibState
      = { calibrating := true, phaseMask := 5, startTime := 42 } ∧
    (startCalibration zeroPlatform sampleRegisters 42 5 initialAccumulator zeroChip).2.2.log
      = zeroChip.log
          ++ [BusOp.write
                (busCell (reg16 "CfgRegAccEn" 0x7F RWType.RW_READWRITE RegType.DT_UINT16 1))
                0x55AA]
          ++ phaseStartOps 5 sampleGain sampleEnergy 0
          ++ phaseStartOps 5 sampleGain sampleEnergy 1
          ++ phaseStartOps 5 sampleGain sampleEnergy 2
          ++ [BusOp.write
                (busCell (reg16 "CfgRegAccEn" 0x7F RWType.RW_READWRITE RegType.DT_UINT16 1)) 0] ∧
    (startCalibration zeroPlatform sampleRegisters 42 5 initialAccumulator zeroChip).2.2.log
      = [BusOp.write 0x7F 0x55AA, BusOp.write 0x47 0, BusOp.read 0x81, BusOp.write 0x4B 0,
         BusOp.read 0x83, BusOp.write 0x7F 0] :=
  ⟨by decide!,
    (startCalibration_selected_phases zeroPlatform sampleRegisters 42 5 initialAccumulator
      zeroChip (by decide!)).1,
    (startCalibration_selected_phases zeroPlatform sampleRegisters 42 5 initialAccumulator
      zeroChip (by decide!)).2.2
      (reg16 "CfgRegAccEn" 0x7F RWType.RW_READWRITE RegType.DT_UINT16 1) sampleGain sampleEnergy
      ⟨by simp [findRegister, sampleRegisters, reg16, reg32, List.find?], Or.inl rfl, by decide,
        rfl⟩
      sampleRegisters_gain_words sampleRegisters_energy_words,
    by decide!⟩

/-! ## C26 -/

/-- C26, the claim fails without a card-detect pin: the card is mounted and a
measurement is buffered; the drop of the supply flushes and unmounts; when the
supply is back the power-lost flag is cleared, but the card, which would
mount, is not mounted again, and the settings-need-reload flag stays clear. -/
theorem no_remount_without_cardDetect_pin :
    noPinLogging.logger.cdPin < 0 ∧
    noPinLogging.logger.initialized = true ∧ noPinLogging.sd.mounted = true ∧
    noPinLogging.logger.bufferIndex = 1 ∧
    noPinBrownout.logger.powerLost = true ∧ noPinBrownout.sd.mounted = false ∧
    noPinRecovered.logger.powerLost = false ∧
    noPinRecovered.logger.initialized = false ∧ noPinRecovered.sd.mounted = false ∧
    noPinRecovered.sd.endCount = 1 ∧
    (settingsNeedReload noPinRecovered.logger).1 = false ∧
    (mountCard noPinRecovered).1 = true := by
  refine ⟨?_, ?_, ?_, ?_, ?_, ?_, ?_, ?_, ?_, ?_, ?_, ?_⟩ <;> decide!

theorem mountCard_frame (w : World) :
    (mountCard w).1 = (w.sd.beginOk 1 || w.sd.beginOk 2 || w.sd.beginOk 3) ∧
    (mountCard w).2.sd.mounted = (mountCard w).1 ∧
    (mountCard w).2.sd.beginOk = w.sd.beginOk ∧
    (mountCard w).2.logger.cardPresent = w.logger.cardPresent ∧
    (mountCard w).2.logger.writeProtected = w.logger.writeProtected := by
  unfold mountCard printCardInfo
  cases hb : (w.sd.beginOk 1 || w.sd.beginOk 2 || w.sd.beginOk 3)
  · simp
  · cases hc : w.sd.cardTypeNone <;> simp [hc]

theorem unmountCard_frame (w : World) :
    (unmountCard w).sd.beginOk = w.sd.beginOk ∧
    (unmountCard w).logger.cardPresent = w.logger.cardPresent ∧
    (unmountCard w).logger.writeProtected = w.logger.writeProtected := by
  unfold unmountCard sdEnd
  cases w.logger.initialized <;> simp

/-- What the card poll leaves in the presence and write-protect flags; it never
changes how the card answers `SD.begin`. -/
theorem checkCardStatus_flags (env : Env) (w : World) :
    (checkCardStatus env w).logger.cardPresent
      = (if w.logger.cdPin ≥ 0 then !env.pinHigh w.logger.cdPin else w.logger.initialized) ∧
    (checkCardStatus env w).logger.writeProtected
      = (if w.logger.wpPin ≥ 0 ∧
            (if w.logger.cdPin ≥ 0 then !env.pinHigh w.logger.cdPin
              else w.logger.initialized) = true
          then env.pinHigh w.logger.wpPin else false) ∧
    (checkCardStatus env w).sd.beginOk = w.sd.beginOk := by
  have key : ∀ (w1 : World) (b1 : Bool) (b2 : World → Bool),
      ((if b2 (if b1 = true then (mountCard w1).2 else w1) = true then
          unmountCard (if b1 = true then (mountCard w1).2 else w1)
        else (if b1 = true then (mountCard w1).2 else w1)).logger.cardPresent
        = w1.logger.cardPresent) ∧
      ((if b2 (if b1 = true then (mountCard w1).2 else w1) = true then
          unmountCard (if b1 = true then (mountCard w1).2 else w1)
        else (if b1 = true then (mountCard w1).2 else w1)).logger.writeProtected
        = w1.logger.writeProtected) ∧
      ((if b2 (if b1 = true then (mountCard w1).2 else w1) = true then
          unmountCard (if b1 = true then (mountCard w1).2 else w1)
        else (if b1 = true then (mountCard w1).2 else w1)).sd.beginOk
        = w1.sd.beginOk) := by
    intro w1 b1 b2
    obtain ⟨-, -, m1, m2, m3⟩ := mountCard_frame w1
    have hm : (if b1 = true then (mountCard w1).2 else w1).sd.beginOk = w1.sd.beginOk ∧
        (if b1 = true then (mountCard w1).2 else w1).logger.cardPresent
          = w1.logger.cardPresent ∧
        (if b1 = true then (mountCard w1).2 else w1).logger.writeProtected
          = w1.logger.writeProtected := by
      cases b1
      · exact ⟨rfl, rfl, rfl⟩
      · exact ⟨m1, m2, m3⟩
    obtain ⟨u1, u2, u3⟩ := unmountCard_frame (if b1 = true then (mountCard w1).2 else w1)
    cases b2 (if b1 = true then (mountCard w1).2 else w1)
    · exact ⟨hm.2.1, hm.2.2, hm.1⟩
    · exact ⟨u2.trans hm.2.1, u3.trans hm.2.2, u1.trans hm.1⟩
  unfold checkCardStatus
  exact key _ _ (fun x => !x.logger.cardPresent && w.logger.cardPresent)

/-- The power poll that sees the supply back while the power-lost flag is set
clears the flag and runs the restoration. -/
theorem checkPowerStatus_restores (env : Env) (registers : List RegisterDescriptor) (w : World)
    (hpl : w.logger.powerLost = true) (hsee : seesPowerRestored registers w) :
    checkPowerStatus env registers w
      = (handlePowerRestoration env
          { w with
            chip := (readRegister registers "UrmsA" w.chip).2.2,
            logger := { w.logger with powerLost := false } }).2 := by
  obtain ⟨hd, hs, hv⟩ := hsee
  have e1 : (!w.logger.powerLossDetectionEnabled) = false := by simp [hd]
  have e2 : (!(readRegister registers "UrmsA" w.chip).2.1) = false := by simp [hs]
  have hc1 : ¬ ((readRegister registers "UrmsA" w.chip).1 < w.logger.powerLossThreshold ∧
      w.logger.powerLost = false) := fun h => absurd h.1 (not_lt.mpr hv)
  have hc2 : (readRegister registers "UrmsA" w.chip).1 ≥ w.logger.powerLossThreshold ∧
      w.logger.powerLost = true := ⟨hv, hpl⟩
  unfold checkPowerStatus
  simp only [e1, e2, Bool.false_eq_true, if_false, if_neg hc1]
  exact if_pos hc2

/-- C26, amended: the power poll that sees the supply back while the power-lost
flag is set runs `handlePowerRestoration`.  With a card-detect pin that reports
a card, the restoration attempts the mount (the card is mounted afterwards
exactly when one of the three `SD.begin` attempts succeeds); it returns true
exactly when the mount succeeds and the card is not write-protected, and then
the cursor is 0 and `settingsNeedReload()` returns true once and false on the
second call.  Without a card-detect pin and with the initialized flag clear,
as the unmount of the power-loss handling leaves it, the restoration returns
false and changes nothing but the presence and write-protect flags, which it
clears: no mount is attempted. -/
theorem restoration_remounts_when_card_detected (env : Env)
    (registers : List RegisterDescriptor) (w w0 : World)
    (hpl : w.logger.powerLost = true) (hsee : seesPowerRestored registers w)
    (hw0 : w0 = { w with
      chip := (readRegister registers "UrmsA" w.chip).2.2,
      logger := { w.logger with powerLost := false } }) :
    checkPowerStatus env registers w = (handlePowerRestoration env w0).2 ∧
    (w.logger.cdPin ≥ 0 → env.pinHigh w.logger.cdPin = false →
      (handlePowerRestoration env w0).2.sd.mounted
        = (w.sd.beginOk 1 || w.sd.beginOk 2 || w.sd.beginOk 3) ∧
      ((handlePowerRestoration env w0).1 = true ↔
        (w.sd.beginOk 1 || w.sd.beginOk 2 || w.sd.beginOk 3) = true ∧
          ¬ (w.logger.wpPin ≥ 0 ∧ env.pinHigh w.logger.wpPin = true)) ∧
      ((handlePowerRestoration env w0).1 = true →
        (handlePowerRestoration env w0).2.logger.bufferIndex = 0 ∧
        (settingsNeedReload (handlePowerRestoration env w0).2.logger).1 = true ∧
        (settingsNeedReload
          (settingsNeedReload (handlePowerRestoration env w0).2.logger).2).1 = false)) ∧
    (w.logger.cdPin < 0 → w.logger.initialized = false →
      handlePowerRestoration env w0
        = (false,
            { w0 with logger := { w0.logger with cardPresent := false, writeProtected := false } })
      ∧ (handlePowerRestoration env w0).2.sd = w.sd
      ∧ (handlePowerRestoration env w0).2.logger.bufferIndex = w.logger.bufferIndex
      ∧ (handlePowerRestoration env w0).2.logger.settingsNeedReload
          = w.logger.settingsNeedReload) := by
  refine ⟨by rw [hw0]; exact checkPowerStatus_restores env registers w hpl hsee, ?_, ?_⟩
  · intro hcd hpin
    obtain ⟨hcp, hwp, hbo⟩ := checkCardStatus_flags env w0
    have hcd0 : w0.logger.cdPin ≥ 0 := by rw [hw0]; exact hcd
    have hsd0 : w0.sd.beginOk = w.sd.beginOk := by rw [hw0]
    have hcp' : (checkCardStatus env w0).logger.cardPresent = true := by
      rw [hcp, if_pos hcd0, hw0]
      simp [hpin]
    have hwp' : (checkCardStatus env w0).logger.writeProtected
        = (if w.logger.wpPin ≥ 0 then env.pinHigh w.logger.wpPin else false) := by
      rw [hwp, if_pos hcd0, hw0]
      simp [hpin]
    obtain ⟨m1, m2, -, -, m5⟩ := mountCard_frame (checkCardStatus env w0)
    rw [hbo, hsd0] at m1
    rw [hwp'] at m5
    have e0 : (!(checkCardStatus env w0).logger.cardPresent) = false := by rw [hcp']; rfl
    cases hb : (w.sd.beginOk 1 || w.sd.beginOk 2 || w.sd.beginOk 3) with
    | false =>
      rw [hb] at m1
      have e1 : (!(mountCard (checkCardStatus env w0)).1) = true := by rw [m1]; rfl
      simp only [handlePowerRestoration, e0, e1, Bool.false_eq_true, if_false, if_true]
      refine ⟨by rw [m2, m1], by simp, by simp⟩
    | true =>
      rw [hb] at m1
      have e1 : (!(mountCard (checkCardStatus env w0)).1) = false := by rw [m1]; rfl
      by_cases hprot : w.logger.wpPin ≥ 0 ∧ env.pinHigh w.logger.wpPin = true
      · have e2 : (mountCard (checkCardStatus env w0)).2.logger.writeProtected = true := by
          rw [m5, if_pos hprot.1, hprot.2]
        simp only [handlePowerRestoration, e0, e1, e2, Bool.false_eq_true, if_false, if_true]
        refine ⟨by rw [m2, m1], ?_, by simp⟩
        constructor
        · intro h; exact absurd h (by simp)
        · intro h; exact absurd hprot h.2
      · have e2 : (mountCard (checkCardStatus env w0)).2.logger.writeProtected = false := by
          rw [m5]
          by_cases hwpin : w.logger.wpPin ≥ 0
          · rw [if_pos hwpin]
            cases hp : env.pinHigh w.logger.wpPin
            · rfl
            · exact absurd ⟨hwpin, hp⟩ hprot
          · rw [if_neg hwpin]
        simp only [handlePowerRestoration, e0, e1, e2, Bool.false_eq_true, if_false]
        refine ⟨by rw [m2, m1], ?_, ?_⟩
        · exact ⟨fun _ => ⟨trivial, hprot⟩, fun _ => trivial⟩
        · intro _
          simp [settingsNeedReload]
  · intro hcd hinit
    have hcd' : ¬ w.logger.cdPin ≥ 0 := by omega
    have hck : checkCardStatus env w0
        = { w0 with logger := { w0.logger with cardPresent := false, writeProtected := false } } := by
      rw [hw0]
      unfold checkCardStatus
      simp only [if_neg hcd', hinit, Bool.false_eq_true, and_false, if_false, Bool.false_and,
        Bool.not_false, Bool.true_and]
      cases hprev : w.logger.cardPresent
      · simp
      · simp [unmountCard, hinit]
    have hres : handlePowerRestoration env w0
        = (false,
            { w0 with
              logger := { w0.logger with cardPresent := false, writeProtected := false } }) := by
      unfold handlePowerRestoration
      rw [hck]
      rfl
    refine ⟨hres, ?_, ?_, ?_⟩
    · rw [hres, hw0]
    · rw [hres, hw0]
    · rw [hres, hw0]

/-- C26, amended, on the sample logger.  With card-detect pin 4 reading low,
the poll that sees 230 V after the emergency sequence remounts the card,
returns true, leaves the cursor at 0 and makes `settingsNeedReload()` return
true once; without pins the restoration returns false and leaves the card
unmounted. -/
theorem restoration_remounts_when_card_detected_witness :
    checkPowerStatus sampleEnv loggerRegisters recoveringWorld
      = (handlePowerRestoration sampleEnv restorationEntry).2 ∧
    (handlePowerRestoration sampleEnv restorationEntry).1 = true ∧
    (handlePowerRestoration sampleEnv restorationEntry).2.sd.mounted = true ∧
    ((handlePowerRestoration sampleEnv restorationEntry).2.logger.bufferIndex = 0 ∧
      (settingsNeedReload (handlePowerRestoration sampleEnv restorationEntry).2.logger).1
        = true ∧
      (settingsNeedReload
        (settingsNeedReload (handlePowerRestoration sampleEnv restorationEntry).2.logger).2).1
        = false) ∧
    (handlePowerRestoration sampleEnv noPinRestorationEntry).1 = false ∧
    (handlePowerRestoration sampleEnv noPinRestorationEntry).2.sd.mounted = false ∧
    (handlePowerRestoration sampleEnv noPinRestorationEntry).2.sd
      = ({ noPinBrownout with chip := mainsChip } : World).sd :=
  have h := restoration_remounts_when_card_detected sampleEnv loggerRegisters recoveringWorld
    restorationEntry (by decide!) ⟨by decide!, by decide!, by decide!⟩ rfl
  have hn := restoration_remounts_when_card_detected sampleEnv loggerRegisters
    { noPinBrownout with chip := mainsChip } noPinRestorationEntry (by decide!)
    ⟨by decide!, by decide!, by decide!⟩ rfl
  ⟨h.1, by decide!, by decide!, (h.2.1 (by decide!) (by decide!)).2.2 (by decide!),
    by decide!, by decide!, (hn.2.2 (by decide!) (by decide!)).2.1⟩

/-! ## C27 -/

theorem calibrationConsistent_congr (acc acc' : EnergyAccumulator)
    (h : acc'.calibState = acc.calibState) (hinv : CalibrationConsistent acc) :
    CalibrationConsistent acc' := by
  unfold CalibrationConsistent at *
  rw [h]
  exact hinv

theorem saveToSettings_calibState (acc : EnergyAccumulator) :
    (saveToSettings acc).2.calibState = acc.calibState := by
  unfold saveToSettings
  cases acc.settings <;> rfl

theorem updatePhase_calibState (registers : List RegisterDescriptor)
    (s : EnergyAccumulator × Chip) (phase : Fin 3) :
    (updatePhase registers s phase).1.calibState = s.1.calibState := by
  unfold updatePhase
  cases hr : (readEnergyRegister registers s.1 phase.val s.2).1 with
  | none =>
    have : readEnergyRegister registers s.1 phase.val s.2
        = (none, (readEnergyRegister registers s.1 phase.val s.2).2) := by rw [← hr]
    rw [this]
  | some wattHours =>
    have : readEnergyRegister registers s.1 phase.val s.2
        = (some wattHours, (readEnergyRegister registers s.1 phase.val s.2).2) := by rw [← hr]
    rw [this]

theorem update_calibState (registers : List RegisterDescriptor) (now : Nat)
    (acc : EnergyAccumulator) (c : Chip) :
    (update registers now acc c).1.calibState = acc.calibState := by
  have hreads : ((if (!acc.calibState.calibrating) = true then
          if elapsed32 now acc.lastReadTime ≥ acc.readInterval then
            [0, 1, 2].foldl (updatePhase registers) ({ acc with lastReadTime := now }, c)
          else (acc, c)
        else (acc, c)) : EnergyAccumulator × Chip).1.calibState = acc.calibState := by
    split
    · split
      · simp only [List.foldl, updatePhase_calibState]
      · rfl
    · rfl
  have key : ∀ (s1 : EnergyAccumulator × Chip) (b : Prop) [Decidable b],
      s1.1.calibState = acc.calibState →
      (if b then ((saveToSettings { s1.1 with lastSaveTime := now }).2, s1.2)
        else s1).1.calibState = acc.calibState := by
    intro s1 b _ hs1
    split
    · rw [saveToSettings_calibState]
      exact hs1
    · exact hs1
  unfold update
  exact key _ _ hreads

theorem startCalibration_consistent (p : Platform) (registers : List RegisterDescriptor)
    (now phaseMask : Nat) (acc : EnergyAccumulator) (c : Chip)
    (hinv : CalibrationConsistent acc) :
    CalibrationConsistent (startCalibration p registers now phaseMask acc c).2.1 := by
  unfold startCalibration
  by_cases h1 : acc.calibState.calibrating = true
  · simpa only [if_pos h1] using hinv
  · by_cases h2 : phaseMask = 0 ∨ phaseMask > 0x07
    · simpa only [if_neg h1, if_pos h2] using hinv
    · simp only [if_neg h1, if_neg h2, CalibrationConsistent]
      constructor
      · simp only [true_iff]
        exact fun h => h2 (Or.inl h)
      · omega

theorem clear_phase_le (mask phase : Nat) (hmask : mask ≤ 7) (hph : phase < 3) :
    (mask &&& not32 (1 <<< phase)) % 256 ≤ 7 := by
  interval_cases mask <;> interval_cases phase <;> decide

theorem completeCalibration_consistent (p : Platform) (registers : List RegisterDescriptor)
    (now phase : Nat) (loadWatts durationMinutes : ℚ) (acc : EnergyAccumulator) (c : Chip)
    (hinv : CalibrationConsistent acc) :
    CalibrationConsistent
      (completeCalibration p registers now phase loadWatts durationMinutes acc c).2.1 := by
  unfold completeCalibration
  by_cases h1 : (!acc.calibState.calibrating) = true
  · simpa only [if_pos h1] using hinv
  by_cases h2 : phase ≥ 3
  · simpa only [if_neg h1, if_pos h2] using hinv
  by_cases h0 : acc.calibState.phaseMask &&& (1 <<< phase) = 0
  · simpa only [if_neg h1, if_neg h2, if_pos h0] using hinv
  simp only [if_neg h1, if_neg h2, if_neg h0]
  have hcal : acc.calibState.calibrating = true := by simpa using h1
  cases hr : (readEnergyRegister registers acc phase c).1 with
  | none =>
    have : readEnergyRegister registers acc phase c
        = (none, (readEnergyRegister registers acc phase c).2) := by rw [← hr]
    rw [this]
    exact hinv
  | some m =>
    have : readEnergyRegister registers acc phase c
        = (some m, (readEnergyRegister registers acc phase c).2) := by rw [← hr]
    rw [this]
    obtain ⟨hcs, -, -⟩ := calculateAndApplyGain_acc p registers acc phase
      (loadWatts * (durationMinutes / 60)) m (readEnergyRegister registers acc phase c).2
    simp only
    by_cases hg : (!(calculateAndApplyGain p registers acc phase
        (loadWatts * (durationMinutes / 60)) m (readEnergyRegister registers acc phase c).2).1)
        = true
    · simp only [if_pos hg]
      exact calibrationConsistent_congr acc _ hcs hinv
    · simp only [if_neg hg, hcs]
      have hle := clear_phase_le acc.calibState.phaseMask phase hinv.2 (by omega)
      by_cases hz : (acc.calibState.phaseMask &&& not32 (1 <<< phase)) % 256 = 0
      · simp only [if_pos hz, CalibrationConsistent]
        simp
        exact ⟨hz, hle⟩
      · simp only [if_neg hz, CalibrationConsistent]
        exact ⟨⟨fun _ => hz, fun _ => hcal⟩, hle⟩

theorem runCall_consistent (p : Platform) (registers : List RegisterDescriptor)
    (s : EnergyAccumulator × Chip) (call : AccumulatorCall)
    (hinv : CalibrationConsistent s.1) : CalibrationConsistent (runCall p registers s call).1 := by
  cases call with
  | begin settings now1 now2 =>
    apply calibrationConsistent_congr s.1 _ _ hinv
    simp only [runCall, accumulatorBegin]
    cases settings <;> rfl
  | setReadInterval intervalMs => exact calibrationConsistent_congr s.1 _ rfl hinv
  | setSaveInterval intervalMs => exact calibrationConsistent_congr s.1 _ rfl hinv
  | resetAccumulatedEnergy phase =>
    apply calibrationConsistent_congr s.1 _ _ hinv
    simp only [runCall, resetAccumulatedEnergy]
    split
    · rw [saveToSettings_calibState]
    · rfl
  | setAccumulatedEnergy phase kWh =>
    apply calibrationConsistent_congr s.1 _ _ hinv
    simp only [runCall, setAccumulatedEnergy]
    split <;> rfl
  | update now =>
    exact calibrationConsistent_congr s.1 _ (update_calibState registers now s.1 s.2) hinv
  | startCalibration now phaseMask =>
    exact startCalibration_consistent p registers now phaseMask s.1 s.2 hinv
  | completeCalibration now phase loadWatts durationMinutes =>
    exact completeCalibration_consistent p registers now phase loadWatts durationMinutes
      s.1 s.2 hinv
  | saveToSettings =>
    exact calibrationConsistent_congr s.1 _ (saveToSettings_calibState s.1) hinv

theorem foldl_runCall_consistent (p : Platform) (registers : List RegisterDescriptor)
    (calls : List AccumulatorCall) (s : EnergyAccumulator × Chip)
    (hinv : CalibrationConsistent s.1) :
    CalibrationConsistent (calls.foldl (runCall p registers) s).1 := by
  induction calls generalizing s with
  | nil => exact hinv
  | cons call rest ih => exact ih _ (runCall_consistent p registers s call hinv)

/-- C27: after construction and any sequence of calls of the accumulator's
public interface (`startCalibration`, `completeCalibration`, `update`, and
also `begin`, the setters, the reset and `saveToSettings`), with any arguments,
any clock values and any chip contents, the calibrating flag is set if and
only if the phase mask is non-zero, and the phase mask is at most 7. -/
theorem calibrating_iff_mask_nonzero (p : Platform) (registers : List RegisterDescriptor)
    (calls : List AccumulatorCall) (c : Chip) :
    ((runCalls p registers calls c).1.calibState.calibrating = true ↔
      (runCalls p registers calls c).1.calibState.phaseMask ≠ 0) ∧
    (runCalls p registers calls c).1.calibState.phaseMask ≤ 7 :=
  foldl_runCall_consistent p registers calls (initialAccumulator, c)
    ⟨by simp [initialAccumulator], by simp [initialAccumulator]⟩

/-- C27 along a session on the sample table: after `startCalibration(0b011)`
the flag is set with mask 3; completing phase A leaves mask 2 with the flag
set; completing phase B leaves mask 0 with the flag clear. -/
theorem calibrating_iff_mask_nonzero_witness :
    ((runCalls zeroPlatform sampleRegisters
        [AccumulatorCall.startCalibration 10 3,
          AccumulatorCall.completeCalibration 20 0 1000 (15 / 8)]
        energyChip).1.calibState.calibrating = true ↔
      (runCalls zeroPlatform sampleRegisters
        [AccumulatorCall.startCalibration 10 3,
          AccumulatorCall.completeCalibration 20 0 1000 (15 / 8)]
        energyChip).1.calibState.phaseMask ≠ 0) ∧
    (runCalls zeroPlatform sampleRegisters [AccumulatorCall.startCalibration 10 3]
      energyChip).1.calibState.phaseMask = 3 ∧
    (runCalls zeroPlatform sampleRegisters
      [AccumulatorCall.startCalibration 10 3,
        AccumulatorCall.completeCalibration 20 0 1000 (15 / 8)]
      energyChip).1.calibState.phaseMask = 2 ∧
    (runCalls zeroPlatform sampleRegisters
      [AccumulatorCall.startCalibration 10 3,
        AccumulatorCall.completeCalibration 20 0 1000 (15 / 8),
        AccumulatorCall.update 30,
        AccumulatorCall.completeCalibration 40 1 1000 (15 / 8)]
      energyChip).1.calibState.phaseMask = 0 ∧
    (runCalls zeroPlatform sampleRegisters
      [AccumulatorCall.startCalibration 10 3,
        AccumulatorCall.completeCalibration 20 0 1000 (15 / 8),
        AccumulatorCall.update 30,
        AccumulatorCall.completeCalibration 40 1 1000 (15 / 8)]
      energyChip).1.calibState.calibrating = false :=
  ⟨(calibrating_iff_mask_nonzero zeroPlatform sampleRegisters
      [AccumulatorCall.startCalibration 10 3,
        AccumulatorCall.completeCalibration 20 0 1000 (15 / 8)] energyChip).1,
    by decide!, by decide!, by decide!, by decide!⟩

/-! ## C28 -/

theorem elapsed32_wrap (t e : Nat) (ht : t < 2 ^ 32) (he : e < 2 ^ 32) :
    elapsed32 ((t + e) % 2 ^ 32) t = e := by
  unfold elapsed32
  omega

theorem updatePhase_timers (registers : List RegisterDescriptor)
    (s : EnergyAccumulator × Chip) (phase : Fin 3) :
    (updatePhase registers s phase).1.lastReadTime = s.1.lastReadTime ∧
    (updatePhase registers s phase).1.lastSaveTime = s.1.lastSaveTime ∧
    (updatePhase registers s phase).1.saveInterval = s.1.saveInterval := by
  unfold updatePhase
  cases hr : (readEnergyRegister registers s.1 phase.val s.2).1 with
  | none =>
    have : readEnergyRegister registers s.1 phase.val s.2
        = (none, (readEnergyRegister registers s.1 phase.val s.2).2) := by rw [← hr]
    rw [this]
    exact ⟨rfl, rfl, rfl⟩
  | some wattHours =>
    have : readEnergyRegister registers s.1 phase.val s.2
        = (some wattHours, (readEnergyRegister registers s.1 phase.val s.2).2) := by rw [← hr]
    rw [this]
    exact ⟨rfl, rfl, rfl⟩

theorem saveToSettings_timers (acc : EnergyAccumulator) :
    (saveToSettings acc).2.lastReadTime = acc.lastReadTime ∧
    (saveToSettings acc).2.lastSaveTime = acc.lastSaveTime := by
  unfold saveToSettings
  cases acc.settings <;> exact ⟨rfl, rfl⟩

/-- The timers `update` leaves, in terms of its two interval tests. -/
theorem update_timers (registers : List RegisterDescriptor) (now : Nat)
    (acc : EnergyAccumulator) (c : Chip) :
    (acc.calibState.calibrating = false →
      (update registers now acc c).1.lastReadTime
        = if elapsed32 now acc.lastReadTime ≥ acc.readInterval then now else acc.lastReadTime) ∧
    (update registers now acc c).1.lastSaveTime
      = if elapsed32 now acc.lastSaveTime ≥ acc.saveInterval then now else acc.lastSaveTime := by
  have hs1 : ∀ s1 : EnergyAccumulator × Chip,
      s1 = (if (!acc.calibState.calibrating) = true then
          if elapsed32 now acc.lastReadTime ≥ acc.readInterval then
            [0, 1, 2].foldl (updatePhase registers) ({ acc with lastReadTime := now }, c)
          else (acc, c)
        else (acc, c)) →
      s1.1.lastSaveTime = acc.lastSaveTime ∧ s1.1.saveInterval = acc.saveInterval ∧
      (acc.calibState.calibrating = false →
        s1.1.lastReadTime
          = if elapsed32 now acc.lastReadTime ≥ acc.readInterval then now
            else acc.lastReadTime) := by
    intro s1 hs1
    subst hs1
    by_cases hcal : (!acc.calibState.calibrating) = true
    · by_cases hel : elapsed32 now acc.lastReadTime ≥ acc.readInterval
      · simp only [if_pos hcal, if_pos hel, List.foldl]
        obtain ⟨a1, a2, a3⟩ := updatePhase_timers registers ({ acc with lastReadTime := now }, c) 0
        obtain ⟨b1, b2, b3⟩ := updatePhase_timers registers
          (updatePhase registers ({ acc with lastReadTime := now }, c) 0) 1
        obtain ⟨c1, c2, c3⟩ := updatePhase_timers registers
          (updatePhase registers (updatePhase registers ({ acc with lastReadTime := now }, c) 0)
            1) 2
        exact ⟨c2.trans (b2.trans a2), c3.trans (b3.trans a3), fun _ => c1.trans (b1.trans a1)⟩
      · rw [if_pos hcal, if_neg hel]
        exact ⟨rfl, rfl, fun _ => (if_neg hel).symm⟩
    · rw [if_neg hcal]
      refine ⟨rfl, rfl, fun h => ?_⟩
      rw [h] at hcal
      exact absurd rfl hcal
  have key : ∀ (s1 : EnergyAccumulator × Chip),
      ((if elapsed32 now s1.1.lastSaveTime ≥ s1.1.saveInterval then
          ((saveToSettings { s1.1 with lastSaveTime := now }).2, s1.2)
        else s1).1.lastReadTime = s1.1.lastReadTime) ∧
      ((if elapsed32 now s1.1.lastSaveTime ≥ s1.1.saveInterval then
          ((saveToSettings { s1.1 with lastSaveTime := now }).2, s1.2)
        else s1).1.lastSaveTime
        = if elapsed32 now s1.1.lastSaveTime ≥ s1.1.saveInterval then now
          else s1.1.lastSaveTime) := by
    intro s1
    by_cases hb : elapsed32 now s1.1.lastSaveTime ≥ s1.1.saveInterval
    · obtain ⟨t1, t2⟩ := saveToSettings_timers { s1.1 with lastSaveTime := now }
      simp only [if_pos hb]
      exact ⟨t1, t2⟩
    · simp only [if_neg hb, and_self]
  obtain ⟨h1, h2, h3⟩ := hs1 _ rfl
  obtain ⟨k1, k2⟩ := key (if (!acc.calibState.calibrating) = true then
          if elapsed32 now acc.lastReadTime ≥ acc.readInterval then
            [0, 1, 2].foldl (updatePhase registers) ({ acc with lastReadTime := now }, c)
          else (acc, c)
        else (acc, c))
  unfold update
  constructor
  · intro hcal
    exact k1.trans (h3 hcal)
  · refine k2.trans ?_
    rw [h1, h2]

theorem sameTimers_trans {a b c : SDCardLogger} (h1 : sameTimers a b) (h2 : sameTimers b c) :
    sameTimers a c :=
  ⟨h2.1.trans h1.1, h2.2.1.trans h1.2.1, h2.2.2.1.trans h1.2.2.1, h2.2.2.2.trans h1.2.2.2⟩

theorem mountCard_timers (w : World) : sameTimers w.logger (mountCard w).2.logger := by
  unfold mountCard printCardInfo sameTimers
  split
  · split <;> simp
  · simp

theorem unmountCard_timers (w : World) : sameTimers w.logger (unmountCard w).logger := by
  unfold unmountCard sameTimers
  split <;> simp

theorem sameTimers_mount (l : SDCardLogger) (w1 : World) (b : Bool)
    (h : sameTimers l w1.logger) :
    sameTimers l (if b = true then (mountCard w1).2 else w1).logger := by
  cases b
  · exact h
  · exact sameTimers_trans h (mountCard_timers w1)

theorem sameTimers_unmount (l : SDCardLogger) (w2 : World) (b : Bool)
    (h : sameTimers l w2.logger) :
    sameTimers l (if b = true then unmountCard w2 else w2).logger := by
  cases b
  · exact h
  · exact sameTimers_trans h (unmountCard_timers w2)

theorem checkCardStatus_timers (env : Env) (w : World) :
    sameTimers w.logger (checkCardStatus env w).logger := by
  unfold checkCardStatus
  simp only
  apply sameTimers_unmount
  apply sameTimers_mount
  exact ⟨rfl, rfl, rfl, rfl⟩

theorem flushBuffer_timers (env : Env) (registers : List RegisterDescriptor) (w : World) :
    sameTimers w.logger (flushBuffer env registers w).2.logger := by
  unfold flushBuffer sameTimers
  by_cases h : w.logger.bufferIndex = 0
  · simp [h]
  · by_cases hg : (!w.logger.initialized || w.logger.writeProtected) = true
    · simp [h, hg]
    · simp only [if_neg h, if_neg hg]
      split <;> simp

theorem handlePowerLoss_timers (env : Env) (registers : List RegisterDescriptor) (w : World) :
    sameTimers w.logger (handlePowerLoss env registers w).2.logger := by
  have hshape : ∃ w2 : World, sameTimers w.logger w2.logger ∧
      handlePowerLoss env registers w
        = ((flushBuffer env registers w2).1, unmountCard (flushBuffer env registers w2).2) := by
    refine ⟨_, ?_, rfl⟩
    cases w.accumulator <;> simp only <;> split <;> simp [sameTimers]
  obtain ⟨w2, h2, hs⟩ := hshape
  rw [hs]
  exact sameTimers_trans (sameTimers_trans h2 (flushBuffer_timers env registers w2))
    (unmountCard_timers _)

theorem handlePowerRestoration_timers (env : Env) (w : World) :
    sameTimers w.logger (handlePowerRestoration env w).2.logger := by
  have h1 := checkCardStatus_timers env w
  have h2 := sameTimers_trans h1 (mountCard_timers (checkCardStatus env w))
  have key : ∀ (b1 b2 b3 : Bool),
      sameTimers w.logger
        (if b1 = true then (false, checkCardStatus env w)
          else if b2 = true then (false, (mountCard (checkCardStatus env w)).2)
          else if b3 = true then (false, (mountCard (checkCardStatus env w)).2)
          else
            (true,
              { (mountCard (checkCardStatus env w)).2 with
                logger :=
                  { (mountCard (checkCardStatus env w)).2.logger with
                    bufferIndex := 0, settingsNeedReload := true } })).2.logger := by
    intro b1 b2 b3
    cases b1
    · cases b2
      · cases b3
        · exact h2
        · exact h2
      · exact h2
    · exact h1
  unfold handlePowerRestoration
  exact key _ _ _

theorem checkPowerStatus_timers (env : Env) (registers : List RegisterDescriptor) (w : World) :
    sameTimers w.logger (checkPowerStatus env registers w).logger := by
  have hloss : ∀ (w1 : World) (b : Prop) [Decidable b], sameTimers w.logger w1.logger →
      sameTimers w.logger
        (if b then
          (handlePowerLoss env registers
            { w1 with logger := { w1.logger with powerLost := true } }).2
        else w1).logger := by
    intro w1 b _ h
    by_cases hb : b
    · rw [if_pos hb]
      exact sameTimers_trans
        (show sameTimers w.logger
          ({ w1 with logger := { w1.logger with powerLost := true } } : World).logger from h)
        (handlePowerLoss_timers env registers _)
    · rw [if_neg hb]
      exact h
  have hrest : ∀ (w2 : World) (b : Prop) [Decidable b], sameTimers w.logger w2.logger →
      sameTimers w.logger
        (if b then
          (handlePowerRestoration env
            { w2 with logger := { w2.logger with powerLost := false } }).2
        else w2).logger := by
    intro w2 b _ h
    by_cases hb : b
    · rw [if_pos hb]
      exact sameTimers_trans
        (show sameTimers w.logger
          ({ w2 with logger := { w2.logger with powerLost := false } } : World).logger from h)
        (handlePowerRestoration_timers env _)
    · rw [if_neg hb]
      exact h
  unfold checkPowerStatus
  by_cases hd : (!w.logger.powerLossDetectionEnabled) = true
  · rw [if_pos hd]
    exact ⟨rfl, rfl, rfl, rfl⟩
  · rw [if_neg hd]
    by_cases hs : (!(readRegister registers "UrmsA" w.chip).2.1) = true
    · simp only [if_pos hs]
      exact ⟨rfl, rfl, rfl, rfl⟩
    · simp only [if_neg hs]
      apply hrest
      apply hloss
      exact ⟨rfl, rfl, rfl, rfl⟩

theorem logMeasurement_timers (env : Env) (registers : List RegisterDescriptor) (w : World) :
    sameTimers w.logger (logMeasurement env registers w).2.logger := by
  have key : ∀ (w2 : World) (b : Prop) [Decidable b], sameTimers w.logger w2.logger →
      sameTimers w.logger
        (if b then flushBuffer env registers w2 else (true, w2)).2.logger := by
    intro w2 b _ h
    by_cases hb : b
    · rw [if_pos hb]
      exact sameTimers_trans h (flushBuffer_timers env registers w2)
    · rw [if_neg hb]
      exact h
  by_cases g1 : (!w.logger.initialized || w.logger.writeProtected || !env.rtcValid) = true
  · simp only [logMeasurement, g1, if_true]
    exact ⟨rfl, rfl, rfl, rfl⟩
  by_cases g2 : (!w.logger.bufferAllocated || decide (w.logger.bufferSize = 0)) = true
  · simp only [logMeasurement, g1, g2, if_true, if_false]
    exact ⟨rfl, rfl, rfl, rfl⟩
  by_cases g3 : (!(takeMeasurement env registers w.logger w.accumulator
      (w.logger.buffer w.logger.bufferIndex) w.chip).1) = true
  · simp only [logMeasurement, g1, g2, g3, if_true, if_false]
    exact ⟨rfl, rfl, rfl, rfl⟩
  simp only [logMeasurement, g1, g2, g3, if_false]
  exact key _ _ ⟨rfl, rfl, rfl, rfl⟩

/-- The timers `SDCardLogger::update` leaves, in terms of its three interval
tests. -/
theorem loggerUpdate_timers (env : Env) (registers : List RegisterDescriptor) (now : Nat)
    (w : World) :
    (loggerUpdate env registers now w).logger.lastCardCheck
      = (if elapsed32 now w.logger.lastCardCheck ≥ 1000 then now else w.logger.lastCardCheck) ∧
    (loggerUpdate env registers now w).logger.lastPowerCheck
      = (if elapsed32 now w.logger.lastPowerCheck ≥ 100 then now
          else w.logger.lastPowerCheck) ∧
    (¬ elapsed32 now w.logger.lastLogTime ≥ w.logger.loggingInterval →
      (loggerUpdate env registers now w).logger.lastLogTime = w.logger.lastLogTime) := by
  -- the card poll
  have h1 : ∀ w1 : World, w1 = (if elapsed32 now w.logger.lastCardCheck ≥ 1000 then
      { checkCardStatus env w with
        logger := { (checkCardStatus env w).logger with lastCardCheck := now } }
      else w) →
      w1.logger.lastCardCheck
        = (if elapsed32 now w.logger.lastCardCheck ≥ 1000 then now
            else w.logger.lastCardCheck) ∧
      w1.logger.lastPowerCheck = w.logger.lastPowerCheck ∧
      w1.logger.lastLogTime = w.logger.lastLogTime ∧
      w1.logger.loggingInterval = w.logger.loggingInterval := by
    intro w1 hw1
    subst hw1
    obtain ⟨-, t2, t3, t4⟩ := checkCardStatus_timers env w
    by_cases hc : elapsed32 now w.logger.lastCardCheck ≥ 1000
    · rw [if_pos hc, if_pos hc]
      exact ⟨rfl, t2, t3, t4⟩
    · rw [if_neg hc, if_neg hc]
      exact ⟨rfl, rfl, rfl, rfl⟩
  -- the power poll
  have h2 : ∀ w1 w2 : World, w2 = (if elapsed32 now w1.logger.lastPowerCheck ≥ 100 then
      { checkPowerStatus env registers w1 with
        logger := { (checkPowerStatus env registers w1).logger with lastPowerCheck := now } }
      else w1) →
      w2.logger.lastCardCheck = w1.logger.lastCardCheck ∧
      w2.logger.lastPowerCheck
        = (if elapsed32 now w1.logger.lastPowerCheck ≥ 100 then now
            else w1.logger.lastPowerCheck) ∧
      w2.logger.lastLogTime = w1.logger.lastLogTime ∧
      w2.logger.loggingInterval = w1.logger.loggingInterval := by
    intro w1 w2 hw2
    subst hw2
    obtain ⟨t1, -, t3, t4⟩ := checkPowerStatus_timers env registers w1
    by_cases hc : elapsed32 now w1.logger.lastPowerCheck ≥ 100
    · rw [if_pos hc, if_pos hc]
      exact ⟨t1, rfl, t3, t4⟩
    · rw [if_neg hc, if_neg hc]
      exact ⟨rfl, rfl, rfl, rfl⟩
  -- the capture
  have h3 : ∀ w2 w3 : World,
      w3 = (if w2.logger.powerLost = true then w2
          else if (!w2.logger.initialized || !w2.logger.loggingEnabled ||
              w2.logger.writeProtected || !env.rtcValid) = true then w2
          else if elapsed32 now w2.logger.lastLogTime ≥ w2.logger.loggingInterval then
            if (logMeasurement env registers w2).1 = true then
              { (logMeasurement env registers w2).2 with
                logger := { (logMeasurement env registers w2).2.logger with lastLogTime := now } }
            else (logMeasurement env registers w2).2
          else w2) →
      w3.logger.lastCardCheck = w2.logger.lastCardCheck ∧
      w3.logger.lastPowerCheck = w2.logger.lastPowerCheck ∧
      (¬ elapsed32 now w2.logger.lastLogTime ≥ w2.logger.loggingInterval →
        w3.logger.lastLogTime = w2.logger.lastLogTime) := by
    intro w2 w3 hw3
    subst hw3
    obtain ⟨l1, l2, -, -⟩ := logMeasurement_timers env registers w2
    split
    · exact ⟨rfl, rfl, fun _ => rfl⟩
    · split
      · exact ⟨rfl, rfl, fun _ => rfl⟩
      · split
        · rename_i hel
          split
          · exact ⟨l1, l2, fun h => absurd hel h⟩
          · exact ⟨l1, l2, fun h => absurd hel h⟩
        · exact ⟨rfl, rfl, fun _ => rfl⟩
  obtain ⟨a1, a2, a3, a4⟩ := h1 _ rfl
  obtain ⟨b1, b2, b3, b4⟩ := h2 _ _ rfl
  obtain ⟨c1, c2, c3⟩ := h3 _ _ rfl
  unfold loggerUpdate
  refine ⟨c1.trans (b1.trans a1), ?_, ?_⟩
  · refine c2.trans (b2.trans ?_)
    rw [a2]
  · intro hno
    refine (c3 ?_).trans (b3.trans a3)
    rw [b3, a3, b4, a4]
    exact hno

/-- C28: for a last-event time `t` and a true elapsed time `e`, both below
2^32, and `now = (t + e) mod 2^32`, the wrapping difference `now - t` is `e`,
so the test `now - t >= interval` holds exactly when `e >= interval`.  In
`EnergyAccumulator::update` the read timer (in normal mode) and the save timer
are set to `now` when `e` has reached their interval and stay at `t`
otherwise; in `SDCardLogger::update` the same holds for the card poll
(1000 ms) and the power poll (100 ms), and the capture timer stays at `t`
while `e` is below the logging interval. -/
theorem interval_checks_wrap_safe (t e interval : Nat) (ht : t < 2 ^ 32) (he : e < 2 ^ 32) :
    elapsed32 ((t + e) % 2 ^ 32) t = e ∧
    (elapsed32 ((t + e) % 2 ^ 32) t ≥ interval ↔ e ≥ interval) ∧
    (∀ (registers : List RegisterDescriptor) (acc : EnergyAccumulator) (c : Chip),
      acc.calibState.calibrating = false → acc.lastReadTime = t →
      (update registers ((t + e) % 2 ^ 32) acc c).1.lastReadTime
        = if e ≥ acc.readInterval then (t + e) % 2 ^ 32 else t) ∧
    (∀ (registers : List RegisterDescriptor) (acc : EnergyAccumulator) (c : Chip),
      acc.lastSaveTime = t →
      (update registers ((t + e) % 2 ^ 32) acc c).1.lastSaveTime
        = if e ≥ acc.saveInterval then (t + e) % 2 ^ 32 else t) ∧
    (∀ (env : Env) (registers : List RegisterDescriptor) (w : World),
      w.logger.lastCardCheck = t →
      (loggerUpdate env registers ((t + e) % 2 ^ 32) w).logger.lastCardCheck
        = if e ≥ 1000 then (t + e) % 2 ^ 32 else t) ∧
    (∀ (env : Env) (registers : List RegisterDescriptor) (w : World),
      w.logger.lastPowerCheck = t →
      (loggerUpdate env registers ((t + e) % 2 ^ 32) w).logger.lastPowerCheck
        = if e ≥ 100 then (t + e) % 2 ^ 32 else t) ∧
    (∀ (env : Env) (registers : List RegisterDescriptor) (w : World),
      w.logger.lastLogTime = t → e < w.logger.loggingInterval →
      (loggerUpdate env registers ((t + e) % 2 ^ 32) w).logger.lastLogTime = t) := by
  have hw := elapsed32_wrap t e ht he
  refine ⟨hw, by rw [hw], ?_, ?_, ?_, ?_, ?_⟩
  · intro registers acc c hcal hlast
    rw [(update_timers registers _ acc c).1 hcal, hlast, hw]
  · intro registers acc c hlast
    rw [(update_timers registers _ acc c).2, hlast, hw]
  · intro env registers w hlast
    rw [(loggerUpdate_timers env registers _ w).1, hlast, hw]
  · intro env registers w hlast
    rw [(loggerUpdate_timers env registers _ w).2.1, hlast, hw]
  · intro env registers w hlast hlt
    rw [(loggerUpdate_timers env registers _ w).2.2 (by rw [hlast, hw]; omega), hlast]

/-- C28 across the wrap: the last read was 1000 ms before the counter wraps.
After 20000 ms the counter shows 19000 and the read runs (three bus reads,
timer set to 19000); after 19999 ms it shows 18999 and does not. -/
theorem interval_checks_wrap_safe_witness :
    (4294966296 + 20000) % 2 ^ 32 = 19000 ∧
    elapsed32 19000 4294966296 = 20000 ∧
    (elapsed32 ((4294966296 + 20000) % 2 ^ 32) 4294966296 ≥ 20000 ↔ 20000 ≥ 20000) ∧
    (update sampleRegisters 19000 { initialAccumulator with lastReadTime := 4294966296 }
      energyChip).1.lastReadTime = 19000 ∧
    (update sampleRegisters 19000 { initialAccumulator with lastReadTime := 4294966296 }
      energyChip).2.log = [BusOp.read 0x81, BusOp.read 0x82, BusOp.read 0x83] ∧
    (update sampleRegisters 18999 { initialAccumulator with lastReadTime := 4294966296 }
      energyChip).1.lastReadTime = 4294966296 ∧
    (update sampleRegisters 18999 { initialAccumulator with lastReadTime := 4294966296 }
      energyChip).2.log = [] :=
  ⟨by decide, by decide,
    (interval_checks_wrap_safe 4294966296 20000 20000 (by decide) (by decide)).2.1,
    by decide!, by decide!, by decide!, by decide!⟩

/-! ## C29 -/

/-- C29, in exact arithmetic: for `expectedWh > 0` and `measuredWh ≥ 0.1`
neither division of the gain formula is by zero (`expectedWh ≠ 0` and
`1 + ε ≠ 0`), the value before the 16-bit cast is
`32768 * (expectedWh - measuredWh) / measuredWh`, that is the operand of the
cast in `calculateAndApplyGain`, and it lies in `[-32768, 32767]` if and only
if `expectedWh ≤ measuredWh * 65535 / 32768`. -/
theorem gainCalc_closed_form (expectedWh measuredWh : ℚ) (he : 0 < expectedWh)
    (hm : 1 / 10 ≤ measuredWh) :
    expectedWh ≠ 0 ∧
    1 + (measuredWh - expectedWh) / expectedWh ≠ 0 ∧
    gainCalc expectedWh measuredWh = 32768 * (expectedWh - measuredWh) / measuredWh ∧
    (∀ p : Platform, newGain p expectedWh measuredWh
      = floatToI16 p (32768 * (expectedWh - measuredWh) / measuredWh)) ∧
    ((-32768 ≤ gainCalc expectedWh measuredWh ∧ gainCalc expectedWh measuredWh ≤ 32767) ↔
      expectedWh ≤ measuredWh * 65535 / 32768) := by
  have he0 : expectedWh ≠ 0 := he.ne'
  have hm0 : 0 < measuredWh := lt_of_lt_of_le (by norm_num) hm
  have hm0' : measuredWh ≠ 0 := hm0.ne'
  have hsum : 1 + (measuredWh - expectedWh) / expectedWh = measuredWh / expectedWh := by
    field_simp
  have hne : 1 + (measuredWh - expectedWh) / expectedWh ≠ 0 := by
    rw [hsum]
    exact div_ne_zero hm0' he0
  have hform : gainCalc expectedWh measuredWh
      = 32768 * (expectedWh - measuredWh) / measuredWh := by
    unfold gainCalc
    simp only
    rw [hsum]
    field_simp
    ring
  refine ⟨he0, hne, hform, ?_, ?_⟩
  · intro p
    unfold newGain
    rw [if_neg he0, hform]
  · rw [hform]
    constructor
    · rintro ⟨-, hhi⟩
      rw [div_le_iff₀ hm0] at hhi
      rw [le_div_iff₀ (by norm_num : (0 : ℚ) < 32768)]
      linarith
    · intro h
      rw [le_div_iff₀ (by norm_num : (0 : ℚ) < 32768)] at h
      constructor
      · rw [le_div_iff₀ hm0]
        nlinarith
      · rw [div_le_iff₀ hm0]
        linarith

/-- C29 at `expectedWh = 100`, `measuredWh = 110`: the value before the cast is
`-32768 / 11`, inside the 16-bit range; at `expectedWh = 300`,
`measuredWh = 100` it is 65536, outside, and indeed `300 > 100 * 65535 / 32768`. -/
theorem gainCalc_closed_form_witness :
    gainCalc 100 110 = 32768 * (100 - 110) / 110 ∧
    ((-32768 ≤ gainCalc 100 110 ∧ gainCalc 100 110 ≤ 32767) ↔
      (100 : ℚ) ≤ 110 * 65535 / 32768) ∧
    gainCalc 100 110 = -32768 / 11 ∧
    gainCalc 300 100 = 65536 ∧
    ¬ ((300 : ℚ) ≤ 100 * 65535 / 32768) :=
  ⟨(gainCalc_closed_form 100 110 (by norm_num) (by norm_num)).2.2.1,
    (gainCalc_closed_form 100 110 (by norm_num) (by norm_num)).2.2.2.2,
    by decide!, by decide!, by norm_num⟩

end WattMeterJR
